import Mathlib

/-!
# Marvin voice assistant: command router and perception loops

A shallow embedding of `script.js`.  A JavaScript string is modelled as the list of its
characters; every literal the program compares against is ASCII.  The browser services the
program talks to (speech synthesis, camera, network, clock, random source) are an explicit
`World` of outcomes, and every function returns the session state it leaves together with
the ordered list of effects it caused.
-/

namespace Marvin

/-- A JavaScript string value. -/
abbrev JSString := List Char

/-! ## String primitives of the host language -/

/-- Line terminators of the language: LF, CR, LS, PS. -/
def isLineTerminator (c : Char) : Bool :=
  c.toNat == 0x0A || c.toNat == 0x0D || c.toNat == 0x2028 || c.toNat == 0x2029

/-- White space stripped by `String.prototype.trim`: the WhiteSpace and LineTerminator
productions. -/
def isTrimSpace (c : Char) : Bool :=
  isLineTerminator c ||
  c.toNat == 0x09 || c.toNat == 0x0B || c.toNat == 0x0C || c.toNat == 0x20 ||
  c.toNat == 0xA0 || c.toNat == 0x1680 || (0x2000 ≤ c.toNat && c.toNat ≤ 0x200A) ||
  c.toNat == 0x202F || c.toNat == 0x205F || c.toNat == 0x3000 || c.toNat == 0xFEFF

/-- `s.trim()`. -/
def trim (s : JSString) : JSString :=
  ((s.dropWhile isTrimSpace).reverse.dropWhile isTrimSpace).reverse

/-- `s.startsWith(p)`. -/
def startsWith (s p : JSString) : Bool := p.isPrefixOf s

/-- `s.includes(p)`. -/
def includes : JSString → JSString → Bool
  | [], p => p.isEmpty
  | c :: s, p => p.isPrefixOf (c :: s) || includes s p

/-- `s.replace(p, '')` for a string pattern `p`: the first occurrence of `p` is removed. -/
def removeFirst : JSString → JSString → JSString
  | [], _ => []
  | c :: s, p => if p.isPrefixOf (c :: s) then (c :: s).drop p.length else c :: removeFirst s p

/-- Worker of `split`: `skip` characters of a separator just found are still to be passed
over, `cur` is the current piece, reversed. -/
def splitAux (sep : JSString) : Nat → JSString → JSString → List JSString
  | _, cur, [] => [cur.reverse]
  | skip + 1, cur, _ :: s => splitAux sep skip cur s
  | 0, cur, c :: s =>
    if sep.isPrefixOf (c :: s) then cur.reverse :: splitAux sep (sep.length - 1) [] s
    else splitAux sep 0 (c :: cur) s

/-- `s.split(sep)` for a non-empty separator. -/
def split (s sep : JSString) : List JSString := splitAux sep 0 [] s

/-- `\w` of a regular expression without the unicode flag. -/
def isWordChar (c : Char) : Bool := c.isAlphanum || c == '_'

/-- Whether the position after `prev` and before `next` is a `\b` word boundary. -/
def isWordBoundary (prev next : Option Char) : Bool :=
  (prev.map isWordChar).getD false != (next.map isWordChar).getD false

/-- `/\bW\b/.test(s)` for a non-empty literal `W`, scanning `s` with `prev` the character
before it (none at the start of the string). -/
def testWordFrom (w : JSString) : Option Char → JSString → Bool
  | _, [] => false
  | prev, c :: s =>
    (w.isPrefixOf (c :: s) && isWordBoundary prev (some c) &&
      isWordBoundary w.getLast? ((c :: s).drop w.length).head?) ||
    testWordFrom w (some c) s

/-- `/\bW\b/.test(s)`. -/
def testWord (w s : JSString) : Bool := testWordFrom w none s

/-- Canonical form used by a case-insensitive match without the unicode flag, compared
against an ASCII pattern character: ASCII letters fold to upper case, and a character outside
ASCII never folds into ASCII. -/
def canonicalize (c : Char) : Char := c.toUpper

/-- Matches the literal `lit` case-insensitively at the start of `s` and returns what
follows it. -/
def stripLiteralCI : JSString → JSString → Option JSString
  | [], s => some s
  | _ :: _, [] => none
  | l :: lit, c :: s => if canonicalize l == canonicalize c then stripLiteralCI lit s else none

/-- The trailing greedy group `(.+)`: the longest run of characters other than line
terminators, which must not be empty. -/
def greedyDots (s : JSString) : Option JSString :=
  match s.takeWhile (fun c => !isLineTerminator c) with
  | [] => none
  | c :: r => some (c :: r)

/-- The part `(.+?)SEP(.+)` of a pattern, with `acc` the characters the lazy group has
already taken (reversed): the lazy group grows one character at a time and stops at the first
length after which `SEP` and the greedy group match. -/
def lazyThenGreedy (sep : JSString) : JSString → JSString → Option (JSString × JSString)
  | _, [] => none
  | acc, c :: s =>
    if isLineTerminator c then none
    else
      match (stripLiteralCI sep s).bind greedyDots with
      | some g => some ((c :: acc).reverse, g)
      | none => lazyThenGreedy sep (c :: acc) s

/-- An attempt to match `/HEAD(.+?)SEP(.+)/i` at the very start of `s`. -/
def matchHere (head sep s : JSString) : Option (JSString × JSString) :=
  (stripLiteralCI head s).bind (lazyThenGreedy sep [])

/-- `s.match(/HEAD(.+?)SEP(.+)/i)`: the leftmost match, as the pair of its two groups. -/
def matchTwoSlot (head sep : JSString) : JSString → Option (JSString × JSString)
  | [] => matchHere head sep []
  | c :: s => (matchHere head sep (c :: s)).orElse (fun _ => matchTwoSlot head sep s)

/-- Upper-case hexadecimal digit. -/
def hexDigit (n : Nat) : Char :=
  if n < 10 then Char.ofNat (48 + n) else Char.ofNat (55 + n)

/-- UTF-8 encoding of a code point. -/
def utf8Bytes (n : Nat) : List Nat :=
  if n < 0x80 then [n]
  else if n < 0x800 then [0xC0 + n / 64, 0x80 + n % 64]
  else if n < 0x10000 then [0xE0 + n / 4096, 0x80 + n / 64 % 64, 0x80 + n % 64]
  else [0xF0 + n / 262144, 0x80 + n / 4096 % 64, 0x80 + n / 64 % 64, 0x80 + n % 64]

/-- Characters `encodeURIComponent` leaves as they are. -/
def isUriUnreserved (c : Char) : Bool :=
  c.isAlphanum || c == '-' || c == '_' || c == '.' || c == '!' || c == '~' || c == '*' ||
  c.toNat == 39 || c == '(' || c == ')'

/-- `encodeURIComponent(s)`. -/
def encodeURIComponent (s : JSString) : JSString :=
  s.flatMap (fun c =>
    if isUriUnreserved c then [c]
    else (utf8Bytes c.toNat).flatMap (fun b => ['%', hexDigit (b / 16), hexDigit (b % 16)]))

/-- `s.replace(/^how (A|B)/, '')`: the prefix `how A`, else the prefix `how B`, is removed
when the string starts with it. -/
def removeHowStart (first second s : JSString) : JSString :=
  if ("how ".toList ++ first).isPrefixOf s then s.drop ("how ".toList ++ first).length
  else if ("how ".toList ++ second).isPrefixOf s then s.drop ("how ".toList ++ second).length
  else s

/-- Text of a property every object literal inherits from `Object.prototype`, as a template
literal renders its value; none when there is no such property. -/
def objectPrototypeText (key : JSString) : Option JSString :=
  if key = "__proto__".toList then some "[object Object]".toList
  else if key ∈ ["constructor".toList] then some "function Object() \x7b [native code] \x7d".toList
  else if key ∈ ["__defineGetter__".toList, "__defineSetter__".toList, "hasOwnProperty".toList,
      "__lookupGetter__".toList, "__lookupSetter__".toList, "isPrototypeOf".toList,
      "propertyIsEnumerable".toList, "toString".toList, "valueOf".toList,
      "toLocaleString".toList] then
    some ("function ".toList ++ key ++ "() \x7b [native code] \x7d".toList)
  else none

/-- `obj[key]` for an object literal with the own properties `own` (all of them non-empty
strings): an own property, else the inherited one; none stands for `undefined`. -/
def lookupProperty (own : List (JSString × JSString)) (key : JSString) : Option JSString :=
  match own.lookup key with
  | some v => some v
  | none => objectPrototypeText key

/-! ## Number values -/

/-- The integer nearest to `x`, the even one of the two when `x` lies halfway between. -/
def roundHalfEven (x : ℚ) : ℤ :=
  if x - ⌊x⌋ < 1 / 2 then ⌊x⌋
  else if 1 / 2 < x - ⌊x⌋ then ⌊x⌋ + 1
  else if ⌊x⌋ % 2 = 0 then ⌊x⌋ else ⌊x⌋ + 1

/-- Exponent of the binade `x` lies in, held at the exponent of the subnormal numbers. -/
def binade (x : ℚ) : ℤ := max (Int.log 2 |x|) (-1022)

/-- The Number value for the real `x`: the nearest IEEE 754 binary64 value, with a 53-bit
significand and ties going to the even significand.  Overflow to infinity and the sign of
zero are not modelled. -/
def toDouble (x : ℚ) : ℚ :=
  (roundHalfEven (x / 2 ^ (binade x - 52)) : ℚ) * 2 ^ (binade x - 52)

/-- A rational that is a Number value. -/
def IsDouble (x : ℚ) : Prop := toDouble x = x

/-! ## Effects, session state and the outside world -/

/-- What a timer or animation-frame callback will run. -/
inductive Task
  | detectObjectsFromWebcam
  | analyzeEmotion
  | hideBody
  deriving DecidableEq, Repr

/-- The completion callbacks the program hands to `speak`. -/
inductive Callback
  /-- `() => window.open(url, '_blank')` -/
  | openWindow (url : JSString)
  /-- `() => { displayMarvinResponse(message); speak(message, next) }` -/
  | sayThen (message : JSString) (next : Callback)
  deriving DecidableEq, Repr

/-- Observable actions of the program, in the order they happen. -/
inductive Effect
  /-- `displayMarvinResponse(response)` -/
  | display (response : JSString)
  /-- `speak(text, callback)` -/
  | speak (text : JSString) (callback : Option Callback)
  /-- `window.open(url)` -/
  | windowOpen (url : JSString)
  /-- `fetch(url)` of one of the remote services -/
  | fetch (url : JSString)
  /-- the POST of `message` to the language-model proxy -/
  | groqRequest (message : JSString)
  /-- `navigator.mediaDevices.getUserMedia` -/
  | getUserMedia
  /-- every track of the camera stream is stopped -/
  | stopTracks
  /-- `model.detect(webcam)` -/
  | modelDetect
  | setTimeout (task : Task) (ms : Nat)
  | requestAnimationFrame (task : Task)
  | clearTimeout (task : Task)
  deriving DecidableEq, Repr

/-- The global variables of the script. -/
structure State where
  isWebcamActive : Bool
  emotionDetectionActive : Bool
  /-- `webcam.srcObject` holds a stream -/
  srcObject : Bool
  /-- `emotionAnalysisInterval` holds a timer id -/
  emotionAnalysisInterval : Bool
  currentEmotion : JSString
  emotionConfidence : Int
  /-- class names of `detectedObjects` -/
  detectedObjects : List JSString
  proModeActive : Bool
  /-- `model` has been loaded -/
  modelLoaded : Bool
  deriving DecidableEq, Repr

/-- How `getUserMedia` settles. -/
inductive CameraResult
  | stream
  | error (name : JSString)
  deriving DecidableEq, Repr

/-- How the request of `queryGroqAPI` settles. -/
inductive GroqResponse
  /-- `fetch` rejects with an error of this message -/
  | rejected (message : JSString)
  /-- `response.ok` is false -/
  | status (code : Nat)
  /-- reading the body throws an error of this message -/
  | malformed (message : JSString)
  /-- `data.choices[0].message.content` -/
  | content (text : JSString)
  deriving DecidableEq, Repr

/-- How the translation request settles: `data.responseData.translatedText` as text, or any
failure on the way to it. -/
inductive TranslationResponse
  | failed
  | translated (text : JSString)
  deriving DecidableEq, Repr

/-- How the weather request settles: the body text of an ok response, or a failure. -/
inductive WeatherResponse
  | failed
  | text (data : JSString)
  deriving DecidableEq, Repr

/-- How a news request settles: the first title, no entry at all, or a failure. -/
inductive NewsResponse
  | failed
  | empty
  | headline (title : JSString)
  deriving DecidableEq, Repr

/-- How the encyclopedia request settles: a body with its `extract` field if any, or a
failure. -/
inductive WikipediaResponse
  | failed
  | json (extract : Option JSString)
  deriving DecidableEq, Repr

/-- Everything the browser and the network decide. -/
structure World where
  camera : CameraResult
  videoWidth : Nat
  videoHeight : Nat
  /-- RGBA bytes of the current video frame -/
  frame : List Nat
  /-- the `Math.random()` of the keep test in `getStableEmotionAnalysis` -/
  keepDraw : ℚ
  /-- the `Math.random()` that selects a new label -/
  labelDraw : ℚ
  /-- the `Math.random()` of the confidence -/
  confidenceDraw : ℚ
  /-- the `Math.random()` of `tellJoke` -/
  jokeDraw : ℚ
  /-- `toLocaleTimeString()` of the current date -/
  time : JSString
  /-- `toLocaleDateString()` of the current date -/
  date : JSString
  groq : JSString → GroqResponse
  translation : JSString → TranslationResponse
  weather : JSString → WeatherResponse
  news : NewsResponse
  newsFallback : NewsResponse
  wikipedia : JSString → WikipediaResponse
  /-- lower-casing of a character outside ASCII -/
  lowerCase : Char → JSString

/-- `s.toLowerCase()`. -/
def toLowerCase (w : World) (s : JSString) : JSString :=
  s.flatMap (fun c => if c.toNat < 128 then [c.toLower] else w.lowerCase c)

/-- `displayMarvinResponse(response); speak(response);` -/
def say (response : JSString) : List Effect :=
  [.display response, .speak response none]

/-! ## Camera and perception loops -/

/-- `handleWebcamError(error)`, by the name of the error. -/
def handleWebcamError (name : JSString) : List Effect :=
  let response := "Sorry, I couldn't access the camera. ".toList
  let response :=
    if name = "NotAllowedError".toList then
      response ++ "Please allow camera permissions and try again.".toList
    else if name = "NotFoundError".toList then
      response ++ "No camera found. Please check if your camera is connected.".toList
    else if name = "NotSupportedError".toList then
      response ++ "Your browser doesn't support camera access.".toList
    else
      response ++
        "Please make sure your camera is connected and you've granted permission.".toList
  say response

/-- `describeVision()`. -/
def describeVision (s : State) : List Effect :=
  if s.detectedObjects.length > 0 then
    let objectsList := ", ".toList.intercalate s.detectedObjects
    say ("I can see the following objects: ".toList ++ objectsList ++ ".".toList)
  else
    say "I'm not detecting any objects right now.".toList

/-- The synchronous part of one call of `detectObjectsFromWebcam()`, up to the request to
the model; an error is the name of the exception thrown (the model is not loaded yet). -/
def detectObjectsFromWebcam (w : World) (s : State) : Except JSString (List Effect) :=
  if !s.isWebcamActive || w.videoWidth == 0 then
    .ok [.setTimeout .detectObjectsFromWebcam 500]
  else if s.modelLoaded then .ok [.modelDetect]
  else .error "TypeError".toList

/-- The callbacks of `model.detect(webcam)` in `detectObjectsFromWebcam`: the class names of
the predictions when the promise resolves, none when it rejects. -/
def detectionSettled (s : State) (predictions : Option (List JSString)) :
    State × List Effect :=
  match predictions with
  | some ps =>
    ({ s with detectedObjects := ps },
      if s.isWebcamActive then [.requestAnimationFrame .detectObjectsFromWebcam] else [])
  | none =>
    (s, if s.isWebcamActive then [.setTimeout .detectObjectsFromWebcam 500] else [])

/-- `startWebcam()`, run until its promise settles; the video metadata is taken to load once
a stream has been attached. -/
def startWebcam (w : World) (s : State) : State × List Effect :=
  if s.isWebcamActive then (s, say "Webcam is already active.".toList)
  else
    match w.camera with
    | .error name => (s, .getUserMedia :: handleWebcamError name)
    | .stream =>
      let s1 := { s with srcObject := true, isWebcamActive := true }
      match detectObjectsFromWebcam w s1 with
      | .ok effects =>
        (s1, .getUserMedia :: effects ++
          say "Camera activated! Object detection is now running.".toList)
      | .error name => (s1, .getUserMedia :: handleWebcamError name)

/-- The loop of `simulateFaceDetection` over the RGBA bytes: the running `totalBrightness`
and `pixelCount`.  Every sum and every quotient is rounded to a Number value, as the script
computes them. -/
def brightnessLoop : List Nat → ℚ → Nat → ℚ × Nat
  | r :: g :: b :: _ :: rest, totalBrightness, pixelCount =>
    let brightness := toDouble (toDouble (toDouble ((r : ℚ) + g) + b) / 3)
    brightnessLoop rest (toDouble (totalBrightness + brightness)) (pixelCount + 1)
  | _, totalBrightness, pixelCount => (totalBrightness, pixelCount)

/-- The `averageBrightness` of `simulateFaceDetection`.  For a frame without pixels the script
divides zero by zero and gets NaN, which fails both comparisons, as does the zero that stands
for it here. -/
def averageBrightness (imageData : List Nat) : ℚ :=
  toDouble ((brightnessLoop imageData 0 0).1 / ((brightnessLoop imageData 0 0).2 : ℚ))

/-- `simulateFaceDetection(imageData, width, height)`. -/
def simulateFaceDetection (imageData : List Nat) (_width _height : Nat) : Bool :=
  decide (averageBrightness imageData > 50) && decide (averageBrightness imageData < 200)

/-- The weighted table of `getStableEmotionAnalysis`, each weight as the decimal the source
writes. -/
def emotions : List (JSString × ℚ) :=
  [("neutral".toList, 0.4), ("happy".toList, 0.25), ("focused".toList, 0.15),
   ("calm".toList, 0.1), ("surprised".toList, 0.05), ("sad".toList, 0.03),
   ("angry".toList, 0.02)]

/-- The selection loop of `getStableEmotionAnalysis` over the rest of the table, with the
fallback after it, read with exact arithmetic: neither the weights nor their running sum are
rounded. -/
def selectEmotion (random confidenceDraw : ℚ) : List (JSString × ℚ) → ℚ → JSString × Int
  | [], _ => ("neutral".toList, 80)
  | (emotion, weight) :: rest, cumulativeWeight =>
    if random ≤ cumulativeWeight + weight then (emotion, ⌊70 + confidenceDraw * 25⌋)
    else selectEmotion random confidenceDraw rest (cumulativeWeight + weight)

/-- The selection loop of `getStableEmotionAnalysis` over the rest of the table, with the
fallback after it, as the script runs it: every weight, the running `cumulativeWeight` and the
confidence are Number values. -/
def selectEmotionDouble (random confidenceDraw : ℚ) :
    List (JSString × ℚ) → ℚ → JSString × Int
  | [], _ => ("neutral".toList, 80)
  | (emotion, weight) :: rest, cumulativeWeight =>
    if random ≤ toDouble (cumulativeWeight + toDouble weight) then
      (emotion, ⌊toDouble (70 + toDouble (confidenceDraw * 25))⌋)
    else
      selectEmotionDouble random confidenceDraw rest
        (toDouble (cumulativeWeight + toDouble weight))

/-- `getStableEmotionAnalysis()`: the emotion and the confidence. -/
def getStableEmotionAnalysis (w : World) (s : State) : JSString × Int :=
  if !s.currentEmotion.isEmpty && decide (w.keepDraw > toDouble 0.3) then
    (s.currentEmotion, ⌊toDouble (75 + toDouble (w.confidenceDraw * 20))⌋)
  else selectEmotionDouble w.labelDraw w.confidenceDraw emotions 0

/-- `analyzeEmotion()`: one tick of the emotion loop.  Reading the frame throws when the
canvas has no area; the error is caught and the tick goes on to re-arm its timer. -/
def analyzeEmotion (w : World) (s : State) : State × List Effect :=
  if !s.emotionDetectionActive || !s.isWebcamActive then (s, [])
  else
    let s1 :=
      if w.videoWidth == 0 || w.videoHeight == 0 then s
      else if simulateFaceDetection w.frame w.videoWidth w.videoHeight then
        let emotionResult := getStableEmotionAnalysis w s
        { s with currentEmotion := emotionResult.1, emotionConfidence := emotionResult.2 }
      else s
    if s1.emotionDetectionActive then
      ({ s1 with emotionAnalysisInterval := true }, [.setTimeout .analyzeEmotion 3000])
    else (s1, [])

/-- `stopEmotionDetection()`. -/
def stopEmotionDetection (s : State) : State × List Effect :=
  ({ s with emotionDetectionActive := false },
    (if s.emotionAnalysisInterval then [Effect.clearTimeout .analyzeEmotion] else []) ++
      say "Emotion detection has been stopped.".toList)

/-- `stopWebcam()`. -/
def stopWebcam (s : State) : State × List Effect :=
  let r1 : State × List Effect :=
    if s.srcObject then ({ s with srcObject := false }, [.stopTracks]) else (s, [])
  let r2 : State × List Effect :=
    if r1.1.emotionDetectionActive then stopEmotionDetection r1.1 else (r1.1, [])
  ({ r2.1 with isWebcamActive := false },
    r1.2 ++ r2.2 ++ say "Webcam has been stopped, and vision has been deactivated.".toList)

/-- `startEmotionDetection()`, run until its promise settles. -/
def startEmotionDetection (w : World) (s : State) : State × List Effect :=
  if s.emotionDetectionActive then (s, say "Emotion detection is already active.".toList)
  else
    let r1 : State × List Effect :=
      if !s.isWebcamActive then
        let r := startWebcam w s
        (r.1, say "Starting camera for emotion detection...".toList ++ r.2)
      else (s, [])
    let r2 := analyzeEmotion w { r1.1 with emotionDetectionActive := true }
    (r2.1, r1.2 ++ r2.2 ++ say
      "Emotion detection activated! I'm now analyzing your facial expressions through the camera.".toList)

/-- Text of a number in a template literal. -/
def numberText (n : Int) : JSString := (toString n).toList

/-- The table `emotionResponses` of `getCurrentEmotion`. -/
def emotionResponses (c : JSString) : List (JSString × JSString) :=
  [("happy".toList, "You appear to be feeling happy! With ".toList ++ c ++
      "% confidence, I can see positive emotions. That's wonderful!".toList),
   ("sad".toList, "I sense you might be feeling sad (".toList ++ c ++
      "% confidence). Is everything okay? Would you like to talk about it?".toList),
   ("angry".toList, "I'm detecting some anger (".toList ++ c ++
      "% confidence). Would you like to discuss what's bothering you?".toList),
   ("surprised".toList, "You look surprised! (".toList ++ c ++
      "% confidence) Did something unexpected happen?".toList),
   ("fearful".toList, "I sense some fear in your expression (".toList ++ c ++
      "% confidence). Everything will be alright.".toList),
   ("disgusted".toList, "You appear disgusted (".toList ++ c ++
      "% confidence). Is there something unpleasant?".toList),
   ("neutral".toList, "You seem to be in a neutral, balanced state of mind (".toList ++ c ++
      "% confidence).".toList),
   ("focused".toList, "You appear very focused and concentrated (".toList ++ c ++
      "% confidence). Great for productivity!".toList),
   ("calm".toList, "You seem calm and relaxed (".toList ++ c ++
      "% confidence). That's a peaceful state to be in.".toList)]

/-- `getCurrentEmotion()`. -/
def getCurrentEmotion (s : State) : JSString :=
  if !s.emotionDetectionActive then
    "Emotion detection is not active. Please start emotion detection first.".toList
  else
    match lookupProperty (emotionResponses (numberText s.emotionConfidence)) s.currentEmotion with
    | some response => response
    | none =>
      "I detect you're feeling ".toList ++ s.currentEmotion ++ " with ".toList ++
        numberText s.emotionConfidence ++ "% confidence.".toList

/-! ## Remote services -/

/-- The table `langMap` of `handleTranslation`. -/
def langMap : List (JSString × JSString) :=
  [("hindi".toList, "hi".toList), ("tamil".toList, "ta".toList),
   ("kannada".toList, "kn".toList), ("french".toList, "fr".toList),
   ("spanish".toList, "es".toList), ("german".toList, "de".toList),
   ("japanese".toList, "ja".toList)]

/-- The address `handleTranslation` requests for a text and a language code. -/
def translationUrl (textToTranslate langCode : JSString) : JSString :=
  "https://api.mymemory.translated.net/get?q=".toList ++ encodeURIComponent textToTranslate ++
    "&langpair=en|".toList ++ langCode

/-- `handleTranslation(command)`, run until its request settles. -/
def handleTranslation (w : World) (command : JSString) : List Effect :=
  match matchTwoSlot "translate ".toList " to ".toList command with
  | none => say "Please say something like 'Translate good morning to Hindi'".toList
  | some m =>
    let textToTranslate := trim m.1
    let targetLang := toLowerCase w (trim m.2)
    match lookupProperty langMap targetLang with
    | none =>
      say ("Sorry, I don't support translation to ".toList ++ targetLang ++ " yet.".toList)
    | some langCode =>
      let url := translationUrl textToTranslate langCode
      .fetch url ::
        match w.translation url with
        | .translated translated =>
          say ("In ".toList ++ targetLang ++ ", \"".toList ++ textToTranslate ++
            "\" is \"".toList ++ translated ++ "\"".toList)
        | .failed => say "Sorry, I couldn't complete the translation.".toList

/-- The address `getWeatherWithoutAPI` requests for a location. -/
def weatherUrl (location : JSString) : JSString :=
  "https://wttr.in/".toList ++ encodeURIComponent location ++ "?format=%C+%t+%w".toList

/-- `getWeatherWithoutAPI(location)`, run until its request settles; a component the
destructuring leaves undefined is rendered as the text `undefined`. -/
def getWeatherWithoutAPI (w : World) (location : JSString) : List Effect :=
  .fetch (weatherUrl location) ::
    match w.weather (weatherUrl location) with
    | .failed =>
      say ("I couldn't get the weather for ".toList ++ location ++
        ". Please try again later.".toList)
    | .text data =>
      let parts := split data " ".toList
      let condition := parts.getD 0 []
      let temp := parts.getD 1 "undefined".toList
      let wind := parts.getD 2 "undefined".toList
      say ("In ".toList ++ location ++ ", it's currently ".toList ++ toLowerCase w condition ++
        " with a temperature of ".toList ++ temp ++ " and ".toList ++ wind ++ " wind.".toList)

/-- The address of the primary news service. -/
def newsUrl : JSString :=
  "https://newsdata.io/api/1/news?apikey=pub_32103e2f5d1b5d2d2a7a4b9c8d5b4f4d1d8c&country=in&language=en&category=top".toList

/-- The address of the fallback news feed behind its proxy. -/
def newsFallbackUrl : JSString :=
  "https://api.allorigins.win/raw?url=".toList ++
    encodeURIComponent "https://feeds.bbci.co.uk/news/rss.xml".toList

/-- `getNewsFallback()`, run until its request settles. -/
def getNewsFallback (w : World) : List Effect :=
  .fetch newsFallbackUrl ::
    match w.newsFallback with
    | .headline title => say ("Here is the latest news: ".toList ++ title)
    | .empty => say "Sorry, I couldn't find any news at the moment.".toList
    | .failed => say "Sorry, I couldn't fetch the news right now. Please try again later.".toList

/-- `getLatestNews()`, run until its request settles. -/
def getLatestNews (w : World) : List Effect :=
  .fetch newsUrl ::
    match w.news with
    | .headline title => say ("Here is the latest news: ".toList ++ title)
    | .empty => say "Sorry, I couldn't find any news at the moment.".toList
    | .failed => getNewsFallback w

/-- The constant `WIKIPEDIA_API_URL`. -/
def WIKIPEDIA_API_URL : JSString := "https://en.wikipedia.org/api/rest_v1/page/summary/".toList

/-- `searchWikipedia(query)`, run until its request settles. -/
def searchWikipedia (w : World) (query : JSString) : List Effect :=
  let url := WIKIPEDIA_API_URL ++ encodeURIComponent query
  .fetch url ::
    match w.wikipedia url with
    | .json (some (c :: extract)) => say (c :: extract)
    | .json _ => say "Sorry, I couldn't find an answer for that.".toList
    | .failed => say "Sorry, there was an error while fetching from Wikipedia.".toList

/-- The body of the `try` block of `queryGroqAPI`: the reply, or the message of the error
thrown. -/
def groqExchange (w : World) (message : JSString) : Except JSString JSString :=
  match w.groq message with
  | .rejected error => .error error
  | .status code => .error ("API error: ".toList ++ (toString code).toList)
  | .malformed error => .error error
  | .content text => .ok text

/-- `queryGroqAPI(message)`: its effects and what it returns or throws. -/
def queryGroqAPI (w : World) (s : State) (message : JSString) :
    List Effect × Except JSString JSString :=
  if !s.proModeActive then
    ([], .ok "Pro Mode is not active. Enable PRO MODE for advanced AI capabilities.".toList)
  else
    ([.groqRequest message],
      match groqExchange w message with
      | .ok text => .ok text
      | .error error =>
        .ok ("SYSTEM ERROR: Advanced AI temporarily unavailable. ".toList ++ error))

/-! ## Jokes -/

/-- The table `jokes` of `tellJoke`. -/
def jokes : List JSString :=
  ["Why don't skeletons fight each other? They don't have the guts.".toList,
   "Why did the scarecrow win an award? Because he was outstanding in his field!".toList,
   "I told my wife she was drawing her eyebrows too high. She looked surprised.".toList,
   "I used to play piano by ear, but now I use my hands.".toList,
   "What do you get when you cross a snowman and a vampire? Frostbite.".toList,
   "Why don't oysters share their pearls? Because they're shellfish.".toList,
   "I told my computer I needed a break, and now it won't stop sending me Kit-Kats.".toList,
   "What did the grape do when it got stepped on? Nothing, but it let out a little wine.".toList,
   "Why don't some couples go to the gym? Because some relationships don't work out.".toList,
   "Why did the coffee file a police report? It got mugged.".toList,
   "I used to be a baker, but I couldn't make enough dough.".toList,
   "I told my friend 10 jokes to make him laugh. Sadly, no pun in 10 did.".toList,
   "Why don't eggs tell jokes? They'd crack each other up.".toList,
   "I'm reading a book on anti-gravity. It's impossible to put down.".toList,
   "I wanted to become a professional skateboarder, but I couldn't handle the grind.".toList,
   "How does a penguin build its house? Igloos it together!".toList,
   "Why did the bicycle fall over? Because it was two-tired.".toList,
   "Why can't you trust an atom? Because they make up everything!".toList,
   "Did you hear about the mathematician who's afraid of negative numbers? He'll stop at nothing to avoid them.".toList,
   "What did one ocean say to the other ocean? Nothing, they just waved.".toList]

/-- `tellJoke()`; an index outside the table gives `undefined`, displayed as that text. -/
def tellJoke (w : World) : List Effect :=
  let index := ⌊toDouble (w.jokeDraw * (jokes.length : ℚ))⌋
  let joke := if 0 ≤ index then jokes.getD index.toNat "undefined".toList else "undefined".toList
  say joke

/-! ## The command router -/

/-- `isBasicCommand(command)`. -/
def isBasicCommand (command : JSString) : Bool :=
  let basicCommands : List JSString :=
    ["turn on vision".toList, "activate vision".toList, "start camera".toList,
     "what do you see".toList, "turn off vision".toList, "stop camera".toList,
     "start emotion detection".toList, "detect emotions".toList,
     "stop emotion detection".toList, "end emotion detection".toList,
     "how am i feeling".toList, "what is my emotion".toList,
     "hello".toList, "hi".toList, "translate".toList, "search for".toList,
     "who are you".toList, "what are you".toList, "tell me about yourself".toList,
     "creator".toList, "created you".toList, "tell me a joke".toList, "thank you".toList,
     "thanks".toList, "how are you".toList, "how is it going".toList,
     "shutdown".toList, "goodbye".toList, "good".toList, "great".toList,
     "latest news".toList, "news updates".toList, "play".toList, "on youtube".toList,
     "room temperature".toList, "book tickets".toList, "introduce yourself to".toList,
     "easiest route from".toList, "time".toList, "date".toList,
     "weather".toList, "temperature".toList, "wikipedia search".toList, "who is".toList,
     "what is".toList, "how does".toList, "how do".toList, "how to".toList,
     "how can i".toList]
  basicCommands.any (fun basicCmd => includes command basicCmd)

/-- Body of the emotion-query branch of `processCommand`. -/
def emotionQueryBranch (s : State) : List Effect :=
  if s.emotionDetectionActive then say (getCurrentEmotion s)
  else
    say "Emotion detection is not active. Say 'start emotion detection' to begin analyzing your emotions.".toList

/-- Body of the branch `command.startsWith('search for')`. -/
def searchForBranch (command : JSString) : List Effect :=
  let query := trim (removeFirst command "search for".toList)
  if query.length > 0 then
    let searchUrl := "https://www.google.com/search?q=".toList ++ encodeURIComponent query
    let preparingMessage := "Searching Google for \"".toList ++ query ++ "\".".toList
    let goodbyeMessage := "Opening Google search results now.".toList
    [.display preparingMessage,
     .speak preparingMessage (some (.sayThen goodbyeMessage (.openWindow searchUrl)))]
  else say "Please specify what you want me to search for.".toList

/-- Body of the branch `command.includes('play') && command.includes('on youtube')`. -/
def playOnYoutubeBranch (command : JSString) : List Effect :=
  let query := trim (removeFirst (removeFirst command "play".toList) "on youtube".toList)
  if query.length > 0 then
    let googleSearchUrl :=
      "https://www.google.com/search?q=site:youtube.com+".toList ++ encodeURIComponent query ++
        "&btnI".toList
    let preparingMessage :=
      "Searching and playing \"".toList ++ query ++ "\" directly on YouTube.".toList
    let goodbyeMessage := "Enjoy your video! I'll be right here when you return.".toList
    [.display preparingMessage,
     .speak preparingMessage (some (.sayThen goodbyeMessage (.openWindow googleSearchUrl)))]
  else say "Please specify what you want me to play on YouTube.".toList

/-- Body of the branch `command.includes('introduce yourself to')`. -/
def introduceBranch (command : JSString) : List Effect :=
  let name := trim ((split command "introduce yourself to".toList).getD 1 [])
  if name.length > 0 then
    say ("Hello ".toList ++ name ++
      ", I am Marvin, your virtual agent. It was a pleasure meeting you!".toList)
  else say "Please provide a name to introduce myself to.".toList

/-- Body of the branch `command.toLowerCase().includes("easiest route from")`. -/
def routeBranch (command : JSString) : List Effect :=
  match matchTwoSlot "easiest route from ".toList " to ".toList command with
  | some m =>
    let origin := trim m.1
    let destination := trim m.2
    let url :=
      "https://www.google.com/maps/dir/?api=1&origin=".toList ++ encodeURIComponent origin ++
        "&destination=".toList ++ encodeURIComponent destination
    let message :=
      "Opening the route from ".toList ++ origin ++ " to ".toList ++ destination ++
        " in Google Maps...".toList
    say message ++ [.windowOpen url]
  | none => say "Please say: easiest route from place to place".toList

/-- Body of the branch `command.includes('time') || command.includes('date')`. -/
def timeBranch (w : World) : List Effect :=
  say ("The current time is ".toList ++ w.time ++ " and the date is ".toList ++ w.date ++
    ".".toList)

/-- The location the weather branch of `processCommand` asks for. -/
def weatherLocation (command : JSString) : JSString :=
  if includes command "in".toList then trim ((split command "in".toList).getD 1 [])
  else "Bangalore".toList

/-- The fixed reply to a command nothing matched. -/
def fallbackResponse : JSString :=
  "I'm not sure I understand. Could you please rephrase your command?".toList

/-- Body of the final `else` of `processCommand`. -/
def fallbackBranch (w : World) (s : State) (command : JSString) : List Effect :=
  if s.proModeActive then
    match queryGroqAPI w s command with
    | (effects, .ok response) => effects ++ say response
    | (effects, .error _) => effects ++ say fallbackResponse
  else say fallbackResponse

/-- The `if`/`else if` ladder of `processCommand` ("basic command processing"). -/
def basicCommandProcessing (w : World) (s : State) (command : JSString) :
    State × List Effect :=
  if includes command "turn on vision".toList || includes command "activate vision".toList ||
      includes command "start camera".toList then
    startWebcam w s
  else if includes command "what do you see".toList then (s, describeVision s)
  else if includes command "turn off vision".toList || includes command "stop camera".toList then
    stopWebcam s
  else if includes command "start emotion detection".toList ||
      includes command "detect emotions".toList then
    startEmotionDetection w s
  else if includes command "stop emotion detection".toList ||
      includes command "end emotion detection".toList then
    stopEmotionDetection s
  else if includes command "how am i feeling".toList ||
      includes command "what is my emotion".toList ||
      includes command "analyze my emotions".toList then
    (s, emotionQueryBranch s)
  else if testWord "hello".toList command || testWord "hi".toList command then
    (s, say "Hello! How can I assist you today?".toList)
  else if includes command "translate".toList then (s, handleTranslation w command)
  else if startsWith command "search for".toList then (s, searchForBranch command)
  else if includes command "who are you".toList || includes command "what are you".toList ||
      includes command "tell me about yourself".toList then
    (s, say "I am Marvin, your smart AI assistant with object detection, emotion recognition, and voice capabilities. I was designed to help you with tasks, answer your questions, and make your day easier!".toList)
  else if includes command "creator".toList || includes command "created you".toList then
    (s, say "I was programmed by Adnan.".toList)
  else if includes command "tell me a joke".toList then (s, tellJoke w)
  else if includes command "thank you".toList || includes command "thanks".toList then
    (s, say "It was my pleasure!".toList)
  else if testWord "how are you".toList command || testWord "how is it going".toList command then
    (s, say "I'm doing great, What about you?".toList)
  else if includes command "shutdown".toList || includes command "goodbye".toList then
    (s, say "Goodbye! Shutting down, Refresh the page if you wanna start interacting again".toList
      ++ [.setTimeout .hideBody 1000])
  else if testWord "good".toList command || testWord "great".toList command then
    (s, say "I'm glad to hear that, So what can I assist you with today?".toList)
  else if includes command "latest news".toList || includes command "news updates".toList then
    (s, getLatestNews w)
  else if includes command "play".toList && includes command "on youtube".toList then
    (s, playOnYoutubeBranch command)
  else if includes command "room temperature".toList then
    (s, say "The room temperature ranges from: 20–22 °C".toList)
  else if includes command "book tickets for bus".toList then
    (s, say "Opened bus ticket booking website...".toList ++
      [.windowOpen "https://www.redbus.in".toList])
  else if includes command "book tickets for train".toList then
    (s, say "Opened train ticket booking website...".toList ++
      [.windowOpen "https://www.irctc.co.in".toList])
  else if includes command "book tickets for flight".toList then
    (s, say "Opened flight ticket booking website...".toList ++
      [.windowOpen "https://www.expedia.com".toList])
  else if includes command "book tickets for movie".toList then
    (s, say "Opened movie ticket booking website...".toList ++
      [.windowOpen "https://in.bookmyshow.com/explore/home/bengaluru".toList])
  else if includes command "introduce yourself to".toList then (s, introduceBranch command)
  else if includes (toLowerCase w command) "easiest route from".toList then
    (s, routeBranch command)
  else if includes command "time".toList || includes command "date".toList then
    (s, timeBranch w)
  else if includes command "weather".toList || includes command "temperature".toList then
    (s, getWeatherWithoutAPI w (weatherLocation command))
  else if includes command "wikipedia".toList && includes command "search".toList then
    (s, searchWikipedia w (trim (removeFirst command "wikipedia search".toList)))
  else if startsWith command "who is".toList then
    (s, searchWikipedia w (trim (removeFirst command "who is".toList)))
  else if startsWith command "what is".toList then
    (s, searchWikipedia w (trim (removeFirst command "what is".toList)))
  else if startsWith command "how does".toList || startsWith command "how do".toList then
    (s, searchWikipedia w
      (trim (removeFirst (removeHowStart "does".toList "do".toList command) "work".toList)))
  else if startsWith command "how to".toList || startsWith command "how can i".toList then
    (s, searchWikipedia w
      (trim (removeFirst (removeHowStart "to".toList "can i".toList command) "do".toList)))
  else if startsWith command "how".toList then
    (s, searchWikipedia w (trim (removeFirst command "how".toList)))
  else (s, fallbackBranch w s command)

/-- `processCommand(command)`, run until its promise settles. -/
def processCommand (w : World) (s : State) (command : JSString) : State × List Effect :=
  if s.proModeActive && !isBasicCommand command then
    match queryGroqAPI w s command with
    | (effects, .ok response) => (s, effects ++ say response)
    | (effects, .error _) =>
      let r := basicCommandProcessing w s command
      (r.1, effects ++ r.2)
  else basicCommandProcessing w s command

/-! ## The ladder as an ordered table -/

/-- One rung of the ladder of `processCommand`: its condition and the body it guards. -/
structure Rule where
  applies : World → JSString → Bool
  handler : World → State → JSString → State × List Effect

/-- The rungs of the ladder of `processCommand`, in the order the source declares them. -/
def ladder : List Rule :=
  [ { applies := fun _ command =>
        includes command "turn on vision".toList || includes command "activate vision".toList ||
          includes command "start camera".toList
      handler := fun w s _ => startWebcam w s },
    { applies := fun _ command => includes command "what do you see".toList
      handler := fun _ s _ => (s, describeVision s) },
    { applies := fun _ command =>
        includes command "turn off vision".toList || includes command "stop camera".toList
      handler := fun _ s _ => stopWebcam s },
    { applies := fun _ command =>
        includes command "start emotion detection".toList ||
          includes command "detect emotions".toList
      handler := fun w s _ => startEmotionDetection w s },
    { applies := fun _ command =>
        includes command "stop emotion detection".toList ||
          includes command "end emotion detection".toList
      handler := fun _ s _ => stopEmotionDetection s },
    { applies := fun _ command =>
        includes command "how am i feeling".toList ||
          includes command "what is my emotion".toList ||
          includes command "analyze my emotions".toList
      handler := fun _ s _ => (s, emotionQueryBranch s) },
    { applies := fun _ command => testWord "hello".toList command || testWord "hi".toList command
      handler := fun _ s _ => (s, say "Hello! How can I assist you today?".toList) },
    { applies := fun _ command => includes command "translate".toList
      handler := fun w s command => (s, handleTranslation w command) },
    { applies := fun _ command => startsWith command "search for".toList
      handler := fun _ s command => (s, searchForBranch command) },
    { applies := fun _ command =>
        includes command "who are you".toList || includes command "what are you".toList ||
          includes command "tell me about yourself".toList
      handler := fun _ s _ =>
        (s, say "I am Marvin, your smart AI assistant with object detection, emotion recognition, and voice capabilities. I was designed to help you with tasks, answer your questions, and make your day easier!".toList) },
    { applies := fun _ command =>
        includes command "creator".toList || includes command "created you".toList
      handler := fun _ s _ => (s, say "I was programmed by Adnan.".toList) },
    { applies := fun _ command => includes command "tell me a joke".toList
      handler := fun w s _ => (s, tellJoke w) },
    { applies := fun _ command =>
        includes command "thank you".toList || includes command "thanks".toList
      handler := fun _ s _ => (s, say "It was my pleasure!".toList) },
    { applies := fun _ command =>
        testWord "how are you".toList command || testWord "how is it going".toList command
      handler := fun _ s _ => (s, say "I'm doing great, What about you?".toList) },
    { applies := fun _ command =>
        includes command "shutdown".toList || includes command "goodbye".toList
      handler := fun _ s _ =>
        (s, say "Goodbye! Shutting down, Refresh the page if you wanna start interacting again".toList
          ++ [.setTimeout .hideBody 1000]) },
    { applies := fun _ command => testWord "good".toList command || testWord "great".toList command
      handler := fun _ s _ =>
        (s, say "I'm glad to hear that, So what can I assist you with today?".toList) },
    { applies := fun _ command =>
        includes command "latest news".toList || includes command "news updates".toList
      handler := fun w s _ => (s, getLatestNews w) },
    { applies := fun _ command =>
        includes command "play".toList && includes command "on youtube".toList
      handler := fun _ s command => (s, playOnYoutubeBranch command) },
    { applies := fun _ command => includes command "room temperature".toList
      handler := fun _ s _ => (s, say "The room temperature ranges from: 20–22 °C".toList) },
    { applies := fun _ command => includes command "book tickets for bus".toList
      handler := fun _ s _ =>
        (s, say "Opened bus ticket booking website...".toList ++
          [.windowOpen "https://www.redbus.in".toList]) },
    { applies := fun _ command => includes command "book tickets for train".toList
      handler := fun _ s _ =>
        (s, say "Opened train ticket booking website...".toList ++
          [.windowOpen "https://www.irctc.co.in".toList]) },
    { applies := fun _ command => includes command "book tickets for flight".toList
      handler := fun _ s _ =>
        (s, say "Opened flight ticket booking website...".toList ++
          [.windowOpen "https://www.expedia.com".toList]) },
    { applies := fun _ command => includes command "book tickets for movie".toList
      handler := fun _ s _ =>
        (s, say "Opened movie ticket booking website...".toList ++
          [.windowOpen "https://in.bookmyshow.com/explore/home/bengaluru".toList]) },
    { applies := fun _ command => includes command "introduce yourself to".toList
      handler := fun _ s command => (s, introduceBranch command) },
    { applies := fun w command => includes (toLowerCase w command) "easiest route from".toList
      handler := fun _ s command => (s, routeBranch command) },
    { applies := fun _ command => includes command "time".toList || includes command "date".toList
      handler := fun w s _ => (s, timeBranch w) },
    { applies := fun _ command =>
        includes command "weather".toList || includes command "temperature".toList
      handler := fun w s command => (s, getWeatherWithoutAPI w (weatherLocation command)) },
    { applies := fun _ command =>
        includes command "wikipedia".toList && includes command "search".toList
      handler := fun w s command =>
        (s, searchWikipedia w (trim (removeFirst command "wikipedia search".toList))) },
    { applies := fun _ command => startsWith command "who is".toList
      handler := fun w s command =>
        (s, searchWikipedia w (trim (removeFirst command "who is".toList))) },
    { applies := fun _ command => startsWith command "what is".toList
      handler := fun w s command =>
        (s, searchWikipedia w (trim (removeFirst command "what is".toList))) },
    { applies := fun _ command =>
        startsWith command "how does".toList || startsWith command "how do".toList
      handler := fun w s command =>
        (s, searchWikipedia w
          (trim (removeFirst (removeHowStart "does".toList "do".toList command)
            "work".toList))) },
    { applies := fun _ command =>
        startsWith command "how to".toList || startsWith command "how can i".toList
      handler := fun w s command =>
        (s, searchWikipedia w
          (trim (removeFirst (removeHowStart "to".toList "can i".toList command)
            "do".toList))) },
    { applies := fun _ command => startsWith command "how".toList
      handler := fun w s command =>
        (s, searchWikipedia w (trim (removeFirst command "how".toList))) } ]

/-- First-match-wins over a list of rungs: the body of the first rung whose condition holds,
and the final `else` of `processCommand` when none holds. -/
def firstMatch (w : World) (s : State) (command : JSString) : List Rule → State × List Effect
  | [] => (s, fallbackBranch w s command)
  | r :: rest => if r.applies w command then r.handler w s command
                 else firstMatch w s command rest

/-- What a first-match-wins reading of the table does with a command. -/
def dispatch (w : World) (s : State) (command : JSString) : State × List Effect :=
  firstMatch w s command ladder

/-! ## Speech synthesis as a timeline -/

/-- What is observed over time: an effect of the program, or the end of an utterance. -/
inductive Event
  | effect (e : Effect)
  | speechEnd (text : JSString)
  deriving DecidableEq, Repr

/-- The events so far and the utterance being spoken, with its completion callback. -/
structure Timeline where
  events : List Event
  speaking : Option (JSString × Option Callback)
  deriving DecidableEq, Repr

/-- The effects a completion callback causes when it runs. -/
def Callback.run : Callback → List Effect
  | .openWindow url => [.windowOpen url]
  | .sayThen message next => [.display message, .speak message (some next)]

/-- The program performs effects in order.  `speak` cancels whatever is being spoken (a
cancelled utterance gets no end event) and starts the new utterance. -/
def perform (t : Timeline) : List Effect → Timeline
  | [] => t
  | .speak text callback :: rest =>
    perform { events := t.events ++ [.effect (.speak text callback)],
              speaking := some (text, callback) } rest
  | e :: rest => perform { t with events := t.events ++ [.effect e] } rest

/-- The utterance being spoken comes to its end: `onend` fires and runs the callback. -/
def speechEnds (t : Timeline) : Timeline :=
  match t.speaking with
  | none => t
  | some (text, callback) =>
    perform { events := t.events ++ [.speechEnd text], speaking := none }
      (match callback with
       | some c => c.run
       | none => [])

/-- The timeline right after the program has performed `effects` from a silent start. -/
def begin (effects : List Effect) : Timeline :=
  perform { events := [], speaking := none } effects

/-- The response an effect displays, if it is a display. -/
def Effect.displayedText : Effect → Option JSString
  | .display r => some r
  | _ => none

/-- The text an effect hands to `speak`, if it is one. -/
def Effect.spokenText : Effect → Option JSString
  | .speak t _ => some t
  | _ => none

/-- The address an effect requests from a remote service, if it is a request. -/
def Effect.fetchedUrl : Effect → Option JSString
  | .fetch u => some u
  | _ => none

/-- The page an effect opens, if it opens one. -/
def Effect.openedUrl : Effect → Option JSString
  | .windowOpen u => some u
  | _ => none

/-- The message an effect sends to the language model, if it sends one. -/
def Effect.groqMessage : Effect → Option JSString
  | .groqRequest m => some m
  | _ => none

/-- The responses displayed, in order. -/
def displayed (effects : List Effect) : List JSString := effects.filterMap Effect.displayedText

/-- The texts handed to `speak`, in order. -/
def spoken (effects : List Effect) : List JSString := effects.filterMap Effect.spokenText

/-- The addresses requested from remote services, in order. -/
def fetched (effects : List Effect) : List JSString := effects.filterMap Effect.fetchedUrl

/-- The pages opened, in order. -/
def opened (effects : List Effect) : List JSString := effects.filterMap Effect.openedUrl

/-- The messages sent to the language model, in order. -/
def groqRequests (effects : List Effect) : List JSString := effects.filterMap Effect.groqMessage

/-- A quiet world: the camera is granted, every remote service fails. -/
def quietWorld : World where
  camera := .stream
  videoWidth := 640
  videoHeight := 480
  frame := []
  keepDraw := 0
  labelDraw := 0
  confidenceDraw := 0
  jokeDraw := 0
  time := "10:00:00 AM".toList
  date := "1/1/2025".toList
  groq := fun _ => .rejected "Failed to fetch".toList
  translation := fun _ => .failed
  weather := fun _ => .failed
  news := .failed
  newsFallback := .failed
  wikipedia := fun _ => .failed
  lowerCase := fun c => [c]

/-- The state of a freshly loaded page, with the detection model loaded. -/
def initialState : State where
  isWebcamActive := false
  emotionDetectionActive := false
  srcObject := false
  emotionAnalysisInterval := false
  currentEmotion := "neutral".toList
  emotionConfidence := 0
  detectedObjects := []
  proModeActive := false
  modelLoaded := true

/-- The state of a freshly loaded page after pro mode has been switched on. -/
def proState : State := { initialState with proModeActive := true }

/-! ## Durable storage -/

/-- One entry of the detection log: `{ timestamp, objects }`, the detections by class name. -/
structure DetectionData where
  timestamp : JSString
  objects : List JSString
  deriving DecidableEq, Repr

/-- The two keys of `localStorage` the script uses; none is a key that is not set.  The
detection log is held as the array its JSON text stands for. -/
structure Storage where
  marvinDetections : Option (List DetectionData)
  marvinProMode : Option JSString
  deriving DecidableEq, Repr

/-- `saveDetectedObjects(objects)` at the time `timestamp`: the storage it leaves. -/
def saveDetectedObjects (timestamp : JSString) (objects : List JSString) (st : Storage) :
    Storage :=
  let detectionData : DetectionData := { timestamp := timestamp, objects := objects }
  let existingData := st.marvinDetections.getD [] ++ [detectionData]
  let existingData :=
    if existingData.length > 50 then existingData.drop (existingData.length - 50)
    else existingData
  { st with marvinDetections := some existingData }

/-- `activateProMode()`; the styling of the page is not modelled. -/
def activateProMode (s : State) (st : Storage) : State × Storage × List Effect :=
  ({ s with proModeActive := true }, { st with marvinProMode := some "true".toList },
    say "PRO MODE ACTIVATED! All systems enhanced. Advanced AI capabilities online. Animations optimized for maximum performance. Ready for advanced queries.".toList)

/-- `deactivateProMode()`; the styling of the page is not modelled. -/
def deactivateProMode (s : State) (st : Storage) : State × Storage × List Effect :=
  ({ s with proModeActive := false }, { st with marvinProMode := some "false".toList },
    say "Pro Mode deactivated. Returning to standard operational parameters.".toList)

/-- The `DOMContentLoaded` listener that initialises pro mode from the stored key. -/
def initializeProMode (s : State) (st : Storage) : State × Storage × List Effect :=
  if st.marvinProMode = some "true".toList then activateProMode s st else (s, st, [])

/-- The `change` listener of the pro-mode switch. -/
def proModeToggleChanged (checked : Bool) (s : State) (st : Storage) :
    State × Storage × List Effect :=
  if checked then activateProMode s st else deactivateProMode s st

/-- The global variables as the script sets them when the page loads. -/
def pageLoadState : State where
  isWebcamActive := false
  emotionDetectionActive := false
  srcObject := false
  emotionAnalysisInterval := false
  currentEmotion := "neutral".toList
  emotionConfidence := 0
  detectedObjects := []
  proModeActive := false
  modelLoaded := false

/-- A reload of the page: the globals start afresh and only the storage is kept. -/
def reload (st : Storage) : State × Storage × List Effect :=
  initializeProMode pageLoadState st

/-- Whether the selection loop of `getStableEmotionAnalysis` runs through the rest of the
table without returning, so that the fallback `return` after it is reached. -/
def reachesFallback (random : ℚ) : List (JSString × ℚ) → ℚ → Bool
  | [], _ => true
  | (_, weight) :: rest, cumulativeWeight =>
    if random ≤ cumulativeWeight + weight then false
    else reachesFallback random rest (cumulativeWeight + weight)

/-! ## Vocabulary of the specification -/

/-- Two texts are the same up to letter case. -/
def SameIgnoringCase (a b : JSString) : Prop := a.map canonicalize = b.map canonicalize

/-- No character of the text is a line terminator. -/
def OnOneLine (a : JSString) : Prop := ∀ c ∈ a, isLineTerminator c = false

/-- Somewhere in `command` stands HEAD, a non-empty text, SEP and another non-empty text,
both texts on one line and the two literals in any letter case. -/
def HasTwoSlots (head sep command : JSString) : Prop :=
  ∃ pre h a p b post, command = pre ++ (h ++ (a ++ (p ++ (b ++ post)))) ∧
    SameIgnoringCase h head ∧ SameIgnoringCase p sep ∧ a ≠ [] ∧ b ≠ [] ∧
    OnOneLine a ∧ OnOneLine b

/-- `word` stands in `s` as a whole word: the character right before it, if there is one, and
the character right after it, if there is one, are not word characters. -/
def OccursAsWord (word s : JSString) : Prop :=
  ∃ pre post, s = pre ++ (word ++ post) ∧
    (∀ pre' c, pre = pre' ++ [c] → isWordChar c = false) ∧
    (∀ c post', post = c :: post' → isWordChar c = false)

/-- The trigger phrases of the vision and emotion rungs, which stand before the greeting. -/
def visionAndEmotionTriggers : List JSString :=
  ["turn on vision".toList, "activate vision".toList, "start camera".toList,
   "what do you see".toList, "turn off vision".toList, "stop camera".toList,
   "start emotion detection".toList, "detect emotions".toList,
   "stop emotion detection".toList, "end emotion detection".toList,
   "how am i feeling".toList, "what is my emotion".toList, "analyze my emotions".toList]

/-- Exactly the responses `rs` are displayed, in this order, and exactly the same strings are
handed to `speak`, in the same order. -/
def Responds (rs : List JSString) (effects : List Effect) : Prop :=
  displayed effects = rs ∧ spoken effects = rs

/-- Exactly one response is displayed and that same string is spoken. -/
def SingleResponse (effects : List Effect) : Prop := ∃ r, Responds [r] effects

/-- The command reaches rung `i` of the ladder: it satisfies the condition of that rung and
of no rung before it. -/
def ReachesRung (w : World) (command : JSString) (i : Fin ladder.length) : Prop :=
  (ladder.get i).applies w command = true ∧ ∀ r ∈ ladder.take i, r.applies w command = false

/-- A session in which the camera and emotion detection are both running. -/
def watchingState : State :=
  { initialState with
    isWebcamActive := true, srcObject := true, emotionDetectionActive := true,
    emotionAnalysisInterval := true }

/-- What a user perceives of the assistant. -/
inductive Observed
  | displayed (text : JSString)
  | speechStarted (text : JSString)
  | speechEnded (text : JSString)
  | pageOpened (url : JSString)
  deriving DecidableEq, Repr

/-- What a user perceives of an event, if anything. -/
def Event.observed : Event → Option Observed
  | .effect (.display text) => some (.displayed text)
  | .effect (.speak text _) => some (.speechStarted text)
  | .effect (.windowOpen url) => some (.pageOpened url)
  | .speechEnd text => some (.speechEnded text)
  | _ => none

/-- What a user has perceived so far. -/
def Timeline.observed (t : Timeline) : List Observed := t.events.filterMap Event.observed

/-- Content before action: `first` is displayed and its speech starts; only when that speech
has ended is `second` displayed and its speech started; only when that speech has ended is
the page opened, and nothing happens after that however long one waits. -/
def ContentBeforeAction (first second url : JSString) (t : Timeline) : Prop :=
  t.observed = [.displayed first, .speechStarted first] ∧
  (speechEnds t).observed =
    [.displayed first, .speechStarted first, .speechEnded first,
     .displayed second, .speechStarted second] ∧
  ∀ n, (speechEnds^[n + 2] t).observed =
    [.displayed first, .speechStarted first, .speechEnded first,
     .displayed second, .speechStarted second, .speechEnded second, .pageOpened url]

/-- No page is ever opened, however many utterances come to their end. -/
def NeverOpensPage (t : Timeline) : Prop :=
  ∀ n url, Observed.pageOpened url ∉ (speechEnds^[n] t).observed

/-- The last `n` entries of a list, in their order. -/
def lastEntries {α : Type} (n : Nat) (l : List α) : List α := l.drop (l.length - n)

/-- `saveDetectedObjects` called once for each snapshot, in order. -/
def saveAll (snapshots : List DetectionData) (st : Storage) : Storage :=
  snapshots.foldl (fun st e => saveDetectedObjects e.timestamp e.objects st) st

/-- Snapshot number `i`, with no detection in it. -/
def numberedSnapshot (i : Nat) : DetectionData :=
  { timestamp := (toString i).toList, objects := [] }

/-- A storage with no key set. -/
def emptyStorage : Storage := { marvinDetections := none, marvinProMode := none }

/-- A quiet world in which the camera cannot be acquired, for the given error name. -/
def cameraDenied (name : JSString) : World := { quietWorld with camera := .error name }

/-- Pro mode switched on or off by a series of calls, true for `activateProMode` and false
for `deactivateProMode`: the state and storage they leave. -/
def runProModeCalls : List Bool → State × Storage → State × Storage
  | [], r => r
  | activate :: rest, r =>
    let next := if activate then activateProMode r.1 r.2 else deactivateProMode r.1 r.2
    runProModeCalls rest (next.1, next.2.1)

/-- The nine labels an emotion record may carry. -/
def emotionLabels : List JSString :=
  ["neutral".toList, "happy".toList, "focused".toList, "calm".toList, "surprised".toList,
   "sad".toList, "angry".toList, "fearful".toList, "disgusted".toList]

/-- An emotion record within the ranges of the specification. -/
def EmotionInRange (label : JSString) (confidence : Int) : Prop :=
  label ∈ emotionLabels ∧ 70 ≤ confidence ∧ confidence ≤ 95

/-- The draw of `Math.random()` used for the confidence lies in [0,1). -/
def ConfidenceDrawInRange (w : World) : Prop := 0 ≤ w.confidenceDraw ∧ w.confidenceDraw < 1

/-- The session state after one `analyzeEmotion` tick in each of the given worlds, in order. -/
def runTicks (ticks : List World) (s : State) : State :=
  ticks.foldl (fun s w => (analyzeEmotion w s).1) s

/-- A quiet world whose camera shows a one-pixel mid-grey frame, with the given draws. -/
def litWorld (keepDraw labelDraw confidenceDraw : ℚ) : World :=
  { quietWorld with
    frame := [100, 100, 100, 255], keepDraw := keepDraw, labelDraw := labelDraw,
    confidenceDraw := confidenceDraw }

/-- An RGBA frame given pixel by pixel, as the byte sequence of `imageData.data`. -/
def rgbaBytes : List (Nat × Nat × Nat × Nat) → List Nat
  | [] => []
  | (r, g, b, a) :: rest => r :: g :: b :: a :: rgbaBytes rest

/-- The sum of r + g + b over the pixels of a frame. -/
def channelSum : List (Nat × Nat × Nat × Nat) → Nat
  | [] => 0
  | (r, g, b, _) :: rest => r + g + b + channelSum rest

/-- The mean over the pixels of a frame of (r + g + b) / 3. -/
def meanBrightness (pixels : List (Nat × Nat × Nat × Nat)) : ℚ :=
  (pixels.map (fun p => ((p.1 : ℚ) + p.2.1 + p.2.2.1) / 3)).sum / (pixels.length : ℚ)

/-- The frame with every alpha byte replaced. -/
def withAlpha (a : Nat) (pixels : List (Nat × Nat × Nat × Nat)) : List (Nat × Nat × Nat × Nat) :=
  pixels.map (fun p => (p.1, p.2.1, p.2.2.1, a))

/-- Every colour channel of every pixel is a byte. -/
def ChannelsAreBytes (pixels : List (Nat × Nat × Nat × Nat)) : Prop :=
  ∀ p ∈ pixels, p.1 ≤ 255 ∧ p.2.1 ≤ 255 ∧ p.2.2.1 ≤ 255

/-- A quiet world whose camera shows a one-pixel frame too dark to pass for a face. -/
def darkWorld : World :=
  { quietWorld with videoWidth := 1, videoHeight := 1, frame := [10, 10, 10, 255] }

/-- A token of a response body: it holds no space. -/
def SpaceFree (t : JSString) : Prop := ' ' ∉ t

/-- The sentence `getWeatherWithoutAPI` builds from a condition, a temperature and a wind. -/
def weatherSentence (w : World) (location condition temp wind : JSString) : JSString :=
  "In ".toList ++ location ++ ", it's currently ".toList ++ toLowerCase w condition ++
    " with a temperature of ".toList ++ temp ++ " and ".toList ++ wind ++ " wind.".toList

/-- The message `getWeatherWithoutAPI` gives when its request fails. -/
def weatherFailure (location : JSString) : JSString :=
  "I couldn't get the weather for ".toList ++ location ++ ". Please try again later.".toList

/-- A quiet world whose weather service answers every request with the given body. -/
def weatherWorld (data : JSString) : World := { quietWorld with weather := fun _ => .text data }

/-- A quiet world whose encyclopedia answers every request with the given body. -/
def wikipediaWorld (response : WikipediaResponse) : World :=
  { quietWorld with wikipedia := fun _ => response }

/-- A quiet world whose language model answers every message with the given text. -/
def groqWorld (reply : JSString) : World := { quietWorld with groq := fun _ => .content reply }

/-! ## Properties of the embedded program -/

theorem processCommand_eq_dispatch (w : World) (s : State) (command : JSString)
    (h : s.proModeActive = false) : processCommand w s command = dispatch w s command := by
  unfold processCommand
  simp only [h, Bool.false_and, Bool.false_eq_true, if_false]
  rfl

/-! ## Rounding to a Number value -/

theorem roundHalfEven_cases (x : ℚ) :
    roundHalfEven x = ⌊x⌋ ∧ x - ⌊x⌋ ≤ 1 / 2 ∨ roundHalfEven x = ⌊x⌋ + 1 ∧ 1 / 2 ≤ x - ⌊x⌋ := by
  unfold roundHalfEven
  split_ifs with h1 h2 h3
  · exact Or.inl ⟨rfl, le_of_lt h1⟩
  · exact Or.inr ⟨rfl, le_of_lt h2⟩
  · exact Or.inl ⟨rfl, not_lt.mp h2⟩
  · exact Or.inr ⟨rfl, not_lt.mp h1⟩

theorem roundHalfEven_error (x : ℚ) : |(roundHalfEven x : ℚ) - x| ≤ 1 / 2 := by
  have hf := Int.floor_le x
  have hl := Int.lt_floor_add_one x
  rw [abs_le]
  rcases roundHalfEven_cases x with ⟨h, hd⟩ | ⟨h, hd⟩
  · rw [h]
    constructor <;> linarith
  · rw [h]
    push_cast
    constructor <;> linarith

theorem roundHalfEven_of_near (x : ℚ) (n : ℤ) (h : |x - n| < 1 / 2) : roundHalfEven x = n := by
  have he := roundHalfEven_error x
  rw [abs_lt] at h
  rw [abs_le] at he
  have h1 : ((roundHalfEven x : ℤ) : ℚ) < (n : ℚ) + 1 := by linarith
  have h2 : (n : ℚ) - 1 < ((roundHalfEven x : ℤ) : ℚ) := by linarith
  have h1' : roundHalfEven x < n + 1 := by exact_mod_cast h1
  have h2' : n - 1 < roundHalfEven x := by exact_mod_cast h2
  omega

theorem roundHalfEven_intCast (n : ℤ) : roundHalfEven (n : ℚ) = n :=
  roundHalfEven_of_near _ n (by simp)

theorem roundHalfEven_mono (x y : ℚ) (h : x ≤ y) : roundHalfEven x ≤ roundHalfEven y := by
  by_contra hlt
  push_neg at hlt
  have hx := roundHalfEven_error x
  have hy := roundHalfEven_error y
  rw [abs_le] at hx hy
  have h1 : (roundHalfEven y : ℚ) + 1 ≤ (roundHalfEven x : ℚ) := by exact_mod_cast hlt
  have hxy : x = y := by linarith
  rw [hxy] at hlt
  exact lt_irrefl _ hlt

theorem roundHalfEven_le (x : ℚ) (n : ℤ) (h : x ≤ n) : roundHalfEven x ≤ n := by
  have := roundHalfEven_mono x n h
  rwa [roundHalfEven_intCast] at this

theorem le_roundHalfEven (x : ℚ) (n : ℤ) (h : (n : ℚ) ≤ x) : n ≤ roundHalfEven x := by
  have := roundHalfEven_mono n x h
  rwa [roundHalfEven_intCast] at this

theorem two_zpow_pos (e : ℤ) : (0 : ℚ) < 2 ^ e := zpow_pos (by norm_num) e

theorem two_zpow_mono (a b : ℤ) (h : a ≤ b) : (2 : ℚ) ^ a ≤ 2 ^ b :=
  zpow_le_zpow_right₀ (by norm_num) h

theorem log_lt_of_lt (x : ℚ) (k : ℤ) (hx : 0 < x) (h : x < 2 ^ k) : Int.log 2 x < k := by
  have := (Int.lt_zpow_iff_log_lt (R := ℚ) (b := 2) one_lt_two hx).mp (by simpa using h)
  exact this

theorem le_log_of_le (x : ℚ) (k : ℤ) (hx : 0 < x) (h : 2 ^ k ≤ x) : k ≤ Int.log 2 x := by
  have := (Int.zpow_le_iff_le_log (R := ℚ) (b := 2) one_lt_two hx).mp (by simpa using h)
  exact this

theorem two_pow_mul_zpow (n : ℕ) (e : ℤ) :
    (((2 : ℤ) ^ n : ℤ) : ℚ) * 2 ^ e = 2 ^ (e + (n : ℤ)) := by
  rw [Int.cast_pow, Int.cast_ofNat, ← zpow_natCast, ← zpow_add₀ (by norm_num), add_comm]

theorem binade_ge (x : ℚ) : -1022 ≤ binade x := le_max_right _ _

theorem binade_of_bounds (x : ℚ) (e : ℤ) (hx : 0 < x) (h1 : 2 ^ e ≤ x) (h2 : x < 2 ^ (e + 1))
    (he : -1022 ≤ e) : binade x = e := by
  unfold binade
  rw [abs_of_pos hx]
  have ha := le_log_of_le x e hx h1
  have hb := log_lt_of_lt x (e + 1) hx h2
  have : Int.log 2 x = e := by omega
  rw [this]
  exact max_eq_left he

theorem binade_le (x : ℚ) (k : ℤ) (hx : 0 < x) (h : x < 2 ^ (k + 1)) (hk : -1022 ≤ k) :
    binade x ≤ k := by
  unfold binade
  rw [abs_of_pos hx]
  have hb := log_lt_of_lt x (k + 1) hx h
  exact max_le (by omega) hk

theorem lt_zpow_binade_succ (x : ℚ) (hx : 0 < x) : x < 2 ^ (binade x + 1) := by
  have h := Int.lt_zpow_succ_log_self (R := ℚ) (b := 2) one_lt_two x
  have h' : x < (2 : ℚ) ^ (Int.log 2 x + 1) := by simpa using h
  refine lt_of_lt_of_le h' (two_zpow_mono _ _ ?_)
  unfold binade
  rw [abs_of_pos hx]
  have := le_max_left (Int.log 2 x) (-1022)
  omega

theorem zpow_binade_le (x : ℚ) (hx : 0 < x) (h : -1022 < binade x) : 2 ^ binade x ≤ x := by
  have hlog : binade x = Int.log 2 x := by
    unfold binade at h ⊢
    rw [abs_of_pos hx] at h ⊢
    rcases max_cases (Int.log 2 x) (-1022) with ⟨h1, _⟩ | ⟨h1, _⟩
    · exact h1
    · rw [h1] at h
      exact absurd h (lt_irrefl _)
  rw [hlog]
  have := Int.zpow_log_le_self (R := ℚ) (b := 2) one_lt_two hx
  simpa using this

theorem binade_mono (x y : ℚ) (hx : 0 < x) (h : x ≤ y) : binade x ≤ binade y := by
  unfold binade
  rw [abs_of_pos hx, abs_of_pos (lt_of_lt_of_le hx h)]
  exact max_le_max (Int.log_mono_right hx h) le_rfl

theorem toDouble_zero : toDouble 0 = 0 := by
  unfold toDouble
  rw [zero_div, show ((0 : ℚ)) = ((0 : ℤ) : ℚ) from by norm_num, roundHalfEven_intCast]
  simp

theorem toDouble_nonneg (x : ℚ) (hx : 0 ≤ x) : 0 ≤ toDouble x := by
  unfold toDouble
  have hu := two_zpow_pos (binade x - 52)
  have h0 : ((0 : ℤ) : ℚ) ≤ x / 2 ^ (binade x - 52) := by
    rw [Int.cast_zero]
    exact div_nonneg hx (le_of_lt hu)
  have := le_roundHalfEven _ 0 h0
  have h' : (0 : ℚ) ≤ (roundHalfEven (x / 2 ^ (binade x - 52)) : ℚ) := by exact_mod_cast this
  exact mul_nonneg h' (le_of_lt hu)

theorem toDouble_le_next_binade (x : ℚ) (hx : 0 < x) : toDouble x ≤ 2 ^ (binade x + 1) := by
  unfold toDouble
  have hu := two_zpow_pos (binade x - 52)
  have hlt := lt_zpow_binade_succ x hx
  have h1 : x / 2 ^ (binade x - 52) ≤ (((2 : ℤ) ^ 53 : ℤ) : ℚ) := by
    rw [div_le_iff₀ hu]
    have : (((2 : ℤ) ^ 53 : ℤ) : ℚ) * 2 ^ (binade x - 52) = 2 ^ (binade x + 1) := by
      rw [two_pow_mul_zpow]
      congr 1
      push_cast
      omega
    rw [this]
    exact le_of_lt hlt
  have h2 := roundHalfEven_le _ _ h1
  have h3 : (roundHalfEven (x / 2 ^ (binade x - 52)) : ℚ) ≤ (((2 : ℤ) ^ 53 : ℤ) : ℚ) := by
    exact_mod_cast h2
  calc (roundHalfEven (x / 2 ^ (binade x - 52)) : ℚ) * 2 ^ (binade x - 52)
      ≤ (((2 : ℤ) ^ 53 : ℤ) : ℚ) * 2 ^ (binade x - 52) :=
        mul_le_mul_of_nonneg_right h3 (le_of_lt hu)
    _ = 2 ^ (binade x + 1) := by
      rw [two_pow_mul_zpow]
      congr 1
      push_cast
      omega

theorem zpow_binade_le_toDouble (x : ℚ) (hx : 0 < x) (h : -1022 < binade x) :
    2 ^ binade x ≤ toDouble x := by
  unfold toDouble
  have hu := two_zpow_pos (binade x - 52)
  have hle := zpow_binade_le x hx h
  have hpow : (((2 : ℤ) ^ 52 : ℤ) : ℚ) * 2 ^ (binade x - 52) = 2 ^ binade x := by
    rw [two_pow_mul_zpow]
    congr 1
    push_cast
    omega
  have h1 : (((2 : ℤ) ^ 52 : ℤ) : ℚ) ≤ x / 2 ^ (binade x - 52) := by
    rw [le_div_iff₀ hu, hpow]
    exact hle
  have h2 := le_roundHalfEven _ _ h1
  have h3 : (((2 : ℤ) ^ 52 : ℤ) : ℚ) ≤ (roundHalfEven (x / 2 ^ (binade x - 52)) : ℚ) := by
    exact_mod_cast h2
  calc (2 : ℚ) ^ binade x = (((2 : ℤ) ^ 52 : ℤ) : ℚ) * 2 ^ (binade x - 52) := hpow.symm
    _ ≤ _ := mul_le_mul_of_nonneg_right h3 (le_of_lt hu)

theorem toDouble_mono (x y : ℚ) (hx : 0 ≤ x) (h : x ≤ y) : toDouble x ≤ toDouble y := by
  rcases eq_or_lt_of_le hx with h0 | hpos
  · rw [← h0, toDouble_zero]
    exact toDouble_nonneg y (le_trans hx h)
  · have hy : 0 < y := lt_of_lt_of_le hpos h
    have hb := binade_mono x y hpos h
    rcases eq_or_lt_of_le hb with heq | hlt
    · unfold toDouble
      rw [heq]
      have hu := two_zpow_pos (binade y - 52)
      have := roundHalfEven_mono (x / 2 ^ (binade y - 52)) (y / 2 ^ (binade y - 52))
        (div_le_div_of_nonneg_right h (le_of_lt hu))
      have h' : (roundHalfEven (x / 2 ^ (binade y - 52)) : ℚ) ≤
          (roundHalfEven (y / 2 ^ (binade y - 52)) : ℚ) := by exact_mod_cast this
      exact mul_le_mul_of_nonneg_right h' (le_of_lt hu)
    · have h1 := toDouble_le_next_binade x hpos
      have h2 := zpow_binade_le_toDouble y hy (lt_of_le_of_lt (binade_ge x) hlt)
      exact le_trans h1 (le_trans (two_zpow_mono _ _ (by omega)) h2)

theorem toDouble_of_integral (x : ℚ) (n : ℤ) (h : x / 2 ^ (binade x - 52) = n) :
    toDouble x = x := by
  unfold toDouble
  rw [h, roundHalfEven_intCast, ← h]
  exact div_mul_cancel₀ x (ne_of_gt (two_zpow_pos _))

theorem toDouble_dyadic (m : ℕ) (j : ℤ) (hm : m < 2 ^ 53) (hj : -1074 ≤ j) :
    toDouble ((m : ℚ) * 2 ^ j) = (m : ℚ) * 2 ^ j := by
  rcases Nat.eq_zero_or_pos m with h0 | hpos
  · rw [h0]
    simp [toDouble_zero]
  · have hx : (0 : ℚ) < (m : ℚ) * 2 ^ j :=
      mul_pos (by exact_mod_cast hpos) (two_zpow_pos j)
    have hlt : (m : ℚ) * 2 ^ j < 2 ^ (j + 52 + 1) := by
      have h1 : (m : ℚ) < 2 ^ (53 : ℕ) := by exact_mod_cast hm
      have h2 : (2 : ℚ) ^ (j + 52 + 1) = 2 ^ (53 : ℕ) * 2 ^ j := by
        rw [← zpow_natCast, ← zpow_add₀ (by norm_num)]
        congr 1
        push_cast
        omega
      rw [h2]
      exact mul_lt_mul_of_pos_right h1 (two_zpow_pos j)
    have hb := binade_le _ (j + 52) hx hlt (by omega)
    obtain ⟨k, hk⟩ := Int.eq_ofNat_of_zero_le (show 0 ≤ j - (binade ((m : ℚ) * 2 ^ j) - 52) by omega)
    refine toDouble_of_integral _ ((m * 2 ^ k : ℕ) : ℤ) ?_
    rw [mul_div_assoc, ← zpow_sub₀ (by norm_num), hk]
    push_cast
    rw [zpow_natCast]

theorem toDouble_natCast (n : ℕ) (h : n < 2 ^ 53) : toDouble (n : ℚ) = n := by
  have := toDouble_dyadic n 0 h (by norm_num)
  simpa using this

theorem toDouble_error (x : ℚ) (k : ℤ) (hx : 0 ≤ x) (h : x < 2 ^ (k + 1)) (hk : -1022 ≤ k) :
    |toDouble x - x| ≤ 2 ^ (k - 53) := by
  rcases eq_or_lt_of_le hx with h0 | hpos
  · rw [← h0, toDouble_zero, sub_zero, abs_zero]
    exact le_of_lt (two_zpow_pos _)
  · have hb := binade_le x k hpos h hk
    have hu := two_zpow_pos (binade x - 52)
    have he := roundHalfEven_error (x / 2 ^ (binade x - 52))
    have hx' : x = x / 2 ^ (binade x - 52) * 2 ^ (binade x - 52) :=
      (div_mul_cancel₀ x (ne_of_gt hu)).symm
    have heq : toDouble x - x =
        ((roundHalfEven (x / 2 ^ (binade x - 52)) : ℚ) - x / 2 ^ (binade x - 52)) *
          2 ^ (binade x - 52) := by
      unfold toDouble
      rw [sub_mul, ← hx']
    rw [heq, abs_mul, abs_of_pos hu]
    have hhalf : (1 / 2 : ℚ) * 2 ^ (binade x - 52) = 2 ^ (binade x - 53) := by
      rw [show (1 / 2 : ℚ) = 2 ^ (-1 : ℤ) by norm_num, ← zpow_add₀ (by norm_num)]
      congr 1
      omega
    calc _ ≤ (1 / 2 : ℚ) * 2 ^ (binade x - 52) := mul_le_mul_of_nonneg_right he (le_of_lt hu)
      _ = 2 ^ (binade x - 53) := hhalf
      _ ≤ 2 ^ (k - 53) := two_zpow_mono _ _ (by omega)

theorem toDouble_eval (x : ℚ) (e n : ℤ) (hx : 0 < x) (h1 : 2 ^ e ≤ x) (h2 : x < 2 ^ (e + 1))
    (he : -1022 ≤ e) (hn : |x / 2 ^ (e - 52) - n| < 1 / 2) :
    toDouble x = (n : ℚ) * 2 ^ (e - 52) := by
  unfold toDouble
  rw [binade_of_bounds x e hx h1 h2 he, roundHalfEven_of_near _ n hn]

theorem roundHalfEven_of_tie (x : ℚ) (n : ℤ) (h : x = n - 1 / 2 ∨ x = n + 1 / 2)
    (heven : n % 2 = 0) : roundHalfEven x = n := by
  rcases h with h | h
  · have hfloor : ⌊x⌋ = n - 1 := by
      rw [Int.floor_eq_iff, h]
      push_cast
      constructor <;> linarith
    unfold roundHalfEven
    rw [hfloor, h]
    push_cast
    rw [if_neg (by norm_num), if_neg (by norm_num), if_neg (by omega)]
    ring
  · have hfloor : ⌊x⌋ = n := by
      rw [Int.floor_eq_iff, h]
      constructor <;> linarith
    unfold roundHalfEven
    rw [hfloor, h]
    rw [if_neg (by norm_num), if_neg (by norm_num), if_pos heven]

theorem toDouble_eval_tie (x : ℚ) (e n : ℤ) (hx : 0 < x) (h1 : 2 ^ e ≤ x)
    (h2 : x < 2 ^ (e + 1)) (he : -1022 ≤ e)
    (hn : x / 2 ^ (e - 52) = n - 1 / 2 ∨ x / 2 ^ (e - 52) = n + 1 / 2) (heven : n % 2 = 0) :
    toDouble x = (n : ℚ) * 2 ^ (e - 52) := by
  unfold toDouble
  rw [binade_of_bounds x e hx h1 h2 he, roundHalfEven_of_tie _ n hn heven]

theorem toDouble_le_of_le (x c : ℚ) (hx : 0 ≤ x) (hc : IsDouble c) (h : x ≤ c) :
    toDouble x ≤ c := by
  have := toDouble_mono x c hx h
  rwa [hc] at this

theorem le_toDouble_of_le (x c : ℚ) (hc0 : 0 ≤ c) (hc : IsDouble c) (h : c ≤ x) :
    c ≤ toDouble x := by
  have := toDouble_mono c x hc0 h
  rwa [hc] at this

/-! ## No branch of the ladder talks to the language model -/

theorem groqRequests_append (a b : List Effect) :
    groqRequests (a ++ b) = groqRequests a ++ groqRequests b := List.filterMap_append _ _ _

theorem groqRequests_say (r : JSString) : groqRequests (say r) = [] := rfl

theorem groqRequests_handleWebcamError (n : JSString) :
    groqRequests (handleWebcamError n) = [] := by
  unfold handleWebcamError; exact groqRequests_say _

theorem groqRequests_detect (w : World) (s : State) (e : List Effect)
    (h : detectObjectsFromWebcam w s = .ok e) : groqRequests e = [] := by
  unfold detectObjectsFromWebcam at h
  split at h
  · cases h; rfl
  · split at h
    · cases h; rfl
    · cases h

theorem groqRequests_startWebcam (w : World) (s : State) :
    groqRequests (startWebcam w s).2 = [] := by
  unfold startWebcam
  split
  · exact groqRequests_say _
  · cases w.camera with
    | error n => exact groqRequests_handleWebcamError n
    | stream =>
      simp only
      cases h : detectObjectsFromWebcam w { s with srcObject := true, isWebcamActive := true } with
      | ok e =>
        have := groqRequests_detect w _ e h
        simp only [groqRequests, List.filterMap_append, List.filterMap_cons, List.filterMap_nil,
          Effect.groqMessage, say, List.append_nil] at this ⊢
        exact this
      | error n => exact groqRequests_handleWebcamError n

theorem groqRequests_analyzeEmotion (w : World) (s : State) :
    groqRequests (analyzeEmotion w s).2 = [] := by
  unfold analyzeEmotion
  simp only []
  split_ifs <;> rfl

theorem groqRequests_stopEmotionDetection (s : State) :
    groqRequests (stopEmotionDetection s).2 = [] := by
  unfold stopEmotionDetection
  cases s.emotionAnalysisInterval <;> rfl

theorem groqRequests_stopWebcam (s : State) : groqRequests (stopWebcam s).2 = [] := by
  obtain ⟨a, b, c, d, e, f, g, h, i⟩ := s
  cases b <;> cases c <;> cases d <;> rfl

theorem groqRequests_startEmotionDetection (w : World) (s : State) :
    groqRequests (startEmotionDetection w s).2 = [] := by
  unfold startEmotionDetection
  split
  · exact groqRequests_say _
  · simp only [groqRequests_append, groqRequests_say, groqRequests_analyzeEmotion]
    cases s.isWebcamActive
    · simp [groqRequests_append, groqRequests_say, groqRequests_startWebcam]
    · rfl

theorem groqRequests_emotionQueryBranch (s : State) :
    groqRequests (emotionQueryBranch s) = [] := by
  unfold emotionQueryBranch; split <;> exact groqRequests_say _

theorem groqRequests_handleTranslation (w : World) (c : JSString) :
    groqRequests (handleTranslation w c) = [] := by
  unfold handleTranslation
  simp only []
  repeat' split
  all_goals rfl

theorem groqRequests_searchForBranch (c : JSString) : groqRequests (searchForBranch c) = [] := by
  unfold searchForBranch
  simp only []
  split <;> rfl

theorem groqRequests_playOnYoutubeBranch (c : JSString) :
    groqRequests (playOnYoutubeBranch c) = [] := by
  unfold playOnYoutubeBranch
  simp only []
  split <;> rfl

theorem groqRequests_introduceBranch (c : JSString) : groqRequests (introduceBranch c) = [] := by
  unfold introduceBranch
  simp only []
  split <;> rfl

theorem groqRequests_routeBranch (c : JSString) : groqRequests (routeBranch c) = [] := by
  unfold routeBranch
  split <;> rfl

theorem groqRequests_getNewsFallback (w : World) : groqRequests (getNewsFallback w) = [] := by
  unfold getNewsFallback
  split <;> rfl

theorem groqRequests_getLatestNews (w : World) : groqRequests (getLatestNews w) = [] := by
  unfold getLatestNews
  split
  · rfl
  · rfl
  · exact groqRequests_getNewsFallback w

theorem groqRequests_getWeatherWithoutAPI (w : World) (l : JSString) :
    groqRequests (getWeatherWithoutAPI w l) = [] := by
  unfold getWeatherWithoutAPI
  split <;> rfl

theorem groqRequests_searchWikipedia (w : World) (q : JSString) :
    groqRequests (searchWikipedia w q) = [] := by
  unfold searchWikipedia
  simp only []
  split <;> rfl

theorem groqRequests_describeVision (s : State) : groqRequests (describeVision s) = [] := by
  unfold describeVision; split <;> rfl

theorem groqRequests_fallbackBranch (w : World) (s : State) (c : JSString)
    (h : s.proModeActive = false) : groqRequests (fallbackBranch w s c) = [] := by
  unfold fallbackBranch
  rw [h]
  exact groqRequests_say _

/-! ## First match wins -/

theorem firstMatch_induction (P : State × List Effect → Prop) (w : World) (s : State)
    (command : JSString) (rules : List Rule)
    (hrules : ∀ r ∈ rules, P (r.handler w s command))
    (hfallback : P (s, fallbackBranch w s command)) :
    P (firstMatch w s command rules) := by
  induction rules with
  | nil => exact hfallback
  | cons r rest ih =>
    simp only [firstMatch]
    split
    · exact hrules r (List.mem_cons_self r rest)
    · exact ih (fun q hq => hrules q (List.mem_cons_of_mem r hq))

theorem groqRequests_ladder (w : World) (s : State) (c : JSString) :
    ∀ r ∈ ladder, groqRequests (r.handler w s c).2 = [] := by
  simp only [ladder, List.forall_mem_cons, List.not_mem_nil, false_implies, implies_true,
    and_true]
  exact ⟨groqRequests_startWebcam w s, groqRequests_describeVision s, groqRequests_stopWebcam s,
    groqRequests_startEmotionDetection w s, groqRequests_stopEmotionDetection s,
    groqRequests_emotionQueryBranch s, rfl, groqRequests_handleTranslation w c,
    groqRequests_searchForBranch c, rfl, rfl, rfl, rfl, rfl, rfl, rfl,
    groqRequests_getLatestNews w, groqRequests_playOnYoutubeBranch c, rfl, rfl, rfl, rfl, rfl,
    groqRequests_introduceBranch c, groqRequests_routeBranch c, rfl,
    groqRequests_getWeatherWithoutAPI w _, groqRequests_searchWikipedia w _,
    groqRequests_searchWikipedia w _, groqRequests_searchWikipedia w _,
    groqRequests_searchWikipedia w _, groqRequests_searchWikipedia w _,
    groqRequests_searchWikipedia w _⟩

theorem firstMatch_skip (w : World) (s : State) (command : JSString) (pre post : List Rule)
    (h : ∀ r ∈ pre, r.applies w command = false) :
    firstMatch w s command (pre ++ post) = firstMatch w s command post := by
  induction pre with
  | nil => rfl
  | cons r pre ih =>
    have hr : r.applies w command = false := h r (List.mem_cons_self r pre)
    have hpre : ∀ q ∈ pre, q.applies w command = false :=
      fun q hq => h q (List.mem_cons_of_mem r hq)
    simp [firstMatch, hr, ih hpre]

theorem firstMatch_at (w : World) (s : State) (command : JSString) (rules : List Rule)
    (i : Fin rules.length) (happlies : (rules.get i).applies w command = true)
    (hfirst : ∀ r ∈ rules.take i, r.applies w command = false) :
    firstMatch w s command rules = (rules.get i).handler w s command := by
  have hsplit : rules = rules.take i ++ rules.get i :: rules.drop (i + 1) := by
    rw [List.get_eq_getElem, ← List.drop_eq_getElem_cons i.isLt, List.take_append_drop]
  have hrun : firstMatch w s command
      (rules.take i ++ rules.get i :: rules.drop (i + 1)) =
      (rules.get i).handler w s command := by
    rw [firstMatch_skip w s command _ _ hfirst]
    simp only [firstMatch]
    rw [if_pos happlies]
  rw [← hsplit] at hrun
  exact hrun

theorem firstMatch_none (w : World) (s : State) (command : JSString) (rules : List Rule)
    (h : ∀ r ∈ rules, r.applies w command = false) :
    firstMatch w s command rules = (s, fallbackBranch w s command) := by
  have := firstMatch_skip w s command rules [] h
  simpa [firstMatch] using this

theorem processCommand_of_first_match (w : World) (s : State) (command : JSString)
    (hpro : s.proModeActive = false) (i : Fin ladder.length)
    (happlies : (ladder.get i).applies w command = true)
    (hfirst : ∀ r ∈ ladder.take i, r.applies w command = false) :
    processCommand w s command = (ladder.get i).handler w s command := by
  rw [processCommand_eq_dispatch w s command hpro]
  exact firstMatch_at w s command ladder i happlies hfirst

/-- C1: with pro mode inactive, `processCommand` runs the body of the first rung of the ladder,
in declared order, whose condition the command satisfies, and nothing else: its outcome is
that body's outcome whatever later conditions the command satisfies as well. -/
theorem processCommand_first_match_wins (w : World) (s : State) (command : JSString)
    (hpro : s.proModeActive = false) (i : Fin ladder.length)
    (happlies : (ladder.get i).applies w command = true)
    (hfirst : ∀ r ∈ ladder.take i, r.applies w command = false) :
    processCommand w s command = (ladder.get i).handler w s command :=
  processCommand_of_first_match w s command hpro i happlies hfirst

set_option maxRecDepth 100000 in
theorem processCommand_first_match_wins_examples :
    (processCommand quietWorld initialState "what is the room temperature".toList =
        (initialState, say "The room temperature ranges from: 20–22 °C".toList) ∧
      (ladder.get ⟨26, by decide⟩).applies quietWorld "what is the room temperature".toList =
        true) ∧
    (processCommand quietWorld initialState "what is the time".toList =
        (initialState, say "The current time is 10:00:00 AM and the date is 1/1/2025.".toList) ∧
      (ladder.get ⟨29, by decide⟩).applies quietWorld "what is the time".toList = true) :=
  ⟨⟨processCommand_first_match_wins quietWorld initialState _ rfl ⟨18, by decide⟩ (by decide)
      (by decide), by decide⟩,
    ⟨processCommand_first_match_wins quietWorld initialState _ rfl ⟨25, by decide⟩ (by decide)
      (by decide), by decide⟩⟩

/-- C8: with pro mode inactive, `processCommand` sends nothing to the language model whatever
the command, and a command that satisfies no condition of the ladder gets exactly the fixed
fallback response, displayed and spoken, with the session state untouched. -/
theorem processCommand_without_pro_mode (w : World) (s : State) (command : JSString)
    (hpro : s.proModeActive = false) :
    groqRequests (processCommand w s command).2 = [] ∧
    ((∀ r ∈ ladder, r.applies w command = false) →
      processCommand w s command =
        (s, [.display fallbackResponse, .speak fallbackResponse none])) := by
  rw [processCommand_eq_dispatch w s command hpro]
  constructor
  · exact firstMatch_induction (fun r => groqRequests r.2 = []) w s command ladder
      (groqRequests_ladder w s command) (groqRequests_fallbackBranch w s command hpro)
  · intro hnone
    unfold dispatch
    rw [firstMatch_none w s command ladder hnone]
    unfold fallbackBranch
    rw [hpro]
    rfl

set_option maxRecDepth 100000 in
theorem processCommand_without_pro_mode_example :
    groqRequests (processCommand quietWorld initialState "sing a song".toList).2 = [] ∧
    processCommand quietWorld initialState "sing a song".toList =
      (initialState,
        [.display "I'm not sure I understand. Could you please rephrase your command?".toList,
         .speak "I'm not sure I understand. Could you please rephrase your command?".toList
           none]) :=
  ⟨(processCommand_without_pro_mode quietWorld initialState "sing a song".toList rfl).1,
    (processCommand_without_pro_mode quietWorld initialState "sing a song".toList rfl).2
      (by decide)⟩

/-- C7: the code does not swallow a failed request to the language model.  With pro mode
active and a command outside the allowlist, each kind of failure (rejected request, non-2xx
status, malformed body) ends `processCommand` with the system-error string displayed and
spoken and nothing else: the ladder is not consulted and no fallback response is given,
although the command satisfies no condition of the ladder. -/
theorem processCommand_surfaces_groq_failure :
    processCommand quietWorld proState "sing a song".toList =
      (proState,
        [.groqRequest "sing a song".toList,
         .display
           "SYSTEM ERROR: Advanced AI temporarily unavailable. Failed to fetch".toList,
         .speak
           "SYSTEM ERROR: Advanced AI temporarily unavailable. Failed to fetch".toList none]) ∧
    processCommand { quietWorld with groq := fun _ => .status 500 } proState
        "sing a song".toList =
      (proState,
        [.groqRequest "sing a song".toList,
         .display "SYSTEM ERROR: Advanced AI temporarily unavailable. API error: 500".toList,
         .speak "SYSTEM ERROR: Advanced AI temporarily unavailable. API error: 500".toList
           none]) ∧
    processCommand
        { quietWorld with groq := fun _ => .malformed "Unexpected end of JSON input".toList }
        proState "sing a song".toList =
      (proState,
        [.groqRequest "sing a song".toList,
         .display
           "SYSTEM ERROR: Advanced AI temporarily unavailable. Unexpected end of JSON input".toList,
         .speak
           "SYSTEM ERROR: Advanced AI temporarily unavailable. Unexpected end of JSON input".toList
           none]) ∧
    (∀ r ∈ ladder, r.applies quietWorld "sing a song".toList = false) ∧
    isBasicCommand "sing a song".toList = false := by
  refine ⟨?_, ?_, ?_, ?_, ?_⟩ <;> decide

/-- C3: the code does not reject every language name outside its table.  For the target
`constructor`, a name the table object inherits, `handleTranslation` builds an address and
issues the request instead of giving the unsupported-language response it gives for
`klingon`. -/
theorem handleTranslation_requests_inherited_name :
    handleTranslation quietWorld "translate good morning to constructor".toList =
      [.fetch
         "https://api.mymemory.translated.net/get?q=good%20morning&langpair=en|function Object() \x7b [native code] \x7d".toList,
       .display "Sorry, I couldn't complete the translation.".toList,
       .speak "Sorry, I couldn't complete the translation.".toList none] ∧
    lookupProperty langMap "constructor".toList ≠ none ∧
    "constructor".toList ∉ langMap.map Prod.fst ∧
    handleTranslation quietWorld "translate good morning to klingon".toList =
      [.display "Sorry, I don't support translation to klingon yet.".toList,
       .speak "Sorry, I don't support translation to klingon yet.".toList none] := by
  refine ⟨?_, ?_, ?_, ?_⟩ <;> decide

/-! ## The two-slot patterns -/

theorem stripLiteralCI_eq_some (lit s r : JSString) :
    stripLiteralCI lit s = some r ↔ ∃ m, s = m ++ r ∧ SameIgnoringCase m lit := by
  induction lit generalizing s with
  | nil =>
    simp only [stripLiteralCI, Option.some.injEq, SameIgnoringCase, List.map_nil,
      List.map_eq_nil_iff]
    constructor
    · intro h; exact ⟨[], by simp [h], rfl⟩
    · rintro ⟨m, hm, rfl⟩; simpa using hm
  | cons l lit ih =>
    cases s with
    | nil =>
      simp only [stripLiteralCI, SameIgnoringCase]
      constructor
      · intro h; cases h
      · rintro ⟨m, hm, hmap⟩
        cases m with
        | nil => simp at hmap
        | cons c m => simp at hm
    | cons c s =>
      simp only [stripLiteralCI]
      split
      · rename_i hc
        rw [ih]
        constructor
        · rintro ⟨m, rfl, hm⟩
          refine ⟨c :: m, rfl, ?_⟩
          simp only [SameIgnoringCase, List.map_cons] at hm ⊢
          rw [hm, eq_of_beq hc]
        · rintro ⟨m, hm, hmap⟩
          cases m with
          | nil => simp [SameIgnoringCase] at hmap
          | cons c' m =>
            simp only [List.cons_append, List.cons.injEq] at hm
            simp only [SameIgnoringCase, List.map_cons, List.cons.injEq] at hmap
            exact ⟨m, hm.2, hmap.2⟩
      · rename_i hc
        constructor
        · intro h; cases h
        · rintro ⟨m, hm, hmap⟩
          cases m with
          | nil => simp [SameIgnoringCase] at hmap
          | cons c' m =>
            simp only [List.cons_append, List.cons.injEq] at hm
            simp only [SameIgnoringCase, List.map_cons, List.cons.injEq] at hmap
            exfalso
            apply hc
            rw [hm.1, hmap.1]
            exact beq_self_eq_true _

theorem greedyDots_eq_some (s g : JSString) :
    greedyDots s = some g ↔ g = s.takeWhile (fun c => !isLineTerminator c) ∧ g ≠ [] := by
  unfold greedyDots
  split
  · rename_i h
    rw [h]
    constructor
    · intro h'; cases h'
    · rintro ⟨rfl, h'⟩; exact absurd rfl h'
  · rename_i c r h
    rw [h]
    constructor
    · intro h'; cases h'; exact ⟨rfl, by simp⟩
    · rintro ⟨rfl, -⟩; rfl

theorem greedyDots_append (b post : JSString) (hb : b ≠ []) (hline : OnOneLine b) :
    ∃ g, greedyDots (b ++ post) = some g := by
  cases b with
  | nil => exact absurd rfl hb
  | cons c b =>
    have hc : isLineTerminator c = false := hline c (List.mem_cons_self c b)
    refine ⟨c :: (b ++ post).takeWhile (fun c => !isLineTerminator c), ?_⟩
    unfold greedyDots
    simp [List.takeWhile, hc]

theorem takeWhile_onOneLine (s : JSString) :
    OnOneLine (s.takeWhile (fun c => !isLineTerminator c)) := by
  intro c hc
  have := List.mem_takeWhile_imp hc
  simpa using this

theorem bind_greedy_eq_some (sep s g : JSString)
    (h : (stripLiteralCI sep s).bind greedyDots = some g) :
    ∃ p post, s = p ++ (g ++ post) ∧ SameIgnoringCase p sep ∧ g ≠ [] ∧ OnOneLine g := by
  cases hs : stripLiteralCI sep s with
  | none => rw [hs] at h; cases h
  | some r =>
    rw [hs] at h
    simp only [Option.some_bind] at h
    obtain ⟨p, hp, hsame⟩ := (stripLiteralCI_eq_some sep s r).1 hs
    obtain ⟨hg, hne⟩ := (greedyDots_eq_some r g).1 h
    refine ⟨p, r.dropWhile (fun c => !isLineTerminator c), ?_, hsame, hne, ?_⟩
    · rw [hp, hg, List.takeWhile_append_dropWhile]
    · rw [hg]; exact takeWhile_onOneLine r

theorem bind_greedy_of_parts (sep p b post : JSString) (hp : SameIgnoringCase p sep)
    (hb : b ≠ []) (hline : OnOneLine b) :
    ∃ g, (stripLiteralCI sep (p ++ (b ++ post))).bind greedyDots = some g := by
  have hs : stripLiteralCI sep (p ++ (b ++ post)) = some (b ++ post) :=
    (stripLiteralCI_eq_some sep _ _).2 ⟨p, rfl, hp⟩
  rw [hs]
  exact greedyDots_append b post hb hline

theorem lazyThenGreedy_sound (sep : JSString) (s : JSString) :
    ∀ (acc : JSString) (r : JSString × JSString), lazyThenGreedy sep acc s = some r →
      ∃ a p post, s = a ++ (p ++ (r.2 ++ post)) ∧ a ≠ [] ∧ SameIgnoringCase p sep ∧
        r.2 ≠ [] ∧ OnOneLine a ∧ OnOneLine r.2 ∧ r.1 = acc.reverse ++ a := by
  induction s with
  | nil => intro acc r h; simp [lazyThenGreedy] at h
  | cons c s ih =>
    intro acc r h
    unfold lazyThenGreedy at h
    split at h
    · cases h
    · rename_i hc
      have hc' : isLineTerminator c = false := by simpa using hc
      split at h
      · rename_i g hg
        cases h
        obtain ⟨p, post, hs, hp, hne, hline⟩ := bind_greedy_eq_some sep s g hg
        refine ⟨[c], p, post, ?_, by simp, hp, hne, ?_, hline, by simp⟩
        · rw [hs]; rfl
        · intro x hx
          simp only [List.mem_singleton] at hx
          rw [hx]; exact hc'
      · obtain ⟨a, p, post, hs, -, hp, hne, ha, hline, hr⟩ := ih (c :: acc) r h
        refine ⟨c :: a, p, post, ?_, by simp, hp, hne, ?_, hline, ?_⟩
        · rw [hs]; rfl
        · intro x hx
          rcases List.mem_cons.1 hx with rfl | hx
          · exact hc'
          · exact ha x hx
        · rw [hr]; simp

theorem lazyThenGreedy_complete (sep p b post : JSString) (hp : SameIgnoringCase p sep)
    (hb : b ≠ []) (hline : OnOneLine b) (a : JSString) :
    ∀ acc : JSString, a ≠ [] → OnOneLine a →
      ∃ r, lazyThenGreedy sep acc (a ++ (p ++ (b ++ post))) = some r := by
  induction a with
  | nil => intro acc h; exact absurd rfl h
  | cons c a ih =>
    intro acc _ ha
    have hc : isLineTerminator c = false := ha c (List.mem_cons_self c a)
    have ha' : OnOneLine a := fun x hx => ha x (List.mem_cons_of_mem c hx)
    show ∃ r, lazyThenGreedy sep acc (c :: (a ++ (p ++ (b ++ post)))) = some r
    unfold lazyThenGreedy
    rw [if_neg (by simp [hc])]
    split
    · exact ⟨_, rfl⟩
    · rename_i hnone
      cases a with
      | nil =>
        obtain ⟨g, hg⟩ := bind_greedy_of_parts sep p b post hp hb hline
        rw [List.nil_append, hg] at hnone
        cases hnone
      | cons d a => exact ih (c :: acc) (by simp) ha'

theorem matchHere_sound (head sep s : JSString) (r : JSString × JSString)
    (h : matchHere head sep s = some r) : HasTwoSlots head sep s := by
  unfold matchHere at h
  cases hs : stripLiteralCI head s with
  | none => rw [hs] at h; cases h
  | some rest =>
    rw [hs] at h
    simp only [Option.some_bind] at h
    obtain ⟨m, hm, hsame⟩ := (stripLiteralCI_eq_some head s rest).1 hs
    obtain ⟨a, p, post, hrest, ha, hp, hb, hla, hlb, -⟩ := lazyThenGreedy_sound sep rest [] r h
    exact ⟨[], m, a, p, r.2, post, by rw [hm, hrest]; rfl, hsame, hp, ha, hb, hla, hlb⟩

theorem matchTwoSlot_sound (head sep s : JSString) (r : JSString × JSString)
    (h : matchTwoSlot head sep s = some r) : HasTwoSlots head sep s := by
  induction s with
  | nil => exact matchHere_sound head sep [] r h
  | cons c s ih =>
    unfold matchTwoSlot at h
    cases hm : matchHere head sep (c :: s) with
    | some r' => exact matchHere_sound head sep _ r' hm
    | none =>
      rw [hm] at h
      simp only [Option.orElse] at h
      obtain ⟨pre, hh, a, p, b, post, hs, rest⟩ := ih h
      exact ⟨c :: pre, hh, a, p, b, post, by rw [hs]; rfl, rest⟩

theorem matchHere_complete (head sep h a p b post : JSString) (hh : SameIgnoringCase h head)
    (hp : SameIgnoringCase p sep) (ha : a ≠ []) (hb : b ≠ []) (hla : OnOneLine a)
    (hlb : OnOneLine b) :
    ∃ r, matchHere head sep (h ++ (a ++ (p ++ (b ++ post)))) = some r := by
  unfold matchHere
  rw [(stripLiteralCI_eq_some head _ _).2 ⟨h, rfl, hh⟩]
  exact lazyThenGreedy_complete sep p b post hp hb hlb a [] ha hla

theorem matchTwoSlot_complete (head sep s : JSString) (h : HasTwoSlots head sep s) :
    ∃ r, matchTwoSlot head sep s = some r := by
  obtain ⟨pre, hh, a, p, b, post, hs, hhead, hp, ha, hb, hla, hlb⟩ := h
  rw [hs]
  clear hs
  induction pre with
  | nil =>
    obtain ⟨r, hr⟩ := matchHere_complete head sep hh a p b post hhead hp ha hb hla hlb
    rw [List.nil_append]
    cases hrest : hh ++ (a ++ (p ++ (b ++ post))) with
    | nil => rw [hrest] at hr; exact ⟨r, by unfold matchTwoSlot; exact hr⟩
    | cons c t =>
      rw [hrest] at hr
      exact ⟨r, by unfold matchTwoSlot; rw [hr]; rfl⟩
  | cons c pre ih =>
    obtain ⟨r, hr⟩ := ih
    show ∃ r, matchTwoSlot head sep (c :: (pre ++ (hh ++ (a ++ (p ++ (b ++ post)))))) = some r
    unfold matchTwoSlot
    cases hm : matchHere head sep (c :: (pre ++ (hh ++ (a ++ (p ++ (b ++ post)))))) with
    | some r' => exact ⟨r', rfl⟩
    | none => exact ⟨r, by simpa [Option.orElse] using hr⟩

theorem matchTwoSlot_eq_none_iff (head sep s : JSString) :
    matchTwoSlot head sep s = none ↔ ¬ HasTwoSlots head sep s := by
  constructor
  · intro h hs
    obtain ⟨r, hr⟩ := matchTwoSlot_complete head sep s hs
    rw [h] at hr; cases hr
  · intro h
    cases hm : matchTwoSlot head sep s with
    | none => rfl
    | some r => exact absurd (matchTwoSlot_sound head sep s r hm) h

theorem greedyDots_self (L : JSString) (hL : L ≠ []) (hline : OnOneLine L) :
    greedyDots L = some L := by
  rw [greedyDots_eq_some]
  refine ⟨?_, hL⟩
  symm
  rw [List.takeWhile_eq_self_iff]
  intro c hc
  simp [hline c hc]

theorem lazyThenGreedy_exact (sep lit L : JSString) (hlit : SameIgnoringCase lit sep)
    (hL : L ≠ []) (hline : OnOneLine L) (X : JSString) :
    ∀ acc : JSString, X ≠ [] → OnOneLine X →
      (∀ X1 X2, X = X1 ++ X2 → X1 ≠ [] → X2 ≠ [] →
        stripLiteralCI sep (X2 ++ (lit ++ L)) = none) →
      lazyThenGreedy sep acc (X ++ (lit ++ L)) = some (acc.reverse ++ X, L) := by
  induction X with
  | nil => intro acc h; exact absurd rfl h
  | cons c X ih =>
    intro acc _ hX hsplit
    have hc : isLineTerminator c = false := hX c (List.mem_cons_self c X)
    have hX' : OnOneLine X := fun x hx => hX x (List.mem_cons_of_mem c hx)
    show lazyThenGreedy sep acc (c :: (X ++ (lit ++ L))) = _
    unfold lazyThenGreedy
    rw [if_neg (by simp [hc])]
    cases X with
    | nil =>
      have hs : stripLiteralCI sep ([] ++ (lit ++ L)) = some L :=
        (stripLiteralCI_eq_some sep _ _).2 ⟨lit, rfl, hlit⟩
      rw [hs]
      simp only [Option.some_bind, greedyDots_self L hL hline]
      simp
    | cons d X =>
      have hs : stripLiteralCI sep (d :: X ++ (lit ++ L)) = none :=
        hsplit [c] (d :: X) rfl (by simp) (by simp)
      rw [hs]
      simp only [Option.none_bind]
      rw [ih (c :: acc) (by simp) hX']
      · simp
      · intro X1 X2 h12 h1 h2
        exact hsplit (c :: X1) X2 (by rw [h12]; rfl) (by simp) h2

theorem matchTwoSlot_of_matchHere (head sep s : JSString) (r : JSString × JSString)
    (h : matchHere head sep s = some r) : matchTwoSlot head sep s = some r := by
  cases s with
  | nil => unfold matchTwoSlot; exact h
  | cons c s => unfold matchTwoSlot; rw [h]; rfl

theorem sameIgnoringCase_length (a b : JSString) (h : SameIgnoringCase a b) :
    a.length = b.length := by
  have := congrArg List.length h
  simpa using this

theorem includes_iff_contains (s p : JSString) : includes s p = true ↔ p <:+: s := by
  induction s with
  | nil => simp [includes, List.isEmpty_iff]
  | cons c s ih =>
    simp only [includes, Bool.or_eq_true, List.isPrefixOf_iff_prefix, ih, List.infix_cons_iff]

theorem no_early_separator (X L : JSString)
    (hsep : includes ((X ++ " to".toList).map canonicalize)
      (" to ".toList.map canonicalize) = false) :
    ∀ X1 X2, X = X1 ++ X2 → X1 ≠ [] → X2 ≠ [] →
      stripLiteralCI " to ".toList (X2 ++ (" to ".toList ++ L)) = none := by
  intro X1 X2 hX _ h2
  cases hs : stripLiteralCI " to ".toList (X2 ++ (" to ".toList ++ L)) with
  | none => rfl
  | some r =>
    exfalso
    obtain ⟨m, hm, hsame⟩ := (stripLiteralCI_eq_some _ _ r).1 hs
    have hlen : m.length = 4 := sameIgnoringCase_length m _ hsame
    have h2len : 1 ≤ X2.length := List.length_pos.2 h2
    have hp1 : m <+: (X2 ++ " to".toList) ++ (" ".toList ++ L) := by
      have : (X2 ++ " to".toList) ++ (" ".toList ++ L) = X2 ++ (" to ".toList ++ L) := by
        simp [List.append_assoc]
      rw [this, hm]
      exact List.prefix_append m r
    have hp2 : (X2 ++ " to".toList) <+: (X2 ++ " to".toList) ++ (" ".toList ++ L) :=
      List.prefix_append _ _
    have hle : m.length ≤ (X2 ++ " to".toList).length := by
      rw [hlen, List.length_append]
      have : " to".toList.length = 3 := rfl
      omega
    obtain ⟨post, hpost⟩ := List.prefix_of_prefix_length_le hp1 hp2 hle
    have hin : includes ((X ++ " to".toList).map canonicalize)
        (" to ".toList.map canonicalize) = true := by
      rw [includes_iff_contains]
      refine ⟨X1.map canonicalize, post.map canonicalize, ?_⟩
      have hsame' : List.map canonicalize m = List.map canonicalize " to ".toList := hsame
      have hall : X1 ++ X2 ++ " to".toList = X1 ++ (m ++ post) := by
        rw [hpost, List.append_assoc]
      rw [hX, ← hsame', hall]
      simp only [List.map_append, List.append_assoc]
    rw [hsep] at hin
    cases hin

theorem trim_eq_self (X : JSString)
    (hhead : ∀ c, X.head? = some c → isTrimSpace c = false)
    (hlast : ∀ c, X.getLast? = some c → isTrimSpace c = false) : trim X = X := by
  unfold trim
  have h1 : X.dropWhile isTrimSpace = X := by
    cases X with
    | nil => rfl
    | cons c X => simp [List.dropWhile, hhead c rfl]
  rw [h1]
  have h2 : X.reverse.dropWhile isTrimSpace = X.reverse := by
    cases hr : X.reverse with
    | nil => rfl
    | cons c Y =>
      have : X.getLast? = some c := by
        rw [List.getLast?_eq_head?_reverse, hr]; rfl
      simp [List.dropWhile, hlast c this]
  rw [h2, List.reverse_reverse]

theorem langMap_entry (w : World) (L code : JSString) (h : (L, code) ∈ langMap) :
    L ≠ [] ∧ OnOneLine L ∧ trim L = L ∧ toLowerCase w L = L ∧
      lookupProperty langMap L = some code := by
  simp only [langMap, List.mem_cons, Prod.mk.injEq, List.mem_singleton, List.not_mem_nil,
    or_false] at h
  rcases h with ⟨rfl, rfl⟩ | ⟨rfl, rfl⟩ | ⟨rfl, rfl⟩ | ⟨rfl, rfl⟩ | ⟨rfl, rfl⟩ | ⟨rfl, rfl⟩ |
    ⟨rfl, rfl⟩
  all_goals exact ⟨by decide, by unfold OnOneLine; decide, by decide, rfl, by decide⟩

theorem matchTwoSlot_translate (X L : JSString) (hX : X ≠ []) (hline : OnOneLine X)
    (hsep : includes ((X ++ " to".toList).map canonicalize)
      (" to ".toList.map canonicalize) = false)
    (hL : L ≠ []) (hLline : OnOneLine L) :
    matchTwoSlot "translate ".toList " to ".toList
      ("translate ".toList ++ (X ++ (" to ".toList ++ L))) = some (X, L) := by
  apply matchTwoSlot_of_matchHere
  unfold matchHere
  rw [(stripLiteralCI_eq_some "translate ".toList _ _).2 ⟨"translate ".toList, rfl, rfl⟩]
  simp only [Option.some_bind]
  have := lazyThenGreedy_exact " to ".toList " to ".toList L rfl hL hLline X [] hX hline
    (no_early_separator X L hsep)
  simpa using this

/-- C2 (amended): for every source text X that is non-empty, on one line, without leading or
trailing white space and such that X followed by ` to` contains no ` to ` in any letter case,
and every language name L of the table with its code, `handleTranslation` on
`translate X to L` extracts X and L and requests exactly the address built from X and the
code, before the reply that depends on how the request settles. -/
theorem handleTranslation_extracts (w : World) (X L code : JSString)
    (hL : (L, code) ∈ langMap) (hX : X ≠ [])
    (hhead : ∀ c, X.head? = some c → isTrimSpace c = false)
    (hlast : ∀ c, X.getLast? = some c → isTrimSpace c = false)
    (hline : OnOneLine X)
    (hsep : includes ((X ++ " to".toList).map canonicalize)
      (" to ".toList.map canonicalize) = false) :
    matchTwoSlot "translate ".toList " to ".toList
        ("translate ".toList ++ (X ++ (" to ".toList ++ L))) = some (X, L) ∧
    fetched (handleTranslation w ("translate ".toList ++ (X ++ (" to ".toList ++ L)))) =
      ["https://api.mymemory.translated.net/get?q=".toList ++ encodeURIComponent X ++
        "&langpair=en|".toList ++ code] ∧
    handleTranslation w ("translate ".toList ++ (X ++ (" to ".toList ++ L))) =
      .fetch (translationUrl X code) ::
        match w.translation (translationUrl X code) with
        | .translated translated =>
          say ("In ".toList ++ L ++ ", \"".toList ++ X ++ "\" is \"".toList ++ translated ++
            "\"".toList)
        | .failed => say "Sorry, I couldn't complete the translation.".toList := by
  obtain ⟨hLne, hLline, hLtrim, hLlower, hLlookup⟩ := langMap_entry w L code hL
  have hmatch := matchTwoSlot_translate X L hX hline hsep hLne hLline
  have hrun : handleTranslation w ("translate ".toList ++ (X ++ (" to ".toList ++ L))) =
      .fetch (translationUrl X code) ::
        match w.translation (translationUrl X code) with
        | .translated translated =>
          say ("In ".toList ++ L ++ ", \"".toList ++ X ++ "\" is \"".toList ++ translated ++
            "\"".toList)
        | .failed => say "Sorry, I couldn't complete the translation.".toList := by
    unfold handleTranslation
    rw [hmatch]
    simp only [trim_eq_self X hhead hlast, hLtrim, hLlower, hLlookup]
  refine ⟨hmatch, ?_, hrun⟩
  rw [hrun]
  cases w.translation (translationUrl X code) <;> rfl

theorem handleTranslation_extracts_example :
    fetched (handleTranslation quietWorld "translate good morning to hindi".toList) =
      ["https://api.mymemory.translated.net/get?q=good%20morning&langpair=en|hi".toList] ∧
    matchTwoSlot "translate ".toList " to ".toList "translate good morning to hindi".toList =
      some ("good morning".toList, "hindi".toList) := by
  have h := handleTranslation_extracts quietWorld "good morning".toList "hindi".toList
    "hi".toList (by decide) (by decide) (by decide) (by decide) (by unfold OnOneLine; decide)
    (by decide)
  exact ⟨h.2.1, h.1⟩

theorem handleTranslation_misparses :
    "go to".toList ≠ [] ∧ trim "go to".toList = "go to".toList ∧
    includes "go to".toList " to ".toList = false ∧
    matchTwoSlot "translate ".toList " to ".toList "translate go to to hindi".toList =
      some ("go".toList, "to hindi".toList) ∧
    handleTranslation quietWorld "translate go to to hindi".toList =
      [.display "Sorry, I don't support translation to to hindi yet.".toList,
       .speak "Sorry, I don't support translation to to hindi yet.".toList none] := by
  refine ⟨?_, ?_, ?_, ?_, ?_⟩ <;> decide

/-! ## Lookups and clarifications -/

theorem removeFirst_of_startsWith (s p : JSString) (hp : p ≠ []) (h : p.isPrefixOf s = true) :
    removeFirst s p = s.drop p.length := by
  cases s with
  | nil =>
    cases p with
    | nil => exact absurd rfl hp
    | cons c p => simp [List.isPrefixOf] at h
  | cons c s => simp only [removeFirst, h, if_true]

theorem fetched_searchWikipedia (w : World) (q : JSString) :
    fetched (searchWikipedia w q) = [WIKIPEDIA_API_URL ++ encodeURIComponent q] := by
  unfold searchWikipedia
  simp only []
  split <;> rfl

/-- C5: with pro mode inactive, a command that starts with `what is` and satisfies no earlier
condition of the ladder is answered by an encyclopedia lookup whose topic is the command
without its leading `what is`, trimmed: that is the one address requested. -/
theorem processCommand_what_is (w : World) (s : State) (command : JSString)
    (hpro : s.proModeActive = false)
    (hstart : startsWith command "what is".toList = true)
    (hfirst : ∀ r ∈ ladder.take 29, r.applies w command = false) :
    processCommand w s command = (s, searchWikipedia w (trim (command.drop 7))) ∧
    fetched (processCommand w s command).2 =
      ["https://en.wikipedia.org/api/rest_v1/page/summary/".toList ++
        encodeURIComponent (trim (command.drop 7))] := by
  have hrun : processCommand w s command = (s, searchWikipedia w (trim (command.drop 7))) := by
    rw [processCommand_of_first_match w s command hpro ⟨29, by decide⟩ hstart hfirst]
    show (s, searchWikipedia w (trim (removeFirst command "what is".toList))) = _
    rw [removeFirst_of_startsWith command "what is".toList (by decide) hstart]
    rfl
  exact ⟨hrun, by rw [hrun]; exact fetched_searchWikipedia w _⟩

set_option maxRecDepth 100000 in
theorem processCommand_what_is_example :
    processCommand quietWorld initialState "what is photosynthesis".toList =
      (initialState, searchWikipedia quietWorld "photosynthesis".toList) ∧
    fetched (processCommand quietWorld initialState "what is photosynthesis".toList).2 =
      ["https://en.wikipedia.org/api/rest_v1/page/summary/photosynthesis".toList] :=
  processCommand_what_is quietWorld initialState "what is photosynthesis".toList rfl
    (by decide) (by decide)

theorem includes_trans (s p q : JSString) (hp : includes s p = true)
    (hq : includes p q = true) : includes s q = true := by
  rw [includes_iff_contains] at hp hq ⊢
  exact List.IsInfix.trans hq hp

theorem includes_of_startsWith (s p : JSString) (h : startsWith s p = true) :
    includes s p = true := by
  rw [includes_iff_contains]
  exact (List.isPrefixOf_iff_prefix.mp h).isInfix

theorem isBasicCommand_of_includes (command phrase : JSString)
    (hphrase : isBasicCommand phrase = true) (h : includes command phrase = true) :
    isBasicCommand command = true := by
  unfold isBasicCommand at hphrase ⊢
  simp only [List.any_eq_true] at hphrase ⊢
  obtain ⟨b, hb, hinc⟩ := hphrase
  exact ⟨b, hb, includes_trans command phrase b h hinc⟩

theorem processCommand_of_basic (w : World) (s : State) (command : JSString)
    (h : isBasicCommand command = true) :
    processCommand w s command = basicCommandProcessing w s command := by
  unfold processCommand
  rw [h]
  simp only [Bool.not_true, Bool.and_false, Bool.false_eq_true, if_false]

theorem toLowerCase_append (w : World) (a b : JSString) :
    toLowerCase w (a ++ b) = toLowerCase w a ++ toLowerCase w b := by
  unfold toLowerCase
  exact List.flatMap_append a b _

theorem includes_toLowerCase (w : World) (command phrase : JSString)
    (hphrase : toLowerCase w phrase = phrase) (h : includes command phrase = true) :
    includes (toLowerCase w command) phrase = true := by
  rw [includes_iff_contains] at h ⊢
  obtain ⟨a, b, hab⟩ := h
  refine ⟨toLowerCase w a, toLowerCase w b, ?_⟩
  rw [← hab, toLowerCase_append, toLowerCase_append, hphrase]

theorem processCommand_of_basic_first_match (w : World) (s : State) (command : JSString)
    (hbasic : isBasicCommand command = true) (i : Fin ladder.length)
    (happlies : (ladder.get i).applies w command = true)
    (hfirst : ∀ r ∈ ladder.take i, r.applies w command = false) :
    processCommand w s command = (ladder.get i).handler w s command := by
  rw [processCommand_of_basic w s command hbasic]
  exact firstMatch_at w s command ladder i happlies hfirst

/-- C4: a matched two-slot intent with malformed input gives its fixed clarification and
nothing else, whether pro mode is active or not.  `handleTranslation` on a command with no
parseable `translate X to Y`, and so `processCommand` on a command that contains `translate`
and reaches the translate rung, displays and speaks exactly the translation hint and requests
nothing; `processCommand` on a command that contains `easiest route from`, reaches the route
rung and has no parseable `easiest route from A to B` displays and speaks exactly the route
hint and opens no page.  With pro mode inactive the same holds of a command that contains
`easiest route from` in any letter case. -/
theorem malformed_two_slot_clarification (w : World) (s : State) (command : JSString) :
    (¬ HasTwoSlots "translate ".toList " to ".toList command →
      handleTranslation w command =
        [.display "Please say something like 'Translate good morning to Hindi'".toList,
         .speak "Please say something like 'Translate good morning to Hindi'".toList none]) ∧
    (includes command "translate".toList = true →
      (∀ r ∈ ladder.take 7, r.applies w command = false) →
      ¬ HasTwoSlots "translate ".toList " to ".toList command →
      processCommand w s command =
        (s, [.display "Please say something like 'Translate good morning to Hindi'".toList,
             .speak "Please say something like 'Translate good morning to Hindi'".toList
               none])) ∧
    (includes command "easiest route from".toList = true →
      (∀ r ∈ ladder.take 24, r.applies w command = false) →
      ¬ HasTwoSlots "easiest route from ".toList " to ".toList command →
      processCommand w s command =
        (s, [.display "Please say: easiest route from place to place".toList,
             .speak "Please say: easiest route from place to place".toList none])) ∧
    (s.proModeActive = false →
      includes (toLowerCase w command) "easiest route from".toList = true →
      (∀ r ∈ ladder.take 24, r.applies w command = false) →
      ¬ HasTwoSlots "easiest route from ".toList " to ".toList command →
      processCommand w s command =
        (s, [.display "Please say: easiest route from place to place".toList,
             .speak "Please say: easiest route from place to place".toList none])) := by
  have htr : ¬ HasTwoSlots "translate ".toList " to ".toList command →
      handleTranslation w command =
        [.display "Please say something like 'Translate good morning to Hindi'".toList,
         .speak "Please say something like 'Translate good morning to Hindi'".toList none] := by
    intro h
    unfold handleTranslation
    rw [(matchTwoSlot_eq_none_iff _ _ _).2 h]
    rfl
  have hroute : ¬ HasTwoSlots "easiest route from ".toList " to ".toList command →
      (s, routeBranch command) =
        (s, [.display "Please say: easiest route from place to place".toList,
             .speak "Please say: easiest route from place to place".toList none]) := by
    intro h
    unfold routeBranch
    rw [(matchTwoSlot_eq_none_iff _ _ _).2 h]
    rfl
  refine ⟨htr, ?_, ?_, ?_⟩
  · intro happ hfirst h
    rw [processCommand_of_basic_first_match w s command
      (isBasicCommand_of_includes command _ (by decide) happ) ⟨7, by decide⟩ happ hfirst]
    show (s, handleTranslation w command) = _
    rw [htr h]
  · intro happ hfirst h
    rw [processCommand_of_basic_first_match w s command
      (isBasicCommand_of_includes command _ (by decide) happ) ⟨24, by decide⟩
      (includes_toLowerCase w command _ rfl happ) hfirst]
    exact hroute h
  · intro hpro happ hfirst h
    rw [processCommand_of_first_match w s command hpro ⟨24, by decide⟩ happ hfirst]
    exact hroute h

set_option maxRecDepth 100000 in
theorem malformed_two_slot_clarification_example :
    handleTranslation quietWorld "translate this".toList =
      [.display "Please say something like 'Translate good morning to Hindi'".toList,
       .speak "Please say something like 'Translate good morning to Hindi'".toList none] ∧
    processCommand quietWorld proState "translate this".toList =
      (proState,
        [.display "Please say something like 'Translate good morning to Hindi'".toList,
         .speak "Please say something like 'Translate good morning to Hindi'".toList none]) ∧
    processCommand quietWorld proState "easiest route from home".toList =
      (proState,
        [.display "Please say: easiest route from place to place".toList,
         .speak "Please say: easiest route from place to place".toList none]) ∧
    processCommand quietWorld initialState "easiest route from home".toList =
      (initialState,
        [.display "Please say: easiest route from place to place".toList,
         .speak "Please say: easiest route from place to place".toList none]) :=
  ⟨(malformed_two_slot_clarification quietWorld initialState "translate this".toList).1
      ((matchTwoSlot_eq_none_iff _ _ _).1 (by decide)),
    (malformed_two_slot_clarification quietWorld proState "translate this".toList).2.1
      (by decide) (by decide) ((matchTwoSlot_eq_none_iff _ _ _).1 (by decide)),
    (malformed_two_slot_clarification quietWorld proState
      "easiest route from home".toList).2.2.1
      (by decide) (by decide) ((matchTwoSlot_eq_none_iff _ _ _).1 (by decide)),
    (malformed_two_slot_clarification quietWorld initialState
      "easiest route from home".toList).2.2.2 rfl
      (by decide) (by decide) ((matchTwoSlot_eq_none_iff _ _ _).1 (by decide))⟩

/-! ## Whole words -/

theorem boundary_before (p : JSString) (c : Char) (hc : isWordChar c = true) :
    isWordBoundary p.getLast? (some c) = true ↔
      ∀ pre' c', p = pre' ++ [c'] → isWordChar c' = false := by
  rcases List.eq_nil_or_concat p with rfl | ⟨q, d, rfl⟩
  · simp [isWordBoundary, hc]
  · have hg : (q.concat d).getLast? = some d := by simp
    rw [hg]
    simp only [isWordBoundary, Option.map_some', Option.getD_some, hc, List.concat_eq_append]
    constructor
    · intro h pre' c' heq
      obtain ⟨-, h2⟩ := List.append_inj' heq rfl
      cases h2
      cases hd : isWordChar d
      · rfl
      · rw [hd] at h; cases h
    · intro h
      rw [h q d rfl]; rfl

theorem boundary_after (post : JSString) (l : Char) (hl : isWordChar l = true) :
    isWordBoundary (some l) post.head? = true ↔
      ∀ c post', post = c :: post' → isWordChar c = false := by
  cases post with
  | nil => simp [isWordBoundary, hl]
  | cons d post =>
    simp only [List.head?_cons, isWordBoundary, Option.map_some', Option.getD_some, hl]
    constructor
    · intro h c post' heq
      obtain ⟨rfl, -⟩ := List.cons.inj heq
      cases hd : isWordChar d
      · rfl
      · rw [hd] at h; cases h
    · intro h
      rw [h d post rfl]; rfl

theorem testWordFrom_iff (f l : Char) (mid : JSString) (word : JSString)
    (hword : word = f :: mid) (hlast : word.getLast? = some l)
    (hf : isWordChar f = true) (hl : isWordChar l = true) (s : JSString) :
    ∀ p : JSString, testWordFrom word p.getLast? s = true ↔
      ∃ pre post, s = pre ++ (word ++ post) ∧
        (∀ pre' c, p ++ pre = pre' ++ [c] → isWordChar c = false) ∧
        (∀ c post', post = c :: post' → isWordChar c = false) := by
  induction s with
  | nil =>
    intro p
    simp only [testWordFrom, Bool.false_eq_true, false_iff]
    rintro ⟨pre, post, h, -⟩
    rw [hword] at h
    cases pre <;> simp at h
  | cons c s ih =>
    intro p
    have ih' := ih (p ++ [c])
    have hg : (p ++ [c]).getLast? = some c := by simp
    rw [hg] at ih'
    simp only [testWordFrom, Bool.or_eq_true, Bool.and_eq_true, ih']
    constructor
    · rintro (⟨⟨hpre, hb1⟩, hb2⟩ | ⟨pre, post, hs, h1, h2⟩)
      · obtain ⟨post, hpost⟩ := List.isPrefixOf_iff_prefix.1 hpre
        have hcf : c = f := by
          rw [hword] at hpost
          simp only [List.cons_append, List.cons.injEq] at hpost
          exact hpost.1.symm
        refine ⟨[], post, by rw [← hpost]; rfl, ?_, ?_⟩
        · rw [List.append_nil]
          exact (boundary_before p c (hcf ▸ hf)).1 hb1
        · have hdrop : (c :: s).drop word.length = post := by
            rw [← hpost, List.drop_left]
          rw [hdrop, hlast] at hb2
          exact (boundary_after post l hl).1 hb2
      · refine ⟨c :: pre, post, by rw [hs]; rfl, ?_, h2⟩
        intro pre' c' heq
        exact h1 pre' c' (by rw [← heq]; simp)
    · rintro ⟨pre, post, hs, h1, h2⟩
      cases pre with
      | nil =>
        left
        rw [List.nil_append] at hs
        have hcf : c = f := by
          rw [hword] at hs
          simp only [List.cons_append, List.cons.injEq] at hs
          exact hs.1
        refine ⟨⟨?_, ?_⟩, ?_⟩
        · rw [hs]; exact List.isPrefixOf_iff_prefix.2 (List.prefix_append _ _)
        · rw [List.append_nil] at h1
          exact (boundary_before p c (hcf ▸ hf)).2 h1
        · have hdrop : (c :: s).drop word.length = post := by
            rw [hs, List.drop_left]
          rw [hdrop, hlast]
          exact (boundary_after post l hl).2 h2
      | cons d pre =>
        right
        simp only [List.cons_append, List.cons.injEq] at hs
        refine ⟨pre, post, hs.2, ?_, h2⟩
        intro pre' c' heq
        exact h1 pre' c' (by rw [← heq, hs.1]; simp)

theorem testWord_iff (f l : Char) (mid : JSString) (word : JSString)
    (hword : word = f :: mid) (hlast : word.getLast? = some l)
    (hf : isWordChar f = true) (hl : isWordChar l = true) (s : JSString) :
    testWord word s = true ↔ OccursAsWord word s := by
  have h := testWordFrom_iff f l mid word hword hlast hf hl s []
  simpa [testWord, OccursAsWord] using h

theorem testWord_hello (s : JSString) :
    testWord "hello".toList s = true ↔ OccursAsWord "hello".toList s :=
  testWord_iff 'h' 'o' "ello".toList _ rfl rfl (by decide) (by decide) s

theorem testWord_hi (s : JSString) :
    testWord "hi".toList s = true ↔ OccursAsWord "hi".toList s :=
  testWord_iff 'h' 'i' "i".toList _ rfl rfl (by decide) (by decide) s

theorem early_rungs_of_triggers (w : World) (command : JSString)
    (h : ∀ p ∈ visionAndEmotionTriggers, includes command p = false) :
    ∀ r ∈ ladder.take 6, r.applies w command = false := by
  simp only [visionAndEmotionTriggers, List.forall_mem_cons, List.not_mem_nil, false_implies,
    implies_true, and_true] at h
  obtain ⟨h1, h2, h3, h4, h5, h6, h7, h8, h9, h10, h11, h12, h13⟩ := h
  simp only [ladder, List.take_succ_cons, List.take_zero, List.forall_mem_cons,
    List.not_mem_nil, false_implies, implies_true, and_true]
  simp only [h1, h2, h3, h4, h5, h6, h7, h8, h9, h10, h11, h12, h13, Bool.or_self, and_self]

/-- C6: with pro mode inactive, a command that contains none of the vision and emotion
trigger phrases is answered with exactly the greeting when `hello` or `hi` stands in it as a
whole word, and the greeting rung does not apply to it when neither does, as when `hi` only
occurs inside a longer word. -/
theorem processCommand_greeting (w : World) (s : State) (command : JSString)
    (hpro : s.proModeActive = false)
    (hearly : ∀ p ∈ visionAndEmotionTriggers, includes command p = false) :
    (OccursAsWord "hello".toList command ∨ OccursAsWord "hi".toList command →
      processCommand w s command =
        (s, [.display "Hello! How can I assist you today?".toList,
             .speak "Hello! How can I assist you today?".toList none])) ∧
    (¬ OccursAsWord "hello".toList command → ¬ OccursAsWord "hi".toList command →
      (testWord "hello".toList command || testWord "hi".toList command) = false) := by
  constructor
  · intro h
    have happ : (ladder.get ⟨6, by decide⟩).applies w command = true := by
      show (testWord "hello".toList command || testWord "hi".toList command) = true
      rw [Bool.or_eq_true, testWord_hello, testWord_hi]
      exact h
    rw [processCommand_of_first_match w s command hpro ⟨6, by decide⟩ happ
      (early_rungs_of_triggers w command hearly)]
    rfl
  · intro h1 h2
    rw [Bool.or_eq_false_iff]
    constructor
    · cases h : testWord "hello".toList command
      · rfl
      · exact absurd ((testWord_hello command).1 h) h1
    · cases h : testWord "hi".toList command
      · rfl
      · exact absurd ((testWord_hi command).1 h) h2

theorem occursAsWord_hello_there : OccursAsWord "hello".toList "hello there".toList :=
  (testWord_hello _).1 (by decide)

theorem not_occursAsWord_this :
    ¬ OccursAsWord "hello".toList "this".toList ∧ ¬ OccursAsWord "hi".toList "this".toList :=
  ⟨fun h => absurd ((testWord_hello _).2 h) (by decide),
   fun h => absurd ((testWord_hi _).2 h) (by decide)⟩

set_option maxRecDepth 100000 in
theorem processCommand_greeting_example :
    processCommand quietWorld initialState "hello there".toList =
      (initialState, [.display "Hello! How can I assist you today?".toList,
        .speak "Hello! How can I assist you today?".toList none]) ∧
    (testWord "hello".toList "this".toList || testWord "hi".toList "this".toList) = false :=
  ⟨(processCommand_greeting quietWorld initialState "hello there".toList rfl (by decide)).1
      (Or.inl occursAsWord_hello_there),
   (processCommand_greeting quietWorld initialState "this".toList rfl (by decide)).2
      not_occursAsWord_this.1 not_occursAsWord_this.2⟩

/-! ## One response per command -/

theorem responds_append (a b : List JSString) (e1 e2 : List Effect) (h1 : Responds a e1)
    (h2 : Responds b e2) : Responds (a ++ b) (e1 ++ e2) := by
  unfold Responds displayed spoken at *
  rw [List.filterMap_append, List.filterMap_append, h1.1, h1.2, h2.1, h2.2]
  exact ⟨rfl, rfl⟩

theorem responds_say (r : JSString) : Responds [r] (say r) := ⟨rfl, rfl⟩

theorem single_handleWebcamError (n : JSString) : SingleResponse (handleWebcamError n) := by
  unfold handleWebcamError
  exact ⟨_, responds_say _⟩

theorem responds_detect (w : World) (s : State) (e : List Effect)
    (h : detectObjectsFromWebcam w s = .ok e) : Responds [] e := by
  unfold detectObjectsFromWebcam at h
  split at h
  · cases h; exact ⟨rfl, rfl⟩
  · split at h
    · cases h; exact ⟨rfl, rfl⟩
    · cases h

theorem single_startWebcam (w : World) (s : State) : SingleResponse (startWebcam w s).2 := by
  unfold startWebcam
  split
  · exact ⟨_, responds_say _⟩
  · cases w.camera with
    | error n =>
      obtain ⟨r, h1, h2⟩ := single_handleWebcamError n
      exact ⟨r, h1, h2⟩
    | stream =>
      simp only
      cases h : detectObjectsFromWebcam w { s with srcObject := true, isWebcamActive := true } with
      | ok e =>
        have := responds_append _ _ _ _ (responds_detect w _ e h)
          (responds_say "Camera activated! Object detection is now running.".toList)
        exact ⟨_, this.1, this.2⟩
      | error n =>
        obtain ⟨r, h1, h2⟩ := single_handleWebcamError n
        exact ⟨r, h1, h2⟩

theorem responds_analyzeEmotion (w : World) (s : State) :
    Responds [] (analyzeEmotion w s).2 := by
  unfold analyzeEmotion
  simp only []
  split_ifs <;> exact ⟨rfl, rfl⟩

theorem single_stopEmotionDetection (s : State) :
    Responds ["Emotion detection has been stopped.".toList] (stopEmotionDetection s).2 := by
  unfold stopEmotionDetection
  cases s.emotionAnalysisInterval <;> exact ⟨rfl, rfl⟩

theorem responds_stopWebcam (s : State) :
    Responds
      (if s.emotionDetectionActive then
        ["Emotion detection has been stopped.".toList,
         "Webcam has been stopped, and vision has been deactivated.".toList]
       else ["Webcam has been stopped, and vision has been deactivated.".toList])
      (stopWebcam s).2 := by
  obtain ⟨a, b, c, d, e, f, g, h, i⟩ := s
  cases b <;> cases c <;> cases d <;> exact ⟨rfl, rfl⟩

theorem responds_startEmotionDetection (w : World) (s : State) :
    Responds
      (if s.emotionDetectionActive then ["Emotion detection is already active.".toList]
       else
        (if s.isWebcamActive then []
         else "Starting camera for emotion detection...".toList ::
           displayed (startWebcam w s).2) ++
        ["Emotion detection activated! I'm now analyzing your facial expressions through the camera.".toList])
      (startEmotionDetection w s).2 := by
  unfold startEmotionDetection
  split
  · exact responds_say _
  · simp only []
    cases hw : s.isWebcamActive
    · obtain ⟨r, h1, h2⟩ := single_startWebcam w s
      simp only [Bool.not_false, if_true, Bool.false_eq_true, if_false]
      rw [h1]
      have hcam : Responds ["Starting camera for emotion detection...".toList, r]
          (say "Starting camera for emotion detection...".toList ++ (startWebcam w s).2) :=
        responds_append [_] [r] (say _) _ (responds_say _) ⟨h1, h2⟩
      have hloop := responds_append _ [] _ _ hcam (responds_analyzeEmotion w
        { (startWebcam w s).1 with emotionDetectionActive := true })
      exact responds_append _ _ _ _ hloop (responds_say _)
    · simp only [Bool.not_true, Bool.false_eq_true, if_false, if_true, List.nil_append]
      have hloop := responds_analyzeEmotion w { s with emotionDetectionActive := true }
      exact responds_append [] _ _ _ hloop (responds_say _)

theorem single_say (r : JSString) : SingleResponse (say r) := ⟨r, responds_say r⟩

theorem single_say_then (r : JSString) (e : Effect) (h1 : e.displayedText = none)
    (h2 : e.spokenText = none) : SingleResponse (say r ++ [e]) := by
  refine ⟨r, ?_, ?_⟩
  · show List.filterMap Effect.displayedText (say r ++ [e]) = [r]
    rw [List.filterMap_append]
    simp only [List.filterMap_cons, List.filterMap_nil, h1]
    rfl
  · show List.filterMap Effect.spokenText (say r ++ [e]) = [r]
    rw [List.filterMap_append]
    simp only [List.filterMap_cons, List.filterMap_nil, h2]
    rfl

theorem single_describeVision (s : State) : SingleResponse (describeVision s) := by
  unfold describeVision
  split <;> exact single_say _

theorem single_emotionQueryBranch (s : State) : SingleResponse (emotionQueryBranch s) := by
  unfold emotionQueryBranch
  split <;> exact single_say _

theorem single_handleTranslation (w : World) (c : JSString) :
    SingleResponse (handleTranslation w c) := by
  unfold handleTranslation
  simp only []
  repeat' split
  all_goals exact ⟨_, rfl, rfl⟩

theorem single_tellJoke (w : World) : SingleResponse (tellJoke w) := by
  unfold tellJoke
  exact single_say _

theorem single_getNewsFallback (w : World) : SingleResponse (getNewsFallback w) := by
  unfold getNewsFallback
  split <;> exact ⟨_, rfl, rfl⟩

theorem single_getLatestNews (w : World) : SingleResponse (getLatestNews w) := by
  unfold getLatestNews
  split
  · exact ⟨_, rfl, rfl⟩
  · exact ⟨_, rfl, rfl⟩
  · obtain ⟨r, h1, h2⟩ := single_getNewsFallback w
    exact ⟨r, h1, h2⟩

theorem single_introduceBranch (c : JSString) : SingleResponse (introduceBranch c) := by
  unfold introduceBranch
  simp only []
  split <;> exact single_say _

theorem single_routeBranch (c : JSString) : SingleResponse (routeBranch c) := by
  unfold routeBranch
  split
  · exact single_say_then _ _ rfl rfl
  · exact single_say _

theorem single_timeBranch (w : World) : SingleResponse (timeBranch w) := by
  unfold timeBranch
  exact single_say _

theorem single_getWeatherWithoutAPI (w : World) (l : JSString) :
    SingleResponse (getWeatherWithoutAPI w l) := by
  unfold getWeatherWithoutAPI
  split <;> exact ⟨_, rfl, rfl⟩

theorem single_searchWikipedia (w : World) (q : JSString) :
    SingleResponse (searchWikipedia w q) := by
  unfold searchWikipedia
  simp only []
  split <;> exact ⟨_, rfl, rfl⟩

theorem single_fallbackBranch (w : World) (s : State) (c : JSString)
    (h : s.proModeActive = false) : SingleResponse (fallbackBranch w s c) := by
  unfold fallbackBranch
  rw [h]
  exact single_say _

theorem single_ordinary_rung (w : World) (s : State) (c : JSString) (i : Fin ladder.length)
    (hi : i.val ∉ [2, 3, 8, 17]) : SingleResponse ((ladder.get i).handler w s c).2 := by
  obtain ⟨k, hk⟩ := i
  have hk' : k < 33 := hk
  simp only [List.mem_cons, List.mem_singleton, List.not_mem_nil, or_false, not_or] at hi
  obtain ⟨h2, h3, h8, h17⟩ := hi
  interval_cases k
  · exact single_startWebcam w s
  · exact single_describeVision s
  · exact absurd rfl h2
  · exact absurd rfl h3
  · exact ⟨_, single_stopEmotionDetection s⟩
  · exact single_emotionQueryBranch s
  · exact single_say _
  · exact single_handleTranslation w c
  · exact absurd rfl h8
  · exact single_say _
  · exact single_say _
  · exact single_tellJoke w
  · exact single_say _
  · exact single_say _
  · exact single_say_then _ _ rfl rfl
  · exact single_say _
  · exact single_getLatestNews w
  · exact absurd rfl h17
  · exact single_say _
  · exact single_say_then _ _ rfl rfl
  · exact single_say_then _ _ rfl rfl
  · exact single_say_then _ _ rfl rfl
  · exact single_say_then _ _ rfl rfl
  · exact single_introduceBranch c
  · exact single_routeBranch c
  · exact single_timeBranch w
  · exact single_getWeatherWithoutAPI w _
  · exact single_searchWikipedia w _
  · exact single_searchWikipedia w _
  · exact single_searchWikipedia w _
  · exact single_searchWikipedia w _
  · exact single_searchWikipedia w _
  · exact single_searchWikipedia w _

/-- C9 (amended): with pro mode inactive, for every command and session state, the final `else`
and every rung other than search-for, play-on-youtube, stop-camera and start-emotion-detection
display exactly one response and speak that same string.  The stop-camera rung gives that one
response when emotion detection is off and two, the emotion-stopped message before it, when it
is on.  The start-emotion-detection rung gives one response when emotion detection or the
camera is already on; when both are off and the camera is granted it gives three in a row:
the starting-camera notice, the response of the camera start, the activation message. -/
theorem processCommand_responses (w : World) (s : State) (command : JSString)
    (hpro : s.proModeActive = false) :
    ((∀ r ∈ ladder, r.applies w command = false) →
      SingleResponse (processCommand w s command).2) ∧
    (∀ i : Fin ladder.length, ReachesRung w command i → i.val ∉ [2, 3, 8, 17] →
      SingleResponse (processCommand w s command).2) ∧
    (ReachesRung w command ⟨2, by decide⟩ →
      Responds
        (if s.emotionDetectionActive then
          ["Emotion detection has been stopped.".toList,
           "Webcam has been stopped, and vision has been deactivated.".toList]
         else ["Webcam has been stopped, and vision has been deactivated.".toList])
        (processCommand w s command).2) ∧
    (ReachesRung w command ⟨3, by decide⟩ →
      (s.emotionDetectionActive = true →
        Responds ["Emotion detection is already active.".toList]
          (processCommand w s command).2) ∧
      (s.emotionDetectionActive = false → s.isWebcamActive = true →
        Responds
          ["Emotion detection activated! I'm now analyzing your facial expressions through the camera.".toList]
          (processCommand w s command).2) ∧
      (s.emotionDetectionActive = false → s.isWebcamActive = false → w.camera = .stream →
        ∃ r, Responds
          ["Starting camera for emotion detection...".toList, r,
           "Emotion detection activated! I'm now analyzing your facial expressions through the camera.".toList]
          (processCommand w s command).2)) := by
  refine ⟨?_, ?_, ?_, ?_⟩
  · intro hnone
    rw [processCommand_eq_dispatch w s command hpro]
    unfold dispatch
    rw [firstMatch_none w s command ladder hnone]
    exact single_fallbackBranch w s command hpro
  · intro i hreach hi
    rw [processCommand_of_first_match w s command hpro i hreach.1 hreach.2]
    exact single_ordinary_rung w s command i hi
  · intro hreach
    rw [processCommand_of_first_match w s command hpro _ hreach.1 hreach.2]
    exact responds_stopWebcam s
  · intro hreach
    rw [processCommand_of_first_match w s command hpro _ hreach.1 hreach.2]
    have h := responds_startEmotionDetection w s
    refine ⟨?_, ?_, ?_⟩
    · intro he
      rw [he] at h
      exact h
    · intro he hw
      rw [he, hw] at h
      exact h
    · intro he hw _
      rw [he, hw] at h
      obtain ⟨r, hr, -⟩ := single_startWebcam w s
      rw [hr] at h
      exact ⟨r, h⟩

set_option maxRecDepth 100000 in
theorem processCommand_responses_example :
    SingleResponse (processCommand quietWorld initialState "tell me a joke".toList).2 ∧
    SingleResponse (processCommand quietWorld initialState "stop camera".toList).2 ∧
    SingleResponse (processCommand quietWorld initialState "sing a song".toList).2 :=
  ⟨(processCommand_responses quietWorld initialState "tell me a joke".toList rfl).2.1
      ⟨11, by decide⟩ ⟨by decide, by decide⟩ (by decide),
    ⟨_, (processCommand_responses quietWorld initialState "stop camera".toList rfl).2.2.1
      ⟨by decide, by decide⟩⟩,
    (processCommand_responses quietWorld initialState "sing a song".toList rfl).1 (by decide)⟩

set_option maxRecDepth 100000 in
theorem processCommand_several_responses :
    (displayed (processCommand quietWorld initialState "start emotion detection".toList).2 =
        ["Starting camera for emotion detection...".toList,
         "Camera activated! Object detection is now running.".toList,
         "Emotion detection activated! I'm now analyzing your facial expressions through the camera.".toList] ∧
      ¬ SingleResponse
        (processCommand quietWorld initialState "start emotion detection".toList).2) ∧
    (displayed (processCommand quietWorld watchingState "stop camera".toList).2 =
        ["Emotion detection has been stopped.".toList,
         "Webcam has been stopped, and vision has been deactivated.".toList] ∧
      ¬ SingleResponse (processCommand quietWorld watchingState "stop camera".toList).2) := by
  have h1 : displayed
      (processCommand quietWorld initialState "start emotion detection".toList).2 =
      ["Starting camera for emotion detection...".toList,
       "Camera activated! Object detection is now running.".toList,
       "Emotion detection activated! I'm now analyzing your facial expressions through the camera.".toList] := by
    rw [processCommand_of_first_match quietWorld initialState _ rfl ⟨3, by decide⟩ (by decide)
      (by decide)]
    refine (responds_startEmotionDetection quietWorld initialState).1.trans ?_
    decide
  have h2 : displayed (processCommand quietWorld watchingState "stop camera".toList).2 =
      ["Emotion detection has been stopped.".toList,
       "Webcam has been stopped, and vision has been deactivated.".toList] := by
    rw [processCommand_of_first_match quietWorld watchingState _ rfl ⟨2, by decide⟩ (by decide)
      (by decide)]
    exact (responds_stopWebcam watchingState).1
  refine ⟨⟨h1, ?_⟩, ⟨h2, ?_⟩⟩
  · rintro ⟨r, hr, -⟩
    rw [h1] at hr
    cases hr
  · rintro ⟨r, hr, -⟩
    rw [h2] at hr
    cases hr

/-! ## Content before action -/

theorem speechEnds_silent (t : Timeline) (h : t.speaking = none) (n : Nat) :
    speechEnds^[n] t = t := by
  induction n with
  | zero => rfl
  | succ n ih =>
    rw [Function.iterate_succ_apply', ih]
    unfold speechEnds
    rw [h]

theorem chained_timeline (a b url : JSString) :
    (begin [.display a, .speak a (some (.sayThen b (.openWindow url)))]).events =
      [.effect (.display a), .effect (.speak a (some (.sayThen b (.openWindow url))))] ∧
    (speechEnds (begin [.display a, .speak a (some (.sayThen b (.openWindow url)))])).events =
      [.effect (.display a), .effect (.speak a (some (.sayThen b (.openWindow url)))),
       .speechEnd a, .effect (.display b), .effect (.speak b (some (.openWindow url)))] ∧
    ∀ n, (speechEnds^[n + 2]
        (begin [.display a, .speak a (some (.sayThen b (.openWindow url)))])).events =
      [.effect (.display a), .effect (.speak a (some (.sayThen b (.openWindow url)))),
       .speechEnd a, .effect (.display b), .effect (.speak b (some (.openWindow url))),
       .speechEnd b, .effect (.windowOpen url)] := by
  refine ⟨rfl, rfl, ?_⟩
  intro n
  rw [Function.iterate_add_apply]
  have h2 : speechEnds^[2] (begin [.display a, .speak a (some (.sayThen b (.openWindow url)))]) =
      { events := [.effect (.display a),
          .effect (.speak a (some (.sayThen b (.openWindow url)))),
          .speechEnd a, .effect (.display b), .effect (.speak b (some (.openWindow url))),
          .speechEnd b, .effect (.windowOpen url)],
        speaking := none } := rfl
  rw [h2, speechEnds_silent _ rfl]

theorem single_timeline (r : JSString) (n : Nat) :
    (speechEnds^[n + 1] (begin (say r))).events =
      [.effect (.display r), .effect (.speak r none), .speechEnd r] := by
  rw [Function.iterate_add_apply]
  have h1 : speechEnds^[1] (begin (say r)) =
      { events := [.effect (.display r), .effect (.speak r none), .speechEnd r],
        speaking := none } := rfl
  rw [h1, speechEnds_silent _ rfl]

theorem contentBeforeAction_chain (a b url : JSString) :
    ContentBeforeAction a b url
      (begin [.display a, .speak a (some (.sayThen b (.openWindow url)))]) := by
  obtain ⟨h0, h1, h2⟩ := chained_timeline a b url
  refine ⟨?_, ?_, ?_⟩
  · unfold Timeline.observed; rw [h0]; rfl
  · unfold Timeline.observed; rw [h1]; rfl
  · intro n; unfold Timeline.observed; rw [h2 n]; rfl

theorem neverOpensPage_say (r : JSString) : NeverOpensPage (begin (say r)) := by
  intro n url
  cases n with
  | zero =>
    show Observed.pageOpened url ∉ [Observed.displayed r, Observed.speechStarted r]
    simp
  | succ n =>
    unfold Timeline.observed
    rw [single_timeline r n]
    show Observed.pageOpened url ∉
      [Observed.displayed r, Observed.speechStarted r, Observed.speechEnded r]
    simp

/-- C10 (amended): for every command that reaches the search-for rung with a non-empty query
(what follows `search for`, trimmed), and every command that reaches the play-on-youtube rung
with a non-empty remaining query, whether pro mode is active or not, the first message is
displayed and spoken, the second is displayed and spoken only once the first speech has
ended, and the page with the URL-encoded query is opened, once, only when the second speech
has ended; with an empty query no page is ever opened. -/
theorem chained_branches_in_order (w : World) (s : State) (command : JSString) :
    (ReachesRung w command ⟨8, by decide⟩ →
      (trim (command.drop 10) ≠ [] →
        ContentBeforeAction
          ("Searching Google for \"".toList ++ trim (command.drop 10) ++ "\".".toList)
          "Opening Google search results now.".toList
          ("https://www.google.com/search?q=".toList ++
            encodeURIComponent (trim (command.drop 10)))
          (begin (processCommand w s command).2)) ∧
      (trim (command.drop 10) = [] →
        NeverOpensPage (begin (processCommand w s command).2))) ∧
    (ReachesRung w command ⟨17, by decide⟩ →
      (trim (removeFirst (removeFirst command "play".toList) "on youtube".toList) ≠ [] →
        ContentBeforeAction
          ("Searching and playing \"".toList ++
            trim (removeFirst (removeFirst command "play".toList) "on youtube".toList) ++
            "\" directly on YouTube.".toList)
          "Enjoy your video! I'll be right here when you return.".toList
          ("https://www.google.com/search?q=site:youtube.com+".toList ++
            encodeURIComponent
              (trim (removeFirst (removeFirst command "play".toList) "on youtube".toList)) ++
            "&btnI".toList)
          (begin (processCommand w s command).2)) ∧
      (trim (removeFirst (removeFirst command "play".toList) "on youtube".toList) = [] →
        NeverOpensPage (begin (processCommand w s command).2))) := by
  constructor
  · intro hreach
    rw [processCommand_of_basic_first_match w s command
      (isBasicCommand_of_includes command "search for".toList (by decide)
        (includes_of_startsWith command _ hreach.1)) _ hreach.1 hreach.2]
    have hq : removeFirst command "search for".toList = command.drop 10 :=
      removeFirst_of_startsWith command "search for".toList (by decide) hreach.1
    show (_ → ContentBeforeAction _ _ _ (begin (searchForBranch command))) ∧
      (_ → NeverOpensPage (begin (searchForBranch command)))
    unfold searchForBranch
    simp only [hq]
    constructor
    · intro hne
      rw [if_pos (List.length_pos.2 hne)]
      exact contentBeforeAction_chain _ _ _
    · intro he
      rw [he, if_neg (by simp)]
      exact neverOpensPage_say _
  · intro hreach
    have hplay : includes command "play".toList = true := by
      have h : (includes command "play".toList && includes command "on youtube".toList) = true :=
        hreach.1
      rw [Bool.and_eq_true] at h
      exact h.1
    rw [processCommand_of_basic_first_match w s command
      (isBasicCommand_of_includes command "play".toList (by decide) hplay) _ hreach.1 hreach.2]
    show (_ → ContentBeforeAction _ _ _ (begin (playOnYoutubeBranch command))) ∧
      (_ → NeverOpensPage (begin (playOnYoutubeBranch command)))
    unfold playOnYoutubeBranch
    simp only []
    constructor
    · intro hne
      rw [if_pos (List.length_pos.2 hne)]
      exact contentBeforeAction_chain _ _ _
    · intro he
      rw [he, if_neg (by simp)]
      exact neverOpensPage_say _

set_option maxRecDepth 100000 in
theorem chained_branches_in_order_example :
    ContentBeforeAction "Searching Google for \"lean prover\".".toList
      "Opening Google search results now.".toList
      "https://www.google.com/search?q=lean%20prover".toList
      (begin (processCommand quietWorld initialState "search for lean prover".toList).2) ∧
    ContentBeforeAction "Searching Google for \"lean prover\".".toList
      "Opening Google search results now.".toList
      "https://www.google.com/search?q=lean%20prover".toList
      (begin (processCommand quietWorld proState "search for lean prover".toList).2) ∧
    NeverOpensPage (begin (processCommand quietWorld proState "search for".toList).2) ∧
    ContentBeforeAction "Searching and playing \"jazz\" directly on YouTube.".toList
      "Enjoy your video! I'll be right here when you return.".toList
      "https://www.google.com/search?q=site:youtube.com+jazz&btnI".toList
      (begin (processCommand quietWorld proState "play jazz on youtube".toList).2) :=
  ⟨((chained_branches_in_order quietWorld initialState "search for lean prover".toList).1
      ⟨by decide, by decide⟩).1 (by decide),
   ((chained_branches_in_order quietWorld proState "search for lean prover".toList).1
      ⟨by decide, by decide⟩).1 (by decide),
   ((chained_branches_in_order quietWorld proState "search for".toList).1
      ⟨by decide, by decide⟩).2 (by decide),
   ((chained_branches_in_order quietWorld proState "play jazz on youtube".toList).2
      ⟨by decide, by decide⟩).1 (by decide)⟩

set_option maxRecDepth 100000 in
theorem search_for_shadowed_by_greeting :
    startsWith "search for hello kitty".toList "search for".toList = true ∧
    trim ("search for hello kitty".toList.drop 10) = "hello kitty".toList ∧
    processCommand quietWorld initialState "search for hello kitty".toList =
      (initialState, [.display "Hello! How can I assist you today?".toList,
        .speak "Hello! How can I assist you today?".toList none]) ∧
    NeverOpensPage
      (begin (processCommand quietWorld initialState "search for hello kitty".toList).2) := by
  have h : processCommand quietWorld initialState "search for hello kitty".toList =
      (initialState, say "Hello! How can I assist you today?".toList) := by decide
  refine ⟨by decide, by decide, h, ?_⟩
  rw [h]
  exact neverOpensPage_say _

/-! ## The detection log -/

theorem saveDetectedObjects_log (timestamp : JSString) (objects : List JSString)
    (st : Storage) :
    (saveDetectedObjects timestamp objects st).marvinDetections =
      some (lastEntries 50 (st.marvinDetections.getD [] ++ [⟨timestamp, objects⟩])) := by
  unfold saveDetectedObjects lastEntries
  simp only []
  split
  · rfl
  · rename_i h
    have h0 : (st.marvinDetections.getD [] ++
        [({ timestamp := timestamp, objects := objects } : DetectionData)]).length - 50 = 0 := by
      omega
    rw [h0]
    rfl

theorem lastEntries_length {α : Type} (n : Nat) (l : List α) :
    (lastEntries n l).length = min n l.length := by
  unfold lastEntries
  rw [List.length_drop]
  omega

theorem lastEntries_min {α : Type} (l : List α) :
    lastEntries (min l.length 50) l = lastEntries 50 l := by
  unfold lastEntries
  congr 1
  omega

theorem lastEntries_append_one {α : Type} (l : List α) (e : α) :
    lastEntries 50 (lastEntries 50 l ++ [e]) = lastEntries 50 (l ++ [e]) := by
  unfold lastEntries
  by_cases h : l.length ≤ 50
  · have h0 : l.length - 50 = 0 := by omega
    rw [h0]
    rfl
  · have hlen : (List.drop (l.length - 50) l).length = 50 := by
      rw [List.length_drop]; omega
    have h1 : (List.drop (l.length - 50) l ++ [e]).length - 50 = 1 := by
      rw [List.length_append, hlen]; rfl
    have h2 : (l ++ [e]).length - 50 = l.length - 50 + 1 := by
      rw [List.length_append]; simp; omega
    rw [h1, h2]
    rw [List.drop_append_of_le_length (by rw [hlen]; omega),
      List.drop_append_of_le_length (by omega), List.drop_drop]

theorem saveAll_log (snapshots : List DetectionData) (st : Storage)
    (hst : (st.marvinDetections.getD []).length ≤ 50) :
    (saveAll snapshots st).marvinDetections.getD [] =
      lastEntries 50 (st.marvinDetections.getD [] ++ snapshots) := by
  induction snapshots using List.reverseRecOn with
  | nil =>
    unfold saveAll lastEntries
    simp only [List.foldl_nil, List.append_nil]
    have h0 : (st.marvinDetections.getD []).length - 50 = 0 := by omega
    rw [h0]
    rfl
  | append_singleton es e ih =>
    unfold saveAll at ih ⊢
    rw [List.foldl_append]
    simp only [List.foldl_cons, List.foldl_nil]
    rw [saveDetectedObjects_log]
    simp only [Option.getD_some]
    rw [ih, ← List.append_assoc]
    exact lastEntries_append_one _ e

/-- C11: after `saveDetectedObjects` the stored log is the last min(|L|+1, 50) entries of the
old log L followed by the new snapshot, in order, so it never has more than 50 entries;
starting from an empty log, n calls in a row leave the last min(n, 50) snapshots, oldest
first, and 60 calls leave snapshots 11 to 60. -/
theorem saveDetectedObjects_keeps_last_fifty (timestamp : JSString) (objects : List JSString)
    (st : Storage) (snapshots : List DetectionData) :
    (saveDetectedObjects timestamp objects st).marvinDetections =
      some (lastEntries (min ((st.marvinDetections.getD []).length + 1) 50)
        (st.marvinDetections.getD [] ++ [{ timestamp := timestamp, objects := objects }])) ∧
    ((saveDetectedObjects timestamp objects st).marvinDetections.getD []).length ≤ 50 ∧
    (saveAll snapshots emptyStorage).marvinDetections.getD [] =
      lastEntries (min snapshots.length 50) snapshots ∧
    ((saveAll snapshots emptyStorage).marvinDetections.getD []).length ≤ 50 ∧
    (saveAll ((List.range' 1 60).map numberedSnapshot) emptyStorage).marvinDetections.getD [] =
      (List.range' 11 50).map numberedSnapshot := by
  have hone := saveDetectedObjects_log timestamp objects st
  have hall : ∀ es : List DetectionData,
      (saveAll es emptyStorage).marvinDetections.getD [] = lastEntries 50 es := by
    intro es
    have h := saveAll_log es emptyStorage (by decide)
    rw [h]
    rfl
  refine ⟨?_, ?_, ?_, ?_, ?_⟩
  · rw [hone]
    have hlen : (st.marvinDetections.getD []).length + 1 =
        (st.marvinDetections.getD [] ++
          [({ timestamp := timestamp, objects := objects } : DetectionData)]).length := by
      rw [List.length_append]; rfl
    rw [hlen, lastEntries_min]
  · rw [hone, Option.getD_some, lastEntries_length]
    omega
  · rw [hall, lastEntries_min]
  · rw [hall, lastEntries_length]
    omega
  · rw [hall]
    unfold lastEntries
    rw [List.length_map, List.length_range', ← List.map_drop]
    rfl

/-! ## Camera failures and stopping -/

/-- C12: the code does not leave the pre-activation state when `startEmotionDetection` is
called with the camera off and the camera cannot be acquired.  Whatever the error name,
`startWebcam` alone leaves the flags as they were and gives only its error message, but
`startEmotionDetection` then switches emotion detection on without a camera and announces
that emotion detection is activated. -/
theorem startEmotionDetection_ignores_camera_failure (name : JSString) :
    (startWebcam (cameraDenied name) initialState).1 = initialState ∧
    (startWebcam (cameraDenied name) initialState).2 =
      .getUserMedia :: handleWebcamError name ∧
    (startEmotionDetection (cameraDenied name) initialState).1.isWebcamActive = false ∧
    (startEmotionDetection (cameraDenied name) initialState).1.emotionDetectionActive = true ∧
    (startEmotionDetection (cameraDenied name) initialState).2 =
      say "Starting camera for emotion detection...".toList ++
        (.getUserMedia :: handleWebcamError name) ++
        say "Emotion detection activated! I'm now analyzing your facial expressions through the camera.".toList := by
  refine ⟨rfl, rfl, rfl, rfl, rfl⟩

/-- C13: `stopWebcam` is idempotent on the session state.  After a first call the camera is
off, emotion detection is off and no stream is attached; a second call leaves the whole state
as the first left it and does nothing but display and speak the confirmation again. -/
theorem stopWebcam_idempotent (s : State) :
    (stopWebcam s).1.isWebcamActive = false ∧
    (stopWebcam s).1.emotionDetectionActive = false ∧
    (stopWebcam s).1.srcObject = false ∧
    stopWebcam (stopWebcam s).1 =
      ((stopWebcam s).1,
        [.display "Webcam has been stopped, and vision has been deactivated.".toList,
         .speak "Webcam has been stopped, and vision has been deactivated.".toList none]) := by
  obtain ⟨a, b, c, d, e, f, g, h, i⟩ := s
  cases b <;> cases c <;> cases d <;> exact ⟨rfl, rfl, rfl, rfl⟩

/-- C14: `handleWebcamError` gives one message for each of the four categories of error
name, the four messages are pairwise distinct, and a name outside the three it knows gets
the fourth; the message is a function of the name alone. -/
theorem handleWebcamError_messages (name : JSString)
    (hother : name ∉ ["NotAllowedError".toList, "NotFoundError".toList,
      "NotSupportedError".toList]) :
    handleWebcamError "NotAllowedError".toList =
      say "Sorry, I couldn't access the camera. Please allow camera permissions and try again.".toList ∧
    handleWebcamError "NotFoundError".toList =
      say "Sorry, I couldn't access the camera. No camera found. Please check if your camera is connected.".toList ∧
    handleWebcamError "NotSupportedError".toList =
      say "Sorry, I couldn't access the camera. Your browser doesn't support camera access.".toList ∧
    handleWebcamError name =
      say "Sorry, I couldn't access the camera. Please make sure your camera is connected and you've granted permission.".toList ∧
    List.Pairwise (fun a b => a ≠ b)
      [handleWebcamError "NotAllowedError".toList, handleWebcamError "NotFoundError".toList,
       handleWebcamError "NotSupportedError".toList, handleWebcamError name] := by
  simp only [List.mem_cons, List.mem_singleton, List.not_mem_nil, or_false, not_or] at hother
  obtain ⟨h1, h2, h3⟩ := hother
  have hname : handleWebcamError name =
      say "Sorry, I couldn't access the camera. Please make sure your camera is connected and you've granted permission.".toList := by
    unfold handleWebcamError
    simp only [if_neg h1, if_neg h2, if_neg h3]
    rfl
  refine ⟨by decide, by decide, by decide, hname, ?_⟩
  rw [hname]
  decide

theorem handleWebcamError_messages_example :
    handleWebcamError "AbortError".toList =
      say "Sorry, I couldn't access the camera. Please make sure your camera is connected and you've granted permission.".toList ∧
    List.Pairwise (fun a b => a ≠ b)
      [handleWebcamError "NotAllowedError".toList, handleWebcamError "NotFoundError".toList,
       handleWebcamError "NotSupportedError".toList, handleWebcamError "AbortError".toList] :=
  ⟨(handleWebcamError_messages "AbortError".toList (by decide)).2.2.2.1,
   (handleWebcamError_messages "AbortError".toList (by decide)).2.2.2.2⟩

/-! ## Pro mode across reloads -/

theorem stored_flag_after_call (activate : Bool) (s : State) (st : Storage) :
    (reload (if activate then activateProMode s st else deactivateProMode s st).2.1).1.proModeActive
      = activate ∧
    (if activate then activateProMode s st else deactivateProMode s st).1.proModeActive
      = activate := by
  cases activate <;> exact ⟨rfl, rfl⟩

theorem runProModeCalls_last (calls : List Bool) (hcalls : calls ≠ []) :
    ∀ r : State × Storage,
      (reload (runProModeCalls calls r).2).1.proModeActive = calls.getLast hcalls ∧
      (runProModeCalls calls r).1.proModeActive = calls.getLast hcalls := by
  induction calls with
  | nil => exact absurd rfl hcalls
  | cons a rest ih =>
    intro r
    cases rest with
    | nil =>
      simp only [runProModeCalls, List.getLast_singleton]
      exact stored_flag_after_call a r.1 r.2
    | cons b rest =>
      simp only [List.getLast_cons_cons]
      exact ih (by simp) _

/-- C15: pro mode survives a reload.  After `activateProMode`, the state rebuilt from the
storage alone has pro mode on; after `deactivateProMode` it has pro mode off; and after any
series of such calls the flag after a reload is the flag the last call set. -/
theorem proMode_survives_reload (s : State) (st : Storage) (calls : List Bool)
    (hcalls : calls ≠ []) :
    (reload (activateProMode s st).2.1).1.proModeActive = true ∧
    (reload (deactivateProMode s st).2.1).1.proModeActive = false ∧
    (reload (runProModeCalls calls (s, st)).2).1.proModeActive = calls.getLast hcalls ∧
    (reload (runProModeCalls calls (s, st)).2).1.proModeActive =
      (runProModeCalls calls (s, st)).1.proModeActive := by
  have h := runProModeCalls_last calls hcalls (s, st)
  exact ⟨rfl, rfl, h.1, h.1.trans h.2.symm⟩

theorem proMode_survives_reload_example :
    (reload (activateProMode initialState ⟨none, none⟩).2.1).1.proModeActive = true ∧
    (reload (deactivateProMode proState ⟨none, some "true".toList⟩).2.1).1.proModeActive
      = false ∧
    (reload (runProModeCalls [true, false, true] (initialState, ⟨none, none⟩)).2).1.proModeActive
      = true :=
  ⟨(proMode_survives_reload initialState ⟨none, none⟩ [true] (by decide)).1,
   (proMode_survives_reload proState ⟨none, some "true".toList⟩ [false] (by decide)).2.1,
   (proMode_survives_reload initialState ⟨none, none⟩ [true, false, true] (by decide)).2.2.1⟩

/-! ## Perception steps with the camera off -/

/-- C16 (amended): a perception-loop step invoked while the camera is off does no work, but
only the emotion step stops scheduling.  With `isWebcamActive` false,
`detectObjectsFromWebcam` runs no detection and arms a 500 ms timer to call itself again, the
callbacks of a detection that settles schedule nothing, and `analyzeEmotion` neither analyses
a frame nor arms a timer; `analyzeEmotion` does the same whenever emotion detection is off. -/
theorem perception_steps_when_inactive (w : World) (s : State)
    (predictions : Option (List JSString)) (hoff : s.isWebcamActive = false) :
    detectObjectsFromWebcam w s = .ok [.setTimeout .detectObjectsFromWebcam 500] ∧
    (detectionSettled s predictions).2 = [] ∧
    analyzeEmotion w s = (s, []) ∧
    (∀ s' : State, s'.emotionDetectionActive = false → analyzeEmotion w s' = (s', [])) := by
  refine ⟨?_, ?_, ?_, ?_⟩
  · unfold detectObjectsFromWebcam
    rw [hoff]
    rfl
  · unfold detectionSettled
    cases predictions <;> simp only [hoff] <;> rfl
  · unfold analyzeEmotion
    rw [hoff]
    simp
  · intro s' h
    unfold analyzeEmotion
    rw [h]
    simp

theorem perception_steps_when_inactive_example :
    detectObjectsFromWebcam quietWorld (stopWebcam watchingState).1 =
      .ok [.setTimeout .detectObjectsFromWebcam 500] ∧
    analyzeEmotion quietWorld (stopWebcam watchingState).1 = ((stopWebcam watchingState).1, []) :=
  ⟨(perception_steps_when_inactive quietWorld (stopWebcam watchingState).1 none rfl).1,
   (perception_steps_when_inactive quietWorld (stopWebcam watchingState).1 none rfl).2.2.1⟩

theorem detectObjectsFromWebcam_rearms_when_stopped :
    (stopWebcam watchingState).1.isWebcamActive = false ∧
    detectObjectsFromWebcam quietWorld (stopWebcam watchingState).1 =
      .ok [.setTimeout .detectObjectsFromWebcam 500] ∧
    detectObjectsFromWebcam quietWorld initialState =
      .ok [.setTimeout .detectObjectsFromWebcam 500] := by
  refine ⟨rfl, rfl, rfl⟩

/-! ## The weighted choice of a label -/

theorem selectEmotion_table (l1 l2 l3 l4 l5 l6 l7 : JSString) (r c : ℚ) (hr : r ≤ 1) :
    selectEmotion r c
        [(l1, 0.4), (l2, 0.25), (l3, 0.15), (l4, 0.1), (l5, 0.05), (l6, 0.03), (l7, 0.02)] 0 =
      (if r ≤ 0.4 then l1 else if r ≤ 0.65 then l2 else if r ≤ 0.8 then l3
        else if r ≤ 0.9 then l4 else if r ≤ 0.95 then l5 else if r ≤ 0.98 then l6 else l7,
       ⌊70 + c * 25⌋) := by
  simp only [selectEmotion]
  norm_num
  split_ifs <;> rfl

theorem reachesFallback_table (l1 l2 l3 l4 l5 l6 l7 : JSString) (r : ℚ) (hr : r ≤ 1) :
    reachesFallback r
        [(l1, 0.4), (l2, 0.25), (l3, 0.15), (l4, 0.1), (l5, 0.05), (l6, 0.03), (l7, 0.02)] 0 =
      false := by
  simp only [reachesFallback]
  norm_num
  intros
  linarith

theorem cumulative_choice (l1 l2 l3 l4 l5 l6 l7 : JSString)
    (hd : List.Pairwise (fun a b => a ≠ b) [l1, l2, l3, l4, l5, l6, l7]) (r : ℚ) :
    ((if r ≤ 0.4 then l1 else if r ≤ 0.65 then l2 else if r ≤ 0.8 then l3
        else if r ≤ 0.9 then l4 else if r ≤ 0.95 then l5 else if r ≤ 0.98 then l6 else l7) = l1
      ↔ r ≤ 0.4) ∧
    ((if r ≤ 0.4 then l1 else if r ≤ 0.65 then l2 else if r ≤ 0.8 then l3
        else if r ≤ 0.9 then l4 else if r ≤ 0.95 then l5 else if r ≤ 0.98 then l6 else l7) = l2
      ↔ 0.4 < r ∧ r ≤ 0.65) ∧
    ((if r ≤ 0.4 then l1 else if r ≤ 0.65 then l2 else if r ≤ 0.8 then l3
        else if r ≤ 0.9 then l4 else if r ≤ 0.95 then l5 else if r ≤ 0.98 then l6 else l7) = l3
      ↔ 0.65 < r ∧ r ≤ 0.8) ∧
    ((if r ≤ 0.4 then l1 else if r ≤ 0.65 then l2 else if r ≤ 0.8 then l3
        else if r ≤ 0.9 then l4 else if r ≤ 0.95 then l5 else if r ≤ 0.98 then l6 else l7) = l4
      ↔ 0.8 < r ∧ r ≤ 0.9) ∧
    ((if r ≤ 0.4 then l1 else if r ≤ 0.65 then l2 else if r ≤ 0.8 then l3
        else if r ≤ 0.9 then l4 else if r ≤ 0.95 then l5 else if r ≤ 0.98 then l6 else l7) = l5
      ↔ 0.9 < r ∧ r ≤ 0.95) ∧
    ((if r ≤ 0.4 then l1 else if r ≤ 0.65 then l2 else if r ≤ 0.8 then l3
        else if r ≤ 0.9 then l4 else if r ≤ 0.95 then l5 else if r ≤ 0.98 then l6 else l7) = l6
      ↔ 0.95 < r ∧ r ≤ 0.98) ∧
    ((if r ≤ 0.4 then l1 else if r ≤ 0.65 then l2 else if r ≤ 0.8 then l3
        else if r ≤ 0.9 then l4 else if r ≤ 0.95 then l5 else if r ≤ 0.98 then l6 else l7) = l7
      ↔ 0.98 < r) := by
  simp only [List.pairwise_cons, List.mem_cons, List.mem_singleton, List.not_mem_nil,
    or_false, forall_eq_or_imp, forall_eq, IsEmpty.forall_iff, implies_true, and_true,
    List.Pairwise.nil, ne_eq] at hd
  obtain ⟨⟨h12, h13, h14, h15, h16, h17⟩, ⟨h23, h24, h25, h26, h27⟩, ⟨h34, h35, h36, h37⟩,
    ⟨h45, h46, h47⟩, ⟨h56, h57⟩, h67⟩ := hd
  have e21 := Ne.symm h12
  have e31 := Ne.symm h13
  have e41 := Ne.symm h14
  have e51 := Ne.symm h15
  have e61 := Ne.symm h16
  have e71 := Ne.symm h17
  have e32 := Ne.symm h23
  have e42 := Ne.symm h24
  have e52 := Ne.symm h25
  have e62 := Ne.symm h26
  have e72 := Ne.symm h27
  have e43 := Ne.symm h34
  have e53 := Ne.symm h35
  have e63 := Ne.symm h36
  have e73 := Ne.symm h37
  have e54 := Ne.symm h45
  have e64 := Ne.symm h46
  have e74 := Ne.symm h47
  have e65 := Ne.symm h56
  have e75 := Ne.symm h57
  have e76 := Ne.symm h67
  split_ifs with c1 c2 c3 c4 c5 c6
  all_goals
    simp only [*, true_iff, false_iff, not_and, not_le, not_lt, true_and, and_true, eq_self_iff_true,
      not_false_eq_true, ne_eq]
  all_goals norm_num at *
  all_goals repeat' apply And.intro
  all_goals intros
  all_goals linarith

/-- C17: in the new-label branch of `getStableEmotionAnalysis`, with exact arithmetic, the
seven weights add up to 1 and a draw r below 1 selects neutral iff r ≤ 0.40, happy iff
0.40 < r ≤ 0.65, focused iff 0.65 < r ≤ 0.80, calm iff 0.80 < r ≤ 0.90, surprised iff
0.90 < r ≤ 0.95, sad iff 0.95 < r ≤ 0.98 and angry iff 0.98 < r; the width of each interval is
the weight of its label and the fallback after the loop is not reached. -/
theorem selectEmotion_by_cumulative_weight (r c : ℚ) (hr1 : r < 1) :
    (emotions.map Prod.snd).sum = 1 ∧
    emotions.map Prod.snd =
      [0.40 - 0, 0.65 - 0.40, 0.80 - 0.65, 0.90 - 0.80, 0.95 - 0.90, 0.98 - 0.95, 1 - 0.98] ∧
    ((selectEmotion r c emotions 0).1 = "neutral".toList ↔ r ≤ 0.40) ∧
    ((selectEmotion r c emotions 0).1 = "happy".toList ↔ 0.40 < r ∧ r ≤ 0.65) ∧
    ((selectEmotion r c emotions 0).1 = "focused".toList ↔ 0.65 < r ∧ r ≤ 0.80) ∧
    ((selectEmotion r c emotions 0).1 = "calm".toList ↔ 0.80 < r ∧ r ≤ 0.90) ∧
    ((selectEmotion r c emotions 0).1 = "surprised".toList ↔ 0.90 < r ∧ r ≤ 0.95) ∧
    ((selectEmotion r c emotions 0).1 = "sad".toList ↔ 0.95 < r ∧ r ≤ 0.98) ∧
    ((selectEmotion r c emotions 0).1 = "angry".toList ↔ 0.98 < r) ∧
    reachesFallback r emotions 0 = false := by
  have hsel := selectEmotion_table "neutral".toList "happy".toList "focused".toList
    "calm".toList "surprised".toList "sad".toList "angry".toList r c (le_of_lt hr1)
  have hfall := reachesFallback_table "neutral".toList "happy".toList "focused".toList
    "calm".toList "surprised".toList "sad".toList "angry".toList r (le_of_lt hr1)
  have hchoice := cumulative_choice "neutral".toList "happy".toList "focused".toList
    "calm".toList "surprised".toList "sad".toList "angry".toList (by decide) r
  have hsel' : (selectEmotion r c emotions 0).1 =
      (if r ≤ 0.4 then "neutral".toList else if r ≤ 0.65 then "happy".toList
        else if r ≤ 0.8 then "focused".toList else if r ≤ 0.9 then "calm".toList
        else if r ≤ 0.95 then "surprised".toList else if r ≤ 0.98 then "sad".toList
        else "angry".toList) := by
    show (selectEmotion r c _ 0).1 = _
    exact congrArg Prod.fst hsel
  rw [hsel']
  have hw : emotions.map Prod.snd = [0.4, 0.25, 0.15, 0.1, 0.05, 0.03, 0.02] := rfl
  refine ⟨?_, ?_, ?_⟩
  · rw [hw]; norm_num
  · rw [hw]; norm_num
  · have h040 : (0.40 : ℚ) = 0.4 := by norm_num
    have h080 : (0.80 : ℚ) = 0.8 := by norm_num
    have h090 : (0.90 : ℚ) = 0.9 := by norm_num
    rw [h040, h080, h090]
    exact ⟨hchoice.1, hchoice.2.1, hchoice.2.2.1, hchoice.2.2.2.1, hchoice.2.2.2.2.1,
      hchoice.2.2.2.2.2.1, hchoice.2.2.2.2.2.2, hfall⟩

theorem selectEmotion_by_cumulative_weight_example :
    (selectEmotion (1 / 2) 0 emotions 0).1 = "happy".toList ∧
    reachesFallback (1 / 2) emotions 0 = false :=
  ⟨(selectEmotion_by_cumulative_weight (1 / 2) 0 (by norm_num)).2.2.2.1.2
      (by norm_num),
   (selectEmotion_by_cumulative_weight (1 / 2) 0 (by norm_num)).2.2.2.2.2.2.2.2.2⟩

/-! ## Keeping the previous label -/

theorem isDouble_natCast (n : ℕ) (h : n < 2 ^ 53) : IsDouble (n : ℚ) := toDouble_natCast n h

theorem isDouble_dyadic (m : ℕ) (j : ℤ) (hm : m < 2 ^ 53) (hj : -1074 ≤ j) :
    IsDouble ((m : ℚ) * 2 ^ j) := toDouble_dyadic m j hm hj

theorem floor_between (y : ℚ) (a b : ℤ) (ha : (a : ℚ) ≤ y) (hb : y ≤ b) :
    a ≤ ⌊y⌋ ∧ ⌊y⌋ ≤ b := by
  constructor
  · exact Int.le_floor.mpr ha
  · have := Int.floor_le_floor (α := ℚ) hb
    rwa [Int.floor_intCast] at this

theorem scaled_draw_bounds (v : ℚ) (n : ℕ) (hn : n < 2 ^ 53) (h0 : 0 ≤ v) (h1 : v < 1) :
    0 ≤ toDouble (v * n) ∧ toDouble (v * n) ≤ n := by
  have hn0 : (0 : ℚ) ≤ n := Nat.cast_nonneg n
  have hv : 0 ≤ v * n := mul_nonneg h0 hn0
  refine ⟨toDouble_nonneg _ hv, toDouble_le_of_le _ _ hv (isDouble_natCast n hn) ?_⟩
  calc v * n ≤ 1 * n := mul_le_mul_of_nonneg_right (le_of_lt h1) hn0
    _ = n := one_mul _

theorem keep_confidence_bounds (v : ℚ) (h0 : 0 ≤ v) (h1 : v < 1) :
    75 ≤ ⌊toDouble (75 + toDouble (v * 20))⌋ ∧ ⌊toDouble (75 + toDouble (v * 20))⌋ ≤ 95 := by
  have h := scaled_draw_bounds v 20 (by norm_num) h0 h1
  have h20 : ((20 : ℕ) : ℚ) = 20 := by norm_num
  rw [h20] at h
  have hd75 : IsDouble 75 := by have := isDouble_natCast 75 (by norm_num); simpa using this
  have hd95 : IsDouble 95 := by have := isDouble_natCast 95 (by norm_num); simpa using this
  have hlo := le_toDouble_of_le (75 + toDouble (v * 20)) 75 (by norm_num) hd75 (by linarith)
  have hhi := toDouble_le_of_le (75 + toDouble (v * 20)) 95 (by linarith) hd95 (by linarith)
  exact floor_between _ 75 95 (by exact_mod_cast hlo) (by exact_mod_cast hhi)

theorem new_confidence_bounds (v : ℚ) (h0 : 0 ≤ v) (h1 : v < 1) :
    70 ≤ ⌊toDouble (70 + toDouble (v * 25))⌋ ∧ ⌊toDouble (70 + toDouble (v * 25))⌋ ≤ 95 := by
  have h := scaled_draw_bounds v 25 (by norm_num) h0 h1
  have h25 : ((25 : ℕ) : ℚ) = 25 := by norm_num
  rw [h25] at h
  have hd70 : IsDouble 70 := by have := isDouble_natCast 70 (by norm_num); simpa using this
  have hd95 : IsDouble 95 := by have := isDouble_natCast 95 (by norm_num); simpa using this
  have hlo := le_toDouble_of_le (70 + toDouble (v * 25)) 70 (by norm_num) hd70 (by linarith)
  have hhi := toDouble_le_of_le (70 + toDouble (v * 25)) 95 (by linarith) hd95 (by linarith)
  exact floor_between _ 70 95 (by exact_mod_cast hlo) (by exact_mod_cast hhi)

theorem getStableEmotionAnalysis_kept (w : World) (s : State) (hprev : s.currentEmotion ≠ [])
    (hkeep : toDouble 0.3 < w.keepDraw) :
    getStableEmotionAnalysis w s =
      (s.currentEmotion, ⌊toDouble (75 + toDouble (w.confidenceDraw * 20))⌋) := by
  unfold getStableEmotionAnalysis
  have h1 : s.currentEmotion.isEmpty = false := by
    cases hs : s.currentEmotion with
    | nil => exact absurd hs hprev
    | cons c t => rfl
  rw [if_pos]
  simp only [h1, Bool.not_false, Bool.true_and, decide_eq_true_eq]
  exact hkeep

theorem getStableEmotionAnalysis_redrawn (w : World) (s : State)
    (hkeep : w.keepDraw ≤ toDouble 0.3) :
    getStableEmotionAnalysis w s =
      selectEmotionDouble w.labelDraw w.confidenceDraw emotions 0 := by
  unfold getStableEmotionAnalysis
  rw [if_neg]
  simp only [Bool.and_eq_true, decide_eq_true_eq, not_and, not_lt]
  intro _
  exact hkeep

/-- The Number value of the literal `0.3`. -/
theorem toDouble_three_tenths : toDouble 0.3 = 5404319552844595 * 2 ^ (-54 : ℤ) := by
  have h := toDouble_eval 0.3 (-2) 5404319552844595 (by norm_num) (by norm_num) (by norm_num)
    (by norm_num) (by norm_num [abs_lt])
  rw [h]
  norm_num

/-- No Number value lies between the Number value of `0.3` and the real 0.3: a draw passes the
test `Math.random() > 0.3` exactly when it is above three tenths. -/
theorem keep_threshold (u : ℚ) (hu : IsDouble u) : toDouble 0.3 < u ↔ 3 / 10 < u := by
  rw [toDouble_three_tenths]
  constructor
  · intro h
    by_cases hhalf : u < 1 / 2
    · have hpos : 0 < u := lt_trans (by norm_num) h
      have hb : binade u = -2 :=
        binade_of_bounds u (-2) hpos (le_trans (by norm_num) (le_of_lt h))
          (by norm_num; linarith) (by norm_num)
      have hgrid : u = (roundHalfEven (u / 2 ^ (binade u - 52)) : ℚ) * 2 ^ (binade u - 52) :=
        hu.symm
      rw [hb] at hgrid
      have hm : (5404319552844595 : ℤ) < roundHalfEven (u / 2 ^ ((-2 : ℤ) - 52)) := by
        have h' : (5404319552844595 : ℚ) * 2 ^ (-54 : ℤ) <
            (roundHalfEven (u / 2 ^ ((-2 : ℤ) - 52)) : ℚ) * 2 ^ ((-2 : ℤ) - 52) := by
          rw [← hgrid]
          exact h
        have h54 : ((-2 : ℤ) - 52) = -54 := by norm_num
        rw [h54] at h' ⊢
        have := lt_of_mul_lt_mul_right h' (le_of_lt (two_zpow_pos (-54)))
        exact_mod_cast this
      have hm' : ((5404319552844596 : ℤ) : ℚ) ≤
          (roundHalfEven (u / 2 ^ ((-2 : ℤ) - 52)) : ℚ) := by
        exact_mod_cast hm
      rw [hgrid]
      calc (3 / 10 : ℚ) < ((5404319552844596 : ℤ) : ℚ) * 2 ^ ((-2 : ℤ) - 52) := by norm_num
        _ ≤ _ := mul_le_mul_of_nonneg_right hm' (le_of_lt (two_zpow_pos _))
    · linarith [not_lt.mp hhalf]
  · intro h
    exact lt_trans (by norm_num) h

theorem keep_confidence_reached (k : Int) (h0 : 75 ≤ k) (h1 : k ≤ 95) :
    ∃ v : ℚ, IsDouble v ∧ 0 ≤ v ∧ v < 1 ∧ ⌊toDouble (75 + toDouble (v * 20))⌋ = k := by
  by_cases h95 : k = 95
  · refine ⟨(4503599627370495 : ℕ) * 2 ^ (-52 : ℤ),
      isDouble_dyadic _ _ (by norm_num) (by norm_num), by norm_num, by norm_num, ?_⟩
    have hprod : toDouble (((4503599627370495 : ℕ) : ℚ) * 2 ^ (-52 : ℤ) * 20) =
        5629499534213119 * 2 ^ (-48 : ℤ) := by
      have h := toDouble_eval (((4503599627370495 : ℕ) : ℚ) * 2 ^ (-52 : ℤ) * 20) 4
        5629499534213119 (by norm_num) (by norm_num) (by norm_num) (by norm_num)
        (by norm_num [abs_lt])
      rw [h]
      norm_num
    have hsum : toDouble (75 + 5629499534213119 * 2 ^ (-48 : ℤ)) = 95 := by
      have h := toDouble_eval (75 + 5629499534213119 * 2 ^ (-48 : ℤ)) 6
        6685030696878080 (by norm_num) (by norm_num) (by norm_num) (by norm_num)
        (by norm_num [abs_lt])
      rw [h]
      norm_num
    rw [hprod, hsum, h95]
    norm_num
  · obtain ⟨j, hj⟩ := Int.eq_ofNat_of_zero_le (show 0 ≤ k - 75 by omega)
    have hj19 : j ≤ 19 := by omega
    have hm1 : 8 * j ≤ 5 * ((8 * j + 4) / 5) := by omega
    have hm2 : 5 * ((8 * j + 4) / 5) < 8 * j + 8 := by omega
    have hm3 : (8 * j + 4) / 5 ≤ 31 := by omega
    generalize (8 * j + 4) / 5 = m at hm1 hm2 hm3
    have hm1q : (8 : ℚ) * j ≤ 5 * m := by exact_mod_cast hm1
    have hm2q : (5 : ℚ) * m < 8 * j + 8 := by exact_mod_cast hm2
    have hm3q : (m : ℚ) ≤ 31 := by exact_mod_cast hm3
    have hm0q : (0 : ℚ) ≤ m := Nat.cast_nonneg m
    have hv : ((m : ℚ) * 2 ^ (-5 : ℤ)) = m / 32 := by norm_num; ring
    refine ⟨(m : ℚ) * 2 ^ (-5 : ℤ), isDouble_dyadic m (-5) (by omega) (by norm_num), ?_, ?_, ?_⟩
    · rw [hv]; positivity
    · rw [hv]; linarith
    · have hprod : (m : ℚ) * 2 ^ (-5 : ℤ) * 20 = ((5 * m : ℕ) : ℚ) * 2 ^ (-3 : ℤ) := by
        push_cast
        norm_num
        ring
      have hsum : (75 : ℚ) + ((5 * m : ℕ) : ℚ) * 2 ^ (-3 : ℤ) =
          ((600 + 5 * m : ℕ) : ℚ) * 2 ^ (-3 : ℤ) := by
        push_cast
        norm_num
        ring
      rw [hprod, toDouble_dyadic (5 * m) (-3) (by omega) (by norm_num), hsum,
        toDouble_dyadic (600 + 5 * m) (-3) (by omega) (by norm_num)]
      have hk : k = 75 + (j : ℤ) := by omega
      rw [hk, Int.floor_eq_iff]
      push_cast
      norm_num
      constructor <;> linarith

/-- C18: in `getStableEmotionAnalysis`, when a previous label exists, the label is kept exactly
for the draws u with u > 0.3 and a new label is drawn otherwise; in the keep branch the label
returned is the previous one and the confidence is an integer over the whole range 75..95:
every confidence returned lies in 75..95 and every integer of 75..95 is returned for some draw
of [0,1).  The arithmetic is that of the script, where the product and the sum are rounded to
Number values, which is how 95 is reached. -/
theorem getStableEmotionAnalysis_keep_branch (w : World) (s : State)
    (hprev : s.currentEmotion ≠ []) (hdraw : ConfidenceDrawInRange w) :
    (toDouble 0.3 < w.keepDraw →
      getStableEmotionAnalysis w s =
        (s.currentEmotion, ⌊toDouble (75 + toDouble (w.confidenceDraw * 20))⌋) ∧
      75 ≤ (getStableEmotionAnalysis w s).2 ∧ (getStableEmotionAnalysis w s).2 ≤ 95) ∧
    (w.keepDraw ≤ toDouble 0.3 →
      getStableEmotionAnalysis w s =
        selectEmotionDouble w.labelDraw w.confidenceDraw emotions 0) ∧
    (IsDouble w.keepDraw → (toDouble 0.3 < w.keepDraw ↔ 3 / 10 < w.keepDraw)) ∧
    (∀ k : Int, 75 ≤ k → k ≤ 95 →
      ∃ v : ℚ, IsDouble v ∧ 0 ≤ v ∧ v < 1 ∧
        getStableEmotionAnalysis { w with keepDraw := 1 / 2, confidenceDraw := v } s =
          (s.currentEmotion, k)) := by
  have hhalf : toDouble 0.3 < (1 / 2 : ℚ) := by
    rw [toDouble_three_tenths]
    norm_num
  refine ⟨?_, getStableEmotionAnalysis_redrawn w s, keep_threshold w.keepDraw, ?_⟩
  · intro hkeep
    have h := getStableEmotionAnalysis_kept w s hprev hkeep
    rw [h]
    exact ⟨rfl, keep_confidence_bounds _ hdraw.1 hdraw.2⟩
  · intro k h0 h1
    obtain ⟨v, hv, hv0, hv1, hfloor⟩ := keep_confidence_reached k h0 h1
    refine ⟨v, hv, hv0, hv1, ?_⟩
    rw [getStableEmotionAnalysis_kept _ s hprev hhalf]
    show (s.currentEmotion, ⌊toDouble (75 + toDouble (v * 20))⌋) = _
    rw [hfloor]

theorem getStableEmotionAnalysis_keep_branch_example :
    getStableEmotionAnalysis { quietWorld with keepDraw := 1 / 2, confidenceDraw := 1 / 2 }
        initialState = ("neutral".toList, 85) ∧
    getStableEmotionAnalysis { quietWorld with keepDraw := 1 / 4, confidenceDraw := 1 / 2 }
        initialState =
      selectEmotionDouble 0 (1 / 2) emotions 0 ∧
    ∃ v : ℚ, IsDouble v ∧ 0 ≤ v ∧ v < 1 ∧
      getStableEmotionAnalysis { quietWorld with keepDraw := 1 / 2, confidenceDraw := v }
        initialState = ("neutral".toList, 95) := by
  have h := getStableEmotionAnalysis_keep_branch
    { quietWorld with keepDraw := 1 / 2, confidenceDraw := 1 / 2 } initialState (by decide)
    ⟨by norm_num, by norm_num⟩
  have h' := getStableEmotionAnalysis_keep_branch
    { quietWorld with keepDraw := 1 / 4, confidenceDraw := 1 / 2 } initialState (by decide)
    ⟨by norm_num, by norm_num⟩
  have hhalf : toDouble 0.3 < (1 / 2 : ℚ) := by
    rw [toDouble_three_tenths]
    norm_num
  have hquarter : (1 / 4 : ℚ) ≤ toDouble 0.3 := by
    rw [toDouble_three_tenths]
    norm_num
  refine ⟨?_, h'.2.1 hquarter, h.2.2.2 95 (by norm_num) (by norm_num)⟩
  rw [(h.1 hhalf).1]
  have e1 : toDouble ((1 / 2 : ℚ) * 20) = 10 := by
    rw [show (1 / 2 : ℚ) * 20 = ((10 : ℕ) : ℚ) by norm_num, toDouble_natCast 10 (by norm_num)]
    norm_num
  have e2 : toDouble ((75 : ℚ) + 10) = 85 := by
    rw [show (75 : ℚ) + 10 = ((85 : ℕ) : ℚ) by norm_num, toDouble_natCast 85 (by norm_num)]
    norm_num
  show (initialState.currentEmotion, ⌊toDouble (75 + toDouble ((1 / 2 : ℚ) * 20))⌋) = _
  rw [e1, e2]
  norm_num [initialState]

/-! ## The emotion record stays in range -/

theorem selectEmotionDouble_label (r c : ℚ) (table : List (JSString × ℚ)) (cw : ℚ) :
    (selectEmotionDouble r c table cw).1 = "neutral".toList ∨
      (selectEmotionDouble r c table cw).1 ∈ table.map Prod.fst := by
  induction table generalizing cw with
  | nil => exact Or.inl rfl
  | cons e rest ih =>
    obtain ⟨emotion, weight⟩ := e
    unfold selectEmotionDouble
    split
    · exact Or.inr (List.mem_cons_self _ _)
    · rcases ih (toDouble (cw + toDouble weight)) with h | h
      · exact Or.inl h
      · exact Or.inr (List.mem_cons_of_mem _ h)

theorem selectEmotionDouble_confidence (r c : ℚ) (table : List (JSString × ℚ)) (cw : ℚ) :
    (selectEmotionDouble r c table cw).2 = 80 ∨ (selectEmotionDouble r c table cw).2 =
      ⌊toDouble (70 + toDouble (c * 25))⌋ := by
  induction table generalizing cw with
  | nil => exact Or.inl rfl
  | cons e rest ih =>
    obtain ⟨emotion, weight⟩ := e
    unfold selectEmotionDouble
    split
    · exact Or.inr rfl
    · exact ih (toDouble (cw + toDouble weight))

theorem emotions_labels_listed : ∀ l ∈ emotions.map Prod.fst, l ∈ emotionLabels := by
  decide

theorem selectEmotionDouble_in_range (r c : ℚ) (h0 : 0 ≤ c) (h1 : c < 1) :
    EmotionInRange (selectEmotionDouble r c emotions 0).1 (selectEmotionDouble r c emotions 0).2 := by
  refine ⟨?_, ?_⟩
  · rcases selectEmotionDouble_label r c emotions 0 with h | h
    · rw [h]
      decide
    · exact emotions_labels_listed _ h
  · rcases selectEmotionDouble_confidence r c emotions 0 with h | h
    · rw [h]
      decide
    · rw [h]
      have := new_confidence_bounds c h0 h1
      omega

theorem getStableEmotionAnalysis_in_range (w : World) (s : State)
    (hlabel : s.currentEmotion ∈ emotionLabels) (hdraw : ConfidenceDrawInRange w) :
    EmotionInRange (getStableEmotionAnalysis w s).1 (getStableEmotionAnalysis w s).2 := by
  unfold getStableEmotionAnalysis
  split
  · refine ⟨hlabel, ?_⟩
    have := keep_confidence_bounds w.confidenceDraw hdraw.1 hdraw.2
    show 70 ≤ ⌊toDouble (75 + toDouble (w.confidenceDraw * 20))⌋ ∧
      ⌊toDouble (75 + toDouble (w.confidenceDraw * 20))⌋ ≤ 95
    omega
  · exact selectEmotionDouble_in_range _ _ hdraw.1 hdraw.2

/-- One tick either leaves the emotion record alone or publishes the record that
`getStableEmotionAnalysis` returned. -/
theorem analyzeEmotion_publishes (w : World) (s : State) :
    ((analyzeEmotion w s).1.currentEmotion = s.currentEmotion ∧
      (analyzeEmotion w s).1.emotionConfidence = s.emotionConfidence) ∨
    ((analyzeEmotion w s).1.currentEmotion = (getStableEmotionAnalysis w s).1 ∧
      (analyzeEmotion w s).1.emotionConfidence = (getStableEmotionAnalysis w s).2) := by
  unfold analyzeEmotion
  dsimp only
  split_ifs <;> first | exact Or.inl ⟨rfl, rfl⟩ | exact Or.inr ⟨rfl, rfl⟩

theorem runTicks_append (ticks : List World) (w : World) (s : State) :
    runTicks (ticks ++ [w]) s = (analyzeEmotion w (runTicks ticks s)).1 := by
  unfold runTicks
  rw [List.foldl_append]
  rfl

theorem runTicks_invariant (ticks : List World) (s0 : State)
    (hs0 : s0.currentEmotion ∈ emotionLabels)
    (hticks : ∀ t ∈ ticks, ConfidenceDrawInRange t) :
    (runTicks ticks s0).currentEmotion ∈ emotionLabels ∧
    ((runTicks ticks s0).emotionConfidence = s0.emotionConfidence ∨
      (70 ≤ (runTicks ticks s0).emotionConfidence ∧
        (runTicks ticks s0).emotionConfidence ≤ 95)) := by
  induction ticks using List.reverseRecOn with
  | nil => exact ⟨hs0, Or.inl rfl⟩
  | append_singleton ticks w ih =>
    have ih := ih (fun t ht => hticks t (List.mem_append_left _ ht))
    have hw : ConfidenceDrawInRange w := hticks w (by simp)
    have hr := getStableEmotionAnalysis_in_range w (runTicks ticks s0) ih.1 hw
    rw [runTicks_append]
    rcases analyzeEmotion_publishes w (runTicks ticks s0) with h | h
    · rw [h.1, h.2]
      exact ih
    · rw [h.1, h.2]
      exact ⟨hr.1, Or.inr hr.2⟩

theorem litWorld_draws (k l c : ℚ) (h0 : 0 ≤ c) (h1 : c < 1) :
    ConfidenceDrawInRange (litWorld k l c) := ⟨h0, h1⟩

/-- C19: starting from a state whose label is 'neutral', after any sequence of
emotion-analysis ticks and for all draws of [0,1), the record that `getStableEmotionAnalysis`
returns has a label of the nine-value enumeration and an integer confidence with
70 <= confidence <= 95; a tick publishes either nothing or exactly that record, so the
published label is always in the enumeration and the published confidence is either the one the
session started with (no record published yet) or within 70..95. -/
theorem emotion_state_invariant (ticks : List World) (w : World) (s0 : State)
    (hs0 : s0.currentEmotion = "neutral".toList)
    (hticks : ∀ t ∈ ticks, ConfidenceDrawInRange t) (hw : ConfidenceDrawInRange w) :
    EmotionInRange (getStableEmotionAnalysis w (runTicks ticks s0)).1
        (getStableEmotionAnalysis w (runTicks ticks s0)).2 ∧
    (((analyzeEmotion w (runTicks ticks s0)).1.currentEmotion =
          (runTicks ticks s0).currentEmotion ∧
        (analyzeEmotion w (runTicks ticks s0)).1.emotionConfidence =
          (runTicks ticks s0).emotionConfidence) ∨
      ((analyzeEmotion w (runTicks ticks s0)).1.currentEmotion =
          (getStableEmotionAnalysis w (runTicks ticks s0)).1 ∧
        (analyzeEmotion w (runTicks ticks s0)).1.emotionConfidence =
          (getStableEmotionAnalysis w (runTicks ticks s0)).2)) ∧
    (runTicks ticks s0).currentEmotion ∈ emotionLabels ∧
    ((runTicks ticks s0).emotionConfidence = s0.emotionConfidence ∨
      EmotionInRange (runTicks ticks s0).currentEmotion (runTicks ticks s0).emotionConfidence) := by
  have hinv := runTicks_invariant ticks s0 (by rw [hs0]; decide) hticks
  refine ⟨getStableEmotionAnalysis_in_range w _ hinv.1 hw, analyzeEmotion_publishes w _,
    hinv.1, ?_⟩
  rcases hinv.2 with h | h
  · exact Or.inl h
  · exact Or.inr ⟨hinv.1, h⟩

theorem emotion_state_invariant_example :
    EmotionInRange
      (getStableEmotionAnalysis (litWorld (1 / 2) 0 (1 / 2))
        (runTicks [litWorld (1 / 4) (1 / 2) (1 / 5), litWorld (1 / 2) 0 (4 / 5)] watchingState)).1
      (getStableEmotionAnalysis (litWorld (1 / 2) 0 (1 / 2))
        (runTicks [litWorld (1 / 4) (1 / 2) (1 / 5), litWorld (1 / 2) 0 (4 / 5)] watchingState)).2 ∧
    (runTicks [litWorld (1 / 4) (1 / 2) (1 / 5), litWorld (1 / 2) 0 (4 / 5)]
      watchingState).currentEmotion ∈ emotionLabels := by
  have h := emotion_state_invariant
    [litWorld (1 / 4) (1 / 2) (1 / 5), litWorld (1 / 2) 0 (4 / 5)] (litWorld (1 / 2) 0 (1 / 2))
    watchingState rfl
    (by
      intro t ht
      simp only [List.mem_cons, List.mem_singleton, List.not_mem_nil, or_false] at ht
      rcases ht with ht | ht
      · rw [ht]
        exact litWorld_draws _ _ _ (by norm_num) (by norm_num)
      · rw [ht]
        exact litWorld_draws _ _ _ (by norm_num) (by norm_num))
    (litWorld_draws _ _ _ (by norm_num) (by norm_num))
  exact ⟨h.1, h.2.2.1⟩

/-! ## Face detection by mean brightness -/

theorem meanBrightness_eq (pixels : List (Nat × Nat × Nat × Nat)) :
    meanBrightness pixels = (channelSum pixels : ℚ) / 3 / (pixels.length : ℚ) := by
  unfold meanBrightness
  congr 1
  induction pixels with
  | nil => simp [channelSum]
  | cons p rest ih =>
    obtain ⟨r, g, b, a⟩ := p
    simp only [List.map_cons, List.sum_cons, ih, channelSum, Nat.cast_add]
    ring

theorem pixel_sum_exact (r g b : ℕ) (hr : r ≤ 255) (hg : g ≤ 255) (hb : b ≤ 255) :
    toDouble (toDouble ((r : ℚ) + g) + b) = ((r + g + b : ℕ) : ℚ) := by
  have h1 : (r : ℚ) + g = ((r + g : ℕ) : ℚ) := by push_cast; rfl
  have h2 : ((r + g : ℕ) : ℚ) + b = ((r + g + b : ℕ) : ℚ) := by push_cast; rfl
  rw [h1, toDouble_natCast (r + g) (by omega), h2, toDouble_natCast (r + g + b) (by omega)]

theorem brightnessLoop_pixel (r g b a : ℕ) (rest : List Nat) (t : ℚ) (n : ℕ)
    (hr : r ≤ 255) (hg : g ≤ 255) (hb : b ≤ 255) :
    brightnessLoop (r :: g :: b :: a :: rest) t n =
      brightnessLoop rest (toDouble (t + toDouble (((r + g + b : ℕ) : ℚ) / 3))) (n + 1) := by
  rw [brightnessLoop]
  simp only [pixel_sum_exact r g b hr hg hb]

theorem brightness_bounds (n : ℕ) (hn : n ≤ 765) :
    0 ≤ toDouble ((n : ℚ) / 3) ∧ toDouble ((n : ℚ) / 3) ≤ 255 ∧
      |toDouble ((n : ℚ) / 3) - (n : ℚ) / 3| ≤ 2 ^ (-46 : ℤ) := by
  have hn' : (n : ℚ) ≤ 765 := by exact_mod_cast hn
  have hn0 : (0 : ℚ) ≤ (n : ℚ) := Nat.cast_nonneg n
  have h0 : (0 : ℚ) ≤ (n : ℚ) / 3 := by positivity
  have h255 : (n : ℚ) / 3 ≤ 255 := by linarith
  have hd : IsDouble 255 := by
    have := isDouble_natCast 255 (by norm_num)
    simpa using this
  refine ⟨toDouble_nonneg _ h0, toDouble_le_of_le _ _ h0 hd h255, ?_⟩
  have := toDouble_error ((n : ℚ) / 3) 7 h0 (by norm_num; linarith) (by norm_num)
  simpa using this

theorem brightnessLoop_error (pixels : List (Nat × Nat × Nat × Nat))
    (hbytes : ChannelsAreBytes pixels) :
    ∀ (t e : ℚ) (n : ℕ), n + pixels.length ≤ 2 ^ 21 → 0 ≤ t → t ≤ 255 * (n : ℚ) →
      |t - e| ≤ (n : ℚ) * (2 ^ (-25 : ℤ) + 2 ^ (-46 : ℤ)) →
      (brightnessLoop (rgbaBytes pixels) t n).2 = n + pixels.length ∧
      0 ≤ (brightnessLoop (rgbaBytes pixels) t n).1 ∧
      (brightnessLoop (rgbaBytes pixels) t n).1 ≤ 255 * ((n + pixels.length : ℕ) : ℚ) ∧
      |(brightnessLoop (rgbaBytes pixels) t n).1 - (e + (channelSum pixels : ℚ) / 3)| ≤
        ((n + pixels.length : ℕ) : ℚ) * (2 ^ (-25 : ℤ) + 2 ^ (-46 : ℤ)) := by
  induction pixels with
  | nil =>
    intro t e n _ h0 h255 herr
    simp only [rgbaBytes, brightnessLoop, channelSum, List.length_nil, Nat.add_zero,
      Nat.cast_zero, zero_div, add_zero]
    exact ⟨trivial, h0, h255, herr⟩
  | cons p rest ih =>
    obtain ⟨r, g, b, a⟩ := p
    intro t e n hsize h0 h255 herr
    have hr : r ≤ 255 := (hbytes (r, g, b, a) (List.mem_cons_self _ _)).1
    have hg : g ≤ 255 := (hbytes (r, g, b, a) (List.mem_cons_self _ _)).2.1
    have hb : b ≤ 255 := (hbytes (r, g, b, a) (List.mem_cons_self _ _)).2.2
    have hrest : ChannelsAreBytes rest := fun q hq => hbytes q (List.mem_cons_of_mem _ hq)
    have hlen : (((r, g, b, a) :: rest).length) = rest.length + 1 := rfl
    rw [hlen] at hsize
    have hs : r + g + b ≤ 765 := by omega
    have hloop : brightnessLoop (rgbaBytes ((r, g, b, a) :: rest)) t n =
        brightnessLoop (rgbaBytes rest)
          (toDouble (t + toDouble (((r + g + b : ℕ) : ℚ) / 3))) (n + 1) := by
      show brightnessLoop (r :: g :: b :: a :: rgbaBytes rest) t n = _
      exact brightnessLoop_pixel r g b a _ t n hr hg hb
    have hch : (channelSum ((r, g, b, a) :: rest) : ℚ) / 3 =
        ((r + g + b : ℕ) : ℚ) / 3 + (channelSum rest : ℚ) / 3 := by
      show ((r + g + b + channelSum rest : ℕ) : ℚ) / 3 = _
      push_cast
      ring
    obtain ⟨hb0, hb255, hberr⟩ := brightness_bounds (r + g + b) hs
    rw [hloop, hlen, hch]
    generalize ((r + g + b : ℕ) : ℚ) / 3 = sq at hb0 hb255 hberr ⊢
    generalize toDouble sq = br at hb0 hb255 hberr ⊢
    have hn21 : (n : ℚ) + 1 ≤ 2097152 := by
      have : n + 1 ≤ 2 ^ 21 := by omega
      have h' : ((n + 1 : ℕ) : ℚ) ≤ ((2 ^ 21 : ℕ) : ℚ) := by exact_mod_cast this
      push_cast at h'
      linarith
    have hsum0 : 0 ≤ t + br := by linarith
    have hcast : ((255 * (n + 1) : ℕ) : ℚ) = 255 * ((n : ℚ) + 1) := by push_cast; ring
    have hsum255 : t + br ≤ ((255 * (n + 1) : ℕ) : ℚ) := by
      rw [hcast]
      linarith
    have hd : IsDouble ((255 * (n + 1) : ℕ) : ℚ) := isDouble_natCast _ (by omega)
    have ht0 := toDouble_nonneg _ hsum0
    have ht255 := toDouble_le_of_le _ _ hsum0 hd hsum255
    rw [hcast] at hsum255 ht255
    have hterr := toDouble_error (t + br) 28 hsum0 (by norm_num; linarith) (by norm_num)
    have hn1 : ((n + 1 : ℕ) : ℚ) = (n : ℚ) + 1 := by push_cast; rfl
    have hstep : |toDouble (t + br) - (e + sq)| ≤
        ((n + 1 : ℕ) : ℚ) * (2 ^ (-25 : ℤ) + 2 ^ (-46 : ℤ)) := by
      rw [hn1]
      rw [abs_le] at herr hberr hterr ⊢
      norm_num at herr hberr hterr ⊢
      constructor <;> linarith
    have h := ih hrest (toDouble (t + br)) (e + sq) (n + 1) (by omega) ht0
      (by rw [hn1]; exact ht255) hstep
    have hcount : n + 1 + rest.length = n + (rest.length + 1) := by omega
    have hassoc : e + (sq + (channelSum rest : ℚ) / 3) = e + sq + (channelSum rest : ℚ) / 3 := by
      ring
    rw [hcount] at h
    rw [hassoc]
    exact h

theorem averageBrightness_error (pixels : List (Nat × Nat × Nat × Nat))
    (hne : pixels ≠ []) (hbytes : ChannelsAreBytes pixels) (hsize : pixels.length ≤ 2 ^ 21) :
    |averageBrightness (rgbaBytes pixels) - meanBrightness pixels| ≤ 2 ^ (-24 : ℤ) := by
  obtain ⟨hcount, h0, h255, herr⟩ := brightnessLoop_error pixels hbytes 0 0 0 (by omega)
    le_rfl (by norm_num) (by norm_num)
  have hpos : 0 < pixels.length := List.length_pos.mpr hne
  have hN : (0 : ℚ) < (pixels.length : ℚ) := by exact_mod_cast hpos
  rw [Nat.zero_add] at hcount h255 herr
  rw [zero_add] at herr
  unfold averageBrightness
  rw [hcount, meanBrightness_eq]
  set T := (brightnessLoop (rgbaBytes pixels) 0 0).1 with hT
  have hq0 : 0 ≤ T / (pixels.length : ℚ) := div_nonneg h0 (le_of_lt hN)
  have hq255 : T / (pixels.length : ℚ) ≤ 255 := by
    rw [div_le_iff₀ hN]
    exact h255
  have hround := toDouble_error (T / (pixels.length : ℚ)) 7 hq0 (by norm_num; linarith)
    (by norm_num)
  have hdiv : |T / (pixels.length : ℚ) - (channelSum pixels : ℚ) / 3 / (pixels.length : ℚ)| ≤
      2 ^ (-25 : ℤ) + 2 ^ (-46 : ℤ) := by
    rw [← sub_div, abs_div, abs_of_pos hN, div_le_iff₀ hN, mul_comm]
    exact herr
  rw [abs_le] at hround hdiv ⊢
  norm_num at hround hdiv ⊢
  constructor <;> linarith

theorem simulateFaceDetection_iff (imageData : List Nat) (width height : Nat) :
    simulateFaceDetection imageData width height = true ↔
      50 < averageBrightness imageData ∧ averageBrightness imageData < 200 := by
  unfold simulateFaceDetection
  simp only [Bool.and_eq_true, decide_eq_true_eq, gt_iff_lt]

theorem mean_times_count (pixels : List (Nat × Nat × Nat × Nat)) (hne : pixels ≠ []) :
    meanBrightness pixels * (3 * (pixels.length : ℚ)) = (channelSum pixels : ℚ) := by
  have hpos : 0 < pixels.length := List.length_pos.mpr hne
  have hN : (pixels.length : ℚ) ≠ 0 := by exact_mod_cast (Nat.pos_iff_ne_zero.mp hpos)
  rw [meanBrightness_eq]
  field_simp

theorem simulateFaceDetection_by_sum (pixels : List (Nat × Nat × Nat × Nat))
    (width height : Nat) (hne : pixels ≠ []) (hbytes : ChannelsAreBytes pixels)
    (hsize : pixels.length ≤ 2 ^ 21) :
    (150 * pixels.length < channelSum pixels → channelSum pixels < 600 * pixels.length →
      simulateFaceDetection (rgbaBytes pixels) width height = true) ∧
    (channelSum pixels < 150 * pixels.length ∨ 600 * pixels.length < channelSum pixels →
      simulateFaceDetection (rgbaBytes pixels) width height = false) := by
  have herr := averageBrightness_error pixels hne hbytes hsize
  have hmean := mean_times_count pixels hne
  have hpos : 0 < pixels.length := List.length_pos.mpr hne
  have hN : (0 : ℚ) < (pixels.length : ℚ) := by exact_mod_cast hpos
  have hN21 : (pixels.length : ℚ) ≤ 2097152 := by
    have h' : ((pixels.length : ℕ) : ℚ) ≤ ((2 ^ 21 : ℕ) : ℚ) := by exact_mod_cast hsize
    push_cast at h'
    linarith
  rw [abs_le] at herr
  norm_num at herr
  rw [← Bool.not_eq_true, simulateFaceDetection_iff]
  generalize averageBrightness (rgbaBytes pixels) = A at herr ⊢
  generalize meanBrightness pixels = M at herr hmean
  have h3N : (0 : ℚ) < 3 * (pixels.length : ℚ) := by linarith
  constructor
  · intro hlo hhi
    have hlo' : (150 : ℚ) * pixels.length + 1 ≤ channelSum pixels := by exact_mod_cast hlo
    have hhi' : (channelSum pixels : ℚ) + 1 ≤ 600 * pixels.length := by exact_mod_cast hhi
    constructor
    · by_contra hA
      have hM : M ≤ 50 + 1 / 8388608 := by linarith [not_lt.mp hA]
      have := mul_le_mul_of_nonneg_right hM (le_of_lt h3N)
      nlinarith
    · by_contra hA
      have hM : 200 - 1 / 8388608 ≤ M := by linarith [not_lt.mp hA]
      have := mul_le_mul_of_nonneg_right hM (le_of_lt h3N)
      nlinarith
  · intro h
    rintro ⟨hA1, hA2⟩
    rcases h with h | h
    · have h' : (channelSum pixels : ℚ) + 1 ≤ 150 * pixels.length := by exact_mod_cast h
      have hM : 50 - 1 / 8388608 ≤ M := by linarith
      have := mul_le_mul_of_nonneg_right hM (le_of_lt h3N)
      nlinarith
    · have h' : (600 : ℚ) * pixels.length + 1 ≤ channelSum pixels := by exact_mod_cast h
      have hM : M ≤ 200 + 1 / 8388608 := by linarith
      have := mul_le_mul_of_nonneg_right hM (le_of_lt h3N)
      nlinarith

theorem brightnessLoop_withAlpha (a : Nat) (pixels : List (Nat × Nat × Nat × Nat)) :
    ∀ (t : ℚ) (n : ℕ),
      brightnessLoop (rgbaBytes (withAlpha a pixels)) t n =
        brightnessLoop (rgbaBytes pixels) t n := by
  induction pixels with
  | nil => intro t n; rfl
  | cons p rest ih =>
    obtain ⟨r, g, b, a'⟩ := p
    intro t n
    show brightnessLoop (r :: g :: b :: a :: rgbaBytes (withAlpha a rest)) t n =
      brightnessLoop (r :: g :: b :: a' :: rgbaBytes rest) t n
    rw [brightnessLoop, brightnessLoop]
    exact ih _ _

theorem brightnessLoop_exact (pixels : List (Nat × Nat × Nat × Nat))
    (hbytes : ChannelsAreBytes pixels)
    (hthree : ∀ p ∈ pixels, 3 ∣ p.1 + p.2.1 + p.2.2.1) :
    ∀ (T n : ℕ), T + 255 * pixels.length < 2 ^ 53 →
      brightnessLoop (rgbaBytes pixels) (T : ℚ) n =
        (((T + channelSum pixels / 3 : ℕ) : ℚ), n + pixels.length) := by
  induction pixels with
  | nil =>
    intro T n _
    simp [rgbaBytes, brightnessLoop, channelSum]
  | cons p rest ih =>
    obtain ⟨r, g, b, a⟩ := p
    intro T n hsize
    have hr : r ≤ 255 := (hbytes (r, g, b, a) (List.mem_cons_self _ _)).1
    have hg : g ≤ 255 := (hbytes (r, g, b, a) (List.mem_cons_self _ _)).2.1
    have hb : b ≤ 255 := (hbytes (r, g, b, a) (List.mem_cons_self _ _)).2.2
    have hrest : ChannelsAreBytes rest := fun q hq => hbytes q (List.mem_cons_of_mem _ hq)
    have hthree' : ∀ q ∈ rest, 3 ∣ q.1 + q.2.1 + q.2.2.1 :=
      fun q hq => hthree q (List.mem_cons_of_mem _ hq)
    obtain ⟨q, hq⟩ : 3 ∣ r + g + b := hthree (r, g, b, a) (List.mem_cons_self _ _)
    have hlen : (((r, g, b, a) :: rest).length) = rest.length + 1 := rfl
    rw [hlen] at hsize ⊢
    have hrestsum : 3 ∣ channelSum rest ∨ True := Or.inr trivial
    show brightnessLoop (r :: g :: b :: a :: rgbaBytes rest) (T : ℚ) n = _
    rw [brightnessLoop_pixel r g b a _ _ n hr hg hb, hq]
    have hdiv : ((3 * q : ℕ) : ℚ) / 3 = ((q : ℕ) : ℚ) := by push_cast; field_simp
    have hsum : (T : ℚ) + ((q : ℕ) : ℚ) = ((T + q : ℕ) : ℚ) := by push_cast; rfl
    rw [hdiv, toDouble_natCast q (by omega), hsum, toDouble_natCast (T + q) (by omega),
      ih hrest hthree' (T + q) (n + 1) (by omega)]
    have hch : channelSum ((r, g, b, a) :: rest) = 3 * q + channelSum rest := by
      show r + g + b + channelSum rest = _
      rw [hq]
    rw [hch]
    refine Prod.ext ?_ ?_
    · show ((T + q + channelSum rest / 3 : ℕ) : ℚ) = ((T + (3 * q + channelSum rest) / 3 : ℕ) : ℚ)
      congr 1
      omega
    · show n + 1 + rest.length = n + (rest.length + 1)
      omega

theorem channelSum_le (pixels : List (Nat × Nat × Nat × Nat)) (hbytes : ChannelsAreBytes pixels) :
    channelSum pixels ≤ 765 * pixels.length := by
  induction pixels with
  | nil => exact le_rfl
  | cons p rest ih =>
    obtain ⟨r, g, b, a⟩ := p
    have hr : r ≤ 255 := (hbytes (r, g, b, a) (List.mem_cons_self _ _)).1
    have hg : g ≤ 255 := (hbytes (r, g, b, a) (List.mem_cons_self _ _)).2.1
    have hb : b ≤ 255 := (hbytes (r, g, b, a) (List.mem_cons_self _ _)).2.2
    have hrest := ih (fun q hq => hbytes q (List.mem_cons_of_mem _ hq))
    show r + g + b + channelSum rest ≤ 765 * (rest.length + 1)
    omega

theorem averageBrightness_exact (pixels : List (Nat × Nat × Nat × Nat))
    (hne : pixels ≠ []) (hbytes : ChannelsAreBytes pixels) (hsize : pixels.length ≤ 2 ^ 21)
    (hthree : ∀ p ∈ pixels, 3 ∣ p.1 + p.2.1 + p.2.2.1) (k : ℕ) (hk : k < 2 ^ 53)
    (hsum : channelSum pixels = 3 * k * pixels.length) :
    averageBrightness (rgbaBytes pixels) = k := by
  have hpos : 0 < pixels.length := List.length_pos.mpr hne
  have hN : (pixels.length : ℚ) ≠ 0 := by exact_mod_cast (Nat.pos_iff_ne_zero.mp hpos)
  have h := brightnessLoop_exact pixels hbytes hthree 0 0 (by omega)
  unfold averageBrightness
  rw [show ((0 : ℚ)) = ((0 : ℕ) : ℚ) by norm_num, h, hsum]
  have hq : (0 + 3 * k * pixels.length / 3 : ℕ) = k * pixels.length := by
    rw [Nat.zero_add, Nat.mul_assoc, Nat.mul_div_cancel_left _ (by norm_num : 0 < 3)]
  simp only [hq, Nat.zero_add]
  rw [Nat.cast_mul, mul_div_assoc, div_self hN, mul_one]
  exact toDouble_natCast k hk

theorem mean_bounds_iff (pixels : List (Nat × Nat × Nat × Nat)) (hne : pixels ≠ []) :
    (50 < meanBrightness pixels ↔ 150 * pixels.length < channelSum pixels) ∧
    (meanBrightness pixels < 200 ↔ channelSum pixels < 600 * pixels.length) := by
  have hpos : 0 < pixels.length := List.length_pos.mpr hne
  have hq : (0 : ℚ) < (pixels.length : ℚ) := by exact_mod_cast hpos
  rw [meanBrightness_eq]
  constructor
  · rw [lt_div_iff₀ hq, lt_div_iff₀ (by norm_num : (0 : ℚ) < 3)]
    constructor
    · intro h
      have : ((150 * pixels.length : Nat) : ℚ) < (channelSum pixels : ℚ) := by
        push_cast
        linarith
      exact_mod_cast this
    · intro h
      have : ((150 * pixels.length : Nat) : ℚ) < (channelSum pixels : ℚ) := by exact_mod_cast h
      push_cast at this
      linarith
  · rw [div_lt_iff₀ hq, div_lt_iff₀ (by norm_num : (0 : ℚ) < 3)]
    constructor
    · intro h
      have : (channelSum pixels : ℚ) < ((600 * pixels.length : Nat) : ℚ) := by
        push_cast
        linarith
      exact_mod_cast this
    · intro h
      have : (channelSum pixels : ℚ) < ((600 * pixels.length : Nat) : ℚ) := by exact_mod_cast h
      push_cast at this
      linarith

theorem averageBrightness_low_frame :
    averageBrightness [40, 40, 32, 255, 69, 69, 69, 255, 42, 41, 41, 255, 53, 52, 52, 255] = 7036874417766401 * 2 ^ (-47 : ℤ) := by
  have hb1 : toDouble (((40 + 40 + 32 : ℕ) : ℚ) / 3) = 5254199565265579 * 2 ^ (-47 : ℤ) := by
    have h := toDouble_eval (((40 + 40 + 32 : ℕ) : ℚ) / 3) 5 5254199565265579
      (by norm_num) (by norm_num) (by norm_num) (by norm_num) (by norm_num [abs_lt])
    rw [h]
    norm_num
  have ht1 : toDouble (0 + 5254199565265579 * 2 ^ (-47 : ℤ)) = 5254199565265579 * 2 ^ (-47 : ℤ) := by
    have h := toDouble_eval (0 + 5254199565265579 * 2 ^ (-47 : ℤ)) 5 5254199565265579
      (by norm_num) (by norm_num) (by norm_num) (by norm_num) (by norm_num [abs_lt])
    rw [h]
    norm_num
  have hb2 : toDouble (((69 + 69 + 69 : ℕ) : ℚ) / 3) = 4855443348258816 * 2 ^ (-46 : ℤ) := by
    have h := toDouble_eval (((69 + 69 + 69 : ℕ) : ℚ) / 3) 6 4855443348258816
      (by norm_num) (by norm_num) (by norm_num) (by norm_num) (by norm_num [abs_lt])
    rw [h]
    norm_num
  have ht2 : toDouble (5254199565265579 * 2 ^ (-47 : ℤ) + 4855443348258816 * 2 ^ (-46 : ℤ)) = 7482543130891606 * 2 ^ (-46 : ℤ) := by
    have h := toDouble_eval_tie (5254199565265579 * 2 ^ (-47 : ℤ) + 4855443348258816 * 2 ^ (-46 : ℤ)) 6 7482543130891606
      (by norm_num) (by norm_num) (by norm_num) (by norm_num) (by norm_num)
      (by decide)
    rw [h]
    norm_num
  have hb3 : toDouble (((42 + 41 + 41 : ℕ) : ℚ) / 3) = 5817149518686891 * 2 ^ (-47 : ℤ) := by
    have h := toDouble_eval (((42 + 41 + 41 : ℕ) : ℚ) / 3) 5 5817149518686891
      (by norm_num) (by norm_num) (by norm_num) (by norm_num) (by norm_num [abs_lt])
    rw [h]
    norm_num
  have ht3 : toDouble (7482543130891606 * 2 ^ (-46 : ℤ) + 5817149518686891 * 2 ^ (-47 : ℤ)) = 5195558945117526 * 2 ^ (-45 : ℤ) := by
    have h := toDouble_eval (7482543130891606 * 2 ^ (-46 : ℤ) + 5817149518686891 * 2 ^ (-47 : ℤ)) 7 5195558945117526
      (by norm_num) (by norm_num) (by norm_num) (by norm_num) (by norm_num [abs_lt])
    rw [h]
    norm_num
  have hb4 : toDouble (((53 + 52 + 52 : ℕ) : ℚ) / 3) = 7365261890595499 * 2 ^ (-47 : ℤ) := by
    have h := toDouble_eval (((53 + 52 + 52 : ℕ) : ℚ) / 3) 5 7365261890595499
      (by norm_num) (by norm_num) (by norm_num) (by norm_num) (by norm_num [abs_lt])
    rw [h]
    norm_num
  have ht4 : toDouble (5195558945117526 * 2 ^ (-45 : ℤ) + 7365261890595499 * 2 ^ (-47 : ℤ)) = 7036874417766401 * 2 ^ (-45 : ℤ) := by
    have h := toDouble_eval (5195558945117526 * 2 ^ (-45 : ℤ) + 7365261890595499 * 2 ^ (-47 : ℤ)) 7 7036874417766401
      (by norm_num) (by norm_num) (by norm_num) (by norm_num) (by norm_num [abs_lt])
    rw [h]
    norm_num
  have hm : toDouble (7036874417766401 * 2 ^ (-45 : ℤ) / ((4 : ℕ) : ℚ)) = 7036874417766401 * 2 ^ (-47 : ℤ) := by
    have h := toDouble_eval (7036874417766401 * 2 ^ (-45 : ℤ) / ((4 : ℕ) : ℚ)) 5 7036874417766401
      (by norm_num) (by norm_num) (by norm_num) (by norm_num) (by norm_num [abs_lt])
    rw [h]
    norm_num
  unfold averageBrightness
  rw [brightnessLoop_pixel 40 40 32 255 _ _ _ (by norm_num) (by norm_num) (by norm_num), hb1, ht1,
    brightnessLoop_pixel 69 69 69 255 _ _ _ (by norm_num) (by norm_num) (by norm_num), hb2, ht2,
    brightnessLoop_pixel 42 41 41 255 _ _ _ (by norm_num) (by norm_num) (by norm_num), hb3, ht3,
    brightnessLoop_pixel 53 52 52 255 _ _ _ (by norm_num) (by norm_num) (by norm_num), hb4, ht4]
  simp only [brightnessLoop, Nat.zero_add]
  exact hm

theorem averageBrightness_high_frame :
    averageBrightness [200, 200, 100, 255, 226, 226, 226, 255, 205, 205, 204, 255, 203, 203, 202, 255] = 7036874417766399 * 2 ^ (-45 : ℤ) := by
  have hb1 : toDouble (((200 + 200 + 100 : ℕ) : ℚ) / 3) = 5864062014805333 * 2 ^ (-45 : ℤ) := by
    have h := toDouble_eval (((200 + 200 + 100 : ℕ) : ℚ) / 3) 7 5864062014805333
      (by norm_num) (by norm_num) (by norm_num) (by norm_num) (by norm_num [abs_lt])
    rw [h]
    norm_num
  have ht1 : toDouble (0 + 5864062014805333 * 2 ^ (-45 : ℤ)) = 5864062014805333 * 2 ^ (-45 : ℤ) := by
    have h := toDouble_eval (0 + 5864062014805333 * 2 ^ (-45 : ℤ)) 7 5864062014805333
      (by norm_num) (by norm_num) (by norm_num) (by norm_num) (by norm_num [abs_lt])
    rw [h]
    norm_num
  have hb2 : toDouble (((226 + 226 + 226 : ℕ) : ℚ) / 3) = 7951668092076032 * 2 ^ (-45 : ℤ) := by
    have h := toDouble_eval (((226 + 226 + 226 : ℕ) : ℚ) / 3) 7 7951668092076032
      (by norm_num) (by norm_num) (by norm_num) (by norm_num) (by norm_num [abs_lt])
    rw [h]
    norm_num
  have ht2 : toDouble (5864062014805333 * 2 ^ (-45 : ℤ) + 7951668092076032 * 2 ^ (-45 : ℤ)) = 6907865053440682 * 2 ^ (-44 : ℤ) := by
    have h := toDouble_eval_tie (5864062014805333 * 2 ^ (-45 : ℤ) + 7951668092076032 * 2 ^ (-45 : ℤ)) 8 6907865053440682
      (by norm_num) (by norm_num) (by norm_num) (by norm_num) (by norm_num)
      (by decide)
    rw [h]
    norm_num
  have hb3 : toDouble (((205 + 205 + 204 : ℕ) : ℚ) / 3) = 7201068154180949 * 2 ^ (-45 : ℤ) := by
    have h := toDouble_eval (((205 + 205 + 204 : ℕ) : ℚ) / 3) 7 7201068154180949
      (by norm_num) (by norm_num) (by norm_num) (by norm_num) (by norm_num [abs_lt])
    rw [h]
    norm_num
  have ht3 : toDouble (6907865053440682 * 2 ^ (-44 : ℤ) + 7201068154180949 * 2 ^ (-45 : ℤ)) = 5254199565265578 * 2 ^ (-43 : ℤ) := by
    have h := toDouble_eval (6907865053440682 * 2 ^ (-44 : ℤ) + 7201068154180949 * 2 ^ (-45 : ℤ)) 9 5254199565265578
      (by norm_num) (by norm_num) (by norm_num) (by norm_num) (by norm_num [abs_lt])
    rw [h]
    norm_num
  have hb4 : toDouble (((203 + 203 + 202 : ℕ) : ℚ) / 3) = 7130699410003285 * 2 ^ (-45 : ℤ) := by
    have h := toDouble_eval (((203 + 203 + 202 : ℕ) : ℚ) / 3) 7 7130699410003285
      (by norm_num) (by norm_num) (by norm_num) (by norm_num) (by norm_num [abs_lt])
    rw [h]
    norm_num
  have ht4 : toDouble (5254199565265578 * 2 ^ (-43 : ℤ) + 7130699410003285 * 2 ^ (-45 : ℤ)) = 7036874417766399 * 2 ^ (-43 : ℤ) := by
    have h := toDouble_eval (5254199565265578 * 2 ^ (-43 : ℤ) + 7130699410003285 * 2 ^ (-45 : ℤ)) 9 7036874417766399
      (by norm_num) (by norm_num) (by norm_num) (by norm_num) (by norm_num [abs_lt])
    rw [h]
    norm_num
  have hm : toDouble (7036874417766399 * 2 ^ (-43 : ℤ) / ((4 : ℕ) : ℚ)) = 7036874417766399 * 2 ^ (-45 : ℤ) := by
    have h := toDouble_eval (7036874417766399 * 2 ^ (-43 : ℤ) / ((4 : ℕ) : ℚ)) 7 7036874417766399
      (by norm_num) (by norm_num) (by norm_num) (by norm_num) (by norm_num [abs_lt])
    rw [h]
    norm_num
  unfold averageBrightness
  rw [brightnessLoop_pixel 200 200 100 255 _ _ _ (by norm_num) (by norm_num) (by norm_num), hb1, ht1,
    brightnessLoop_pixel 226 226 226 255 _ _ _ (by norm_num) (by norm_num) (by norm_num), hb2, ht2,
    brightnessLoop_pixel 205 205 204 255 _ _ _ (by norm_num) (by norm_num) (by norm_num), hb3, ht3,
    brightnessLoop_pixel 203 203 202 255 _ _ _ (by norm_num) (by norm_num) (by norm_num), hb4, ht4]
  simp only [brightnessLoop, Nat.zero_add]
  exact hm

/-- C20 (amended): `simulateFaceDetection` compares the mean of (r+g+b)/3 as the script
computes it, every quotient and every partial sum rounded to a Number value.  For every
non-empty RGBA frame of N pixels with channel values in 0..255 it returns true if and only if
that computed mean is strictly greater than 50 and strictly less than 200, and the alpha bytes
and the width and height arguments do not affect the result.  For a frame of at most 2^21
pixels the computed mean differs from the exact mean by at most 2^-24, so the result is true
whenever 150*N < sum of (r+g+b) < 600*N (the exact mean is strictly between 50 and 200) and
false whenever the sum is below 150*N or above 600*N; at the two boundary sums the rounding
decides, and a frame in which r+g+b is a multiple of 3 in every pixel is reported as no
face. -/
theorem simulateFaceDetection_by_channel_sum (pixels : List (Nat × Nat × Nat × Nat))
    (width height : Nat) (hne : pixels ≠ []) (hbytes : ChannelsAreBytes pixels) :
    (simulateFaceDetection (rgbaBytes pixels) width height = true ↔
      50 < averageBrightness (rgbaBytes pixels) ∧ averageBrightness (rgbaBytes pixels) < 200) ∧
    (∀ a width' height' : Nat,
      simulateFaceDetection (rgbaBytes (withAlpha a pixels)) width' height' =
        simulateFaceDetection (rgbaBytes pixels) width height) ∧
    ((50 < meanBrightness pixels ↔ 150 * pixels.length < channelSum pixels) ∧
      (meanBrightness pixels < 200 ↔ channelSum pixels < 600 * pixels.length)) ∧
    (pixels.length ≤ 2 ^ 21 →
      |averageBrightness (rgbaBytes pixels) - meanBrightness pixels| ≤ 2 ^ (-24 : ℤ) ∧
      (150 * pixels.length < channelSum pixels → channelSum pixels < 600 * pixels.length →
        simulateFaceDetection (rgbaBytes pixels) width height = true) ∧
      (channelSum pixels < 150 * pixels.length ∨ 600 * pixels.length < channelSum pixels →
        simulateFaceDetection (rgbaBytes pixels) width height = false) ∧
      ((∀ p ∈ pixels, 3 ∣ p.1 + p.2.1 + p.2.2.1) →
        channelSum pixels = 150 * pixels.length ∨ channelSum pixels = 600 * pixels.length →
        simulateFaceDetection (rgbaBytes pixels) width height = false)) := by
  refine ⟨simulateFaceDetection_iff _ _ _, ?_, mean_bounds_iff pixels hne, ?_⟩
  · intro a width' height'
    unfold simulateFaceDetection averageBrightness
    rw [brightnessLoop_withAlpha]
  · intro hsize
    have hsum := simulateFaceDetection_by_sum pixels width height hne hbytes hsize
    refine ⟨averageBrightness_error pixels hne hbytes hsize, hsum.1, hsum.2, ?_⟩
    intro hthree hboundary
    rw [← Bool.not_eq_true, simulateFaceDetection_iff]
    rcases hboundary with h | h
    · have hA := averageBrightness_exact pixels hne hbytes hsize hthree 50 (by norm_num)
        (by rw [h])
      rw [hA]
      norm_num
    · have hA := averageBrightness_exact pixels hne hbytes hsize hthree 200 (by norm_num)
        (by rw [h])
      rw [hA]
      norm_num

theorem simulateFaceDetection_by_channel_sum_example :
    simulateFaceDetection [100, 100, 100, 255, 120, 110, 100, 0] 2 1 = true ∧
    simulateFaceDetection [10, 20, 30, 255, 60, 50, 40, 255] 2 1 = false ∧
    simulateFaceDetection [40, 50, 60, 255, 60, 50, 40, 255] 2 1 = false ∧
    simulateFaceDetection [200, 200, 200, 255, 250, 200, 150, 255] 1 2 = false := by
  have h1 := simulateFaceDetection_by_channel_sum [(100, 100, 100, 255), (120, 110, 100, 0)]
    2 1 (by decide) (by unfold ChannelsAreBytes; decide)
  have h2 := simulateFaceDetection_by_channel_sum [(10, 20, 30, 255), (60, 50, 40, 255)]
    2 1 (by decide) (by unfold ChannelsAreBytes; decide)
  have h3 := simulateFaceDetection_by_channel_sum [(40, 50, 60, 255), (60, 50, 40, 255)]
    2 1 (by decide) (by unfold ChannelsAreBytes; decide)
  have h4 := simulateFaceDetection_by_channel_sum [(200, 200, 200, 255), (250, 200, 150, 255)]
    1 2 (by decide) (by unfold ChannelsAreBytes; decide)
  exact ⟨(h1.2.2.2 (by norm_num)).2.1 (by decide) (by decide),
    (h2.2.2.2 (by norm_num)).2.2.1 (Or.inl (by decide)),
    (h3.2.2.2 (by norm_num)).2.2.2 (by decide) (Or.inl (by decide)),
    (h4.2.2.2 (by norm_num)).2.2.2 (by decide) (Or.inr (by decide))⟩

theorem simulateFaceDetection_face_at_boundary_mean :
    meanBrightness [(40, 40, 32, 255), (69, 69, 69, 255), (42, 41, 41, 255), (53, 52, 52, 255)] =
      50 ∧
    simulateFaceDetection
      [40, 40, 32, 255, 69, 69, 69, 255, 42, 41, 41, 255, 53, 52, 52, 255] 2 2 = true ∧
    meanBrightness
      [(200, 200, 100, 255), (226, 226, 226, 255), (205, 205, 204, 255), (203, 203, 202, 255)] =
      200 ∧
    simulateFaceDetection
      [200, 200, 100, 255, 226, 226, 226, 255, 205, 205, 204, 255, 203, 203, 202, 255] 2 2 =
      true := by
  refine ⟨?_, ?_, ?_, ?_⟩
  · rw [meanBrightness_eq]
    norm_num [channelSum]
  · rw [simulateFaceDetection_iff, averageBrightness_low_frame]
    norm_num
  · rw [meanBrightness_eq]
    norm_num [channelSum]
  · rw [simulateFaceDetection_iff, averageBrightness_high_frame]
    norm_num

/-! ## A tick that sees no face -/

theorem analyzeEmotion_without_face (w : World) (s : State)
    (hface : simulateFaceDetection w.frame w.videoWidth w.videoHeight = false) :
    (analyzeEmotion w s).1.currentEmotion = s.currentEmotion ∧
    (analyzeEmotion w s).1.emotionConfidence = s.emotionConfidence ∧
    (analyzeEmotion w s).1.emotionDetectionActive = s.emotionDetectionActive := by
  unfold analyzeEmotion
  dsimp only
  simp only [hface, Bool.false_eq_true, if_false, ite_self]
  split_ifs <;> exact ⟨rfl, rfl, rfl⟩

theorem analyzeEmotion_with_face (w : World) (s : State)
    (hactive : s.emotionDetectionActive = true) (hcamera : s.isWebcamActive = true)
    (hwidth : w.videoWidth ≠ 0) (hheight : w.videoHeight ≠ 0)
    (hface : simulateFaceDetection w.frame w.videoWidth w.videoHeight = true) :
    (analyzeEmotion w s).1 =
      { s with
        currentEmotion := (getStableEmotionAnalysis w s).1,
        emotionConfidence := (getStableEmotionAnalysis w s).2,
        emotionAnalysisInterval := true } := by
  unfold analyzeEmotion
  dsimp only
  rw [hface, hactive, hcamera]
  have h1 : (w.videoWidth == 0) = false := by simpa using hwidth
  have h2 : (w.videoHeight == 0) = false := by simpa using hheight
  rw [h1, h2]
  simp only [Bool.not_true, Bool.or_self, Bool.false_eq_true, if_false, if_true]

theorem litWorld_shows_face (k l c : ℚ) :
    simulateFaceDetection (litWorld k l c).frame (litWorld k l c).videoWidth
      (litWorld k l c).videoHeight = true := by
  show simulateFaceDetection (rgbaBytes [(100, 100, 100, 255)]) _ _ = true
  exact (simulateFaceDetection_by_sum [(100, 100, 100, 255)] _ _ (by decide)
    (by unfold ChannelsAreBytes; decide) (by norm_num)).1 (by decide) (by decide)

theorem darkWorld_shows_no_face :
    simulateFaceDetection darkWorld.frame darkWorld.videoWidth darkWorld.videoHeight = false := by
  show simulateFaceDetection (rgbaBytes [(10, 10, 10, 255)]) _ _ = false
  exact (simulateFaceDetection_by_sum [(10, 10, 10, 255)] _ _ (by decide)
    (by unfold ChannelsAreBytes; decide) (by norm_num)).2 (Or.inl (by decide))

theorem happy_selected :
    selectEmotionDouble (1 / 2) (21 / 25) emotions 0 = ("happy".toList, 91) := by
  have he : emotions = ("neutral".toList, 0.4) :: ("happy".toList, 0.25) ::
      [("focused".toList, 0.15), ("calm".toList, 0.1), ("surprised".toList, 0.05),
       ("sad".toList, 0.03), ("angry".toList, 0.02)] := rfl
  have hd1 : IsDouble (3 / 8 : ℚ) := by
    have h := isDouble_dyadic 3 (-3) (by norm_num) (by norm_num)
    norm_num at h
    exact h
  have hd2 : IsDouble (7 / 16 : ℚ) := by
    have h := isDouble_dyadic 7 (-4) (by norm_num) (by norm_num)
    norm_num at h
    exact h
  have hd3 : toDouble 0.25 = 1 / 4 := by
    have h := toDouble_dyadic 1 (-2) (by norm_num) (by norm_num)
    norm_num at h
    rw [show (0.25 : ℚ) = 1 / 4 by norm_num]
    exact h
  have hw1 : 3 / 8 ≤ toDouble 0.4 := le_toDouble_of_le _ _ (by norm_num) hd1 (by norm_num)
  have hw2 : toDouble 0.4 ≤ 7 / 16 := toDouble_le_of_le _ _ (by norm_num) hd2 (by norm_num)
  have hc1 : 3 / 8 ≤ toDouble (0 + toDouble 0.4) :=
    le_toDouble_of_le _ _ (by norm_num) hd1 (by linarith)
  have hc2 : toDouble (0 + toDouble 0.4) ≤ 7 / 16 :=
    toDouble_le_of_le _ _ (by linarith) hd2 (by linarith)
  have hd4 : IsDouble (5 / 8 : ℚ) := by
    have h := isDouble_dyadic 5 (-3) (by norm_num) (by norm_num)
    norm_num at h
    exact h
  have hc3 : 5 / 8 ≤ toDouble (toDouble (0 + toDouble 0.4) + toDouble 0.25) :=
    le_toDouble_of_le _ _ (by norm_num) hd4 (by rw [hd3]; linarith)
  have hconf : ⌊toDouble (70 + toDouble ((21 / 25 : ℚ) * 25))⌋ = 91 := by
    rw [show (21 / 25 : ℚ) * 25 = ((21 : ℕ) : ℚ) by norm_num, toDouble_natCast 21 (by norm_num),
      show (70 : ℚ) + ((21 : ℕ) : ℚ) = ((91 : ℕ) : ℚ) by norm_num,
      toDouble_natCast 91 (by norm_num)]
    norm_num
  rw [he, selectEmotionDouble, if_neg (by linarith), selectEmotionDouble,
    if_pos (by linarith), hconf]

theorem happy_published :
    (analyzeEmotion (litWorld (1 / 4) (1 / 2) (21 / 25)) watchingState).1 =
      { watchingState with currentEmotion := "happy".toList, emotionConfidence := 91 } := by
  rw [analyzeEmotion_with_face _ _ rfl rfl (by decide) (by decide) (litWorld_shows_face _ _ _)]
  have hquarter : (1 / 4 : ℚ) ≤ toDouble 0.3 := by
    rw [toDouble_three_tenths]
    norm_num
  have hsel : getStableEmotionAnalysis (litWorld (1 / 4) (1 / 2) (21 / 25)) watchingState =
      ("happy".toList, 91) := by
    rw [getStableEmotionAnalysis_redrawn _ _ hquarter]
    exact happy_selected
  rw [hsel]
  rfl

/-- C21: a tick that sees no face does not clear the emotion record.  After a tick that
published the label happy with confidence 91, a tick on a frame too dark to pass for a face
leaves `currentEmotion` and `emotionConfidence` as they were, and `getCurrentEmotion` still
reports happy with 91% confidence; in general a no-face tick changes neither variable, so the
emotion query answers as it did before the tick. -/
theorem analyzeEmotion_keeps_record_without_face :
    simulateFaceDetection darkWorld.frame darkWorld.videoWidth darkWorld.videoHeight = false ∧
    (analyzeEmotion (litWorld (1 / 4) (1 / 2) (21 / 25)) watchingState).1.currentEmotion =
      "happy".toList ∧
    (analyzeEmotion (litWorld (1 / 4) (1 / 2) (21 / 25)) watchingState).1.emotionConfidence =
      91 ∧
    (analyzeEmotion darkWorld
      (analyzeEmotion (litWorld (1 / 4) (1 / 2) (21 / 25)) watchingState).1).1.currentEmotion =
      "happy".toList ∧
    (analyzeEmotion darkWorld
      (analyzeEmotion (litWorld (1 / 4) (1 / 2) (21 / 25)) watchingState).1).1.emotionConfidence =
      91 ∧
    getCurrentEmotion (analyzeEmotion darkWorld
      (analyzeEmotion (litWorld (1 / 4) (1 / 2) (21 / 25)) watchingState).1).1 =
      "You appear to be feeling happy! With 91% confidence, I can see positive emotions. That's wonderful!".toList ∧
    (∀ (w : World) (s : State),
      simulateFaceDetection w.frame w.videoWidth w.videoHeight = false →
        (analyzeEmotion w s).1.currentEmotion = s.currentEmotion ∧
        (analyzeEmotion w s).1.emotionConfidence = s.emotionConfidence ∧
        getCurrentEmotion (analyzeEmotion w s).1 = getCurrentEmotion s) := by
  have hdark := analyzeEmotion_without_face darkWorld
    (analyzeEmotion (litWorld (1 / 4) (1 / 2) (21 / 25)) watchingState).1 darkWorld_shows_no_face
  have hquery : ∀ s t : State, t.currentEmotion = s.currentEmotion →
      t.emotionConfidence = s.emotionConfidence →
      t.emotionDetectionActive = s.emotionDetectionActive →
      getCurrentEmotion t = getCurrentEmotion s := by
    intro s t h1 h2 h3
    unfold getCurrentEmotion
    rw [h1, h2, h3]
  refine ⟨darkWorld_shows_no_face, ?_, ?_, ?_, ?_, ?_, ?_⟩
  · rw [happy_published]
  · rw [happy_published]
  · rw [hdark.1, happy_published]
  · rw [hdark.2.1, happy_published]
  · rw [hquery _ _ hdark.1 hdark.2.1 hdark.2.2, happy_published]
    decide
  · intro w s hface
    have h := analyzeEmotion_without_face w s hface
    exact ⟨h.1, h.2.1, hquery _ _ h.1 h.2.1 h.2.2⟩

/-! ## The weather reply -/

theorem splitAux_space_token (t : JSString) (ht : SpaceFree t) (cur rest : JSString) :
    splitAux " ".toList 0 cur (t ++ rest) = splitAux " ".toList 0 (t.reverse ++ cur) rest := by
  induction t generalizing cur with
  | nil => rfl
  | cons c t ih =>
    have hc : c ≠ ' ' := fun h => ht (by rw [h]; exact List.mem_cons_self _ _)
    have ht' : SpaceFree t := fun h => ht (List.mem_cons_of_mem _ h)
    have hpre : (" ".toList).isPrefixOf (c :: (t ++ rest)) = false := by
      show ([' '] : List Char).isPrefixOf (c :: (t ++ rest)) = false
      simp only [List.isPrefixOf, List.isPrefixOf_nil_left, Bool.and_true, beq_eq_false_iff_ne,
        ne_eq]
      exact fun h => hc h.symm
    show splitAux " ".toList 0 cur (c :: (t ++ rest)) = _
    rw [splitAux, if_neg (by rw [hpre]; exact Bool.false_ne_true), ih ht']
    simp only [List.reverse_cons, List.append_assoc, List.singleton_append]

theorem split_token_then (t : JSString) (ht : SpaceFree t) (rest : JSString) :
    split (t ++ ' ' :: rest) " ".toList = t :: split rest " ".toList := by
  unfold split
  rw [splitAux_space_token t ht]
  simp only [List.append_nil]
  have hpre : (" ".toList).isPrefixOf (' ' :: rest) = true := by
    show ([' '] : List Char).isPrefixOf (' ' :: rest) = true
    simp only [List.isPrefixOf, List.isPrefixOf_nil_left, Bool.and_true, beq_self_eq_true]
  rw [splitAux, if_pos hpre]
  simp only [List.reverse_reverse]
  rfl

theorem split_token (t : JSString) (ht : SpaceFree t) : split t " ".toList = [t] := by
  unfold split
  have h := splitAux_space_token t ht [] []
  rw [List.append_nil] at h
  rw [h]
  simp only [List.append_nil, splitAux, List.reverse_reverse]

theorem getWeatherWithoutAPI_of_body (w : World) (location data : JSString)
    (hbody : w.weather (weatherUrl location) = .text data) :
    getWeatherWithoutAPI w location =
      .fetch (weatherUrl location) ::
        say (weatherSentence w location ((split data " ".toList).getD 0 [])
          ((split data " ".toList).getD 1 "undefined".toList)
          ((split data " ".toList).getD 2 "undefined".toList)) := by
  unfold getWeatherWithoutAPI
  rw [hbody]
  rfl

/-- C22 (amended): `getWeatherWithoutAPI` does not count the tokens of the body.  It gives the
failure message when the request fails; for every body of a response that is ok it gives the
weather sentence built from the first three pieces of the body split at single spaces, with
a missing second or third piece rendered as `undefined` and the pieces after the third
ignored; for a body of exactly three tokens c t w it gives "In <location>, it's currently
<c lower-cased> with a temperature of <t> and <w> wind.". -/
theorem getWeatherWithoutAPI_builds_sentence (w : World) (location : JSString) :
    (w.weather (weatherUrl location) = .failed →
      getWeatherWithoutAPI w location =
        .fetch (weatherUrl location) :: say (weatherFailure location)) ∧
    (∀ data, w.weather (weatherUrl location) = .text data →
      getWeatherWithoutAPI w location =
        .fetch (weatherUrl location) ::
          say (weatherSentence w location ((split data " ".toList).getD 0 [])
            ((split data " ".toList).getD 1 "undefined".toList)
            ((split data " ".toList).getD 2 "undefined".toList))) ∧
    (∀ c t x, SpaceFree c → SpaceFree t → SpaceFree x →
      w.weather (weatherUrl location) = .text (c ++ ' ' :: (t ++ ' ' :: x)) →
      getWeatherWithoutAPI w location =
        .fetch (weatherUrl location) :: say (weatherSentence w location c t x)) ∧
    (∀ c t x more, SpaceFree c → SpaceFree t → SpaceFree x →
      w.weather (weatherUrl location) = .text (c ++ ' ' :: (t ++ ' ' :: (x ++ ' ' :: more))) →
      getWeatherWithoutAPI w location =
        .fetch (weatherUrl location) :: say (weatherSentence w location c t x)) ∧
    (∀ c t, SpaceFree c → SpaceFree t →
      w.weather (weatherUrl location) = .text (c ++ ' ' :: t) →
      getWeatherWithoutAPI w location =
        .fetch (weatherUrl location) ::
          say (weatherSentence w location c t "undefined".toList)) ∧
    (∀ c, SpaceFree c → w.weather (weatherUrl location) = .text c →
      getWeatherWithoutAPI w location =
        .fetch (weatherUrl location) ::
          say (weatherSentence w location c "undefined".toList "undefined".toList)) := by
  refine ⟨?_, ?_, ?_, ?_, ?_, ?_⟩
  · intro h
    unfold getWeatherWithoutAPI
    rw [h]
    rfl
  · intro data h
    exact getWeatherWithoutAPI_of_body w location data h
  · intro c t x hc ht hx h
    rw [getWeatherWithoutAPI_of_body w location _ h, split_token_then c hc,
      split_token_then t ht, split_token x hx]
    rfl
  · intro c t x more hc ht hx h
    rw [getWeatherWithoutAPI_of_body w location _ h, split_token_then c hc,
      split_token_then t ht, split_token_then x hx]
    rfl
  · intro c t hc ht h
    rw [getWeatherWithoutAPI_of_body w location _ h, split_token_then c hc, split_token t ht]
    rfl
  · intro c hc h
    rw [getWeatherWithoutAPI_of_body w location _ h, split_token c hc]
    rfl

set_option maxRecDepth 100000 in
theorem getWeatherWithoutAPI_builds_sentence_example :
    getWeatherWithoutAPI (weatherWorld "Sunny +31C 7km/h".toList) "Delhi".toList =
      [.fetch "https://wttr.in/Delhi?format=%C+%t+%w".toList,
       .display "In Delhi, it's currently sunny with a temperature of +31C and 7km/h wind.".toList,
       .speak "In Delhi, it's currently sunny with a temperature of +31C and 7km/h wind.".toList
         none] ∧
    getWeatherWithoutAPI quietWorld "Delhi".toList =
      [.fetch "https://wttr.in/Delhi?format=%C+%t+%w".toList,
       .display "I couldn't get the weather for Delhi. Please try again later.".toList,
       .speak "I couldn't get the weather for Delhi. Please try again later.".toList none] :=
  ⟨(getWeatherWithoutAPI_builds_sentence (weatherWorld "Sunny +31C 7km/h".toList)
      "Delhi".toList).2.2.1 "Sunny".toList "+31C".toList "7km/h".toList
      (by unfold SpaceFree; decide) (by unfold SpaceFree; decide) (by unfold SpaceFree; decide)
      rfl,
   (getWeatherWithoutAPI_builds_sentence quietWorld "Delhi".toList).1 rfl⟩

set_option maxRecDepth 100000 in
theorem getWeatherWithoutAPI_accepts_other_counts :
    split "Partly cloudy +25C 11km/h".toList " ".toList =
      ["Partly".toList, "cloudy".toList, "+25C".toList, "11km/h".toList] ∧
    getWeatherWithoutAPI (weatherWorld "Partly cloudy +25C 11km/h".toList) "Delhi".toList =
      [.fetch "https://wttr.in/Delhi?format=%C+%t+%w".toList,
       .display "In Delhi, it's currently partly with a temperature of cloudy and +25C wind.".toList,
       .speak "In Delhi, it's currently partly with a temperature of cloudy and +25C wind.".toList
         none] ∧
    getWeatherWithoutAPI (weatherWorld "Sunny".toList) "Delhi".toList =
      [.fetch "https://wttr.in/Delhi?format=%C+%t+%w".toList,
       .display "In Delhi, it's currently sunny with a temperature of undefined and undefined wind.".toList,
       .speak "In Delhi, it's currently sunny with a temperature of undefined and undefined wind.".toList
         none] := by
  refine ⟨by decide, by decide, by decide⟩

/-! ## The encyclopedia reply -/

theorem searchWikipedia_of_response (w : World) (query : JSString) :
    searchWikipedia w query =
      .fetch (WIKIPEDIA_API_URL ++ encodeURIComponent query) ::
        match w.wikipedia (WIKIPEDIA_API_URL ++ encodeURIComponent query) with
        | .json (some (c :: extract)) => say (c :: extract)
        | .json _ => say "Sorry, I couldn't find an answer for that.".toList
        | .failed => say "Sorry, there was an error while fetching from Wikipedia.".toList :=
  rfl

/-- C23 (amended): for every encyclopedia lookup, `searchWikipedia` gives the fixed response
"Sorry, I couldn't find an answer for that." when the body has no `extract` field (or an
empty one), the different fixed response "Sorry, there was an error while fetching from
Wikipedia." when the request itself fails, and exactly the extract when `extract` is present
and non-empty. -/
theorem searchWikipedia_responses (w : World) (query : JSString) :
    (w.wikipedia (WIKIPEDIA_API_URL ++ encodeURIComponent query) = .json none →
      searchWikipedia w query =
        .fetch (WIKIPEDIA_API_URL ++ encodeURIComponent query) ::
          say "Sorry, I couldn't find an answer for that.".toList) ∧
    (w.wikipedia (WIKIPEDIA_API_URL ++ encodeURIComponent query) = .json (some []) →
      searchWikipedia w query =
        .fetch (WIKIPEDIA_API_URL ++ encodeURIComponent query) ::
          say "Sorry, I couldn't find an answer for that.".toList) ∧
    (w.wikipedia (WIKIPEDIA_API_URL ++ encodeURIComponent query) = .failed →
      searchWikipedia w query =
        .fetch (WIKIPEDIA_API_URL ++ encodeURIComponent query) ::
          say "Sorry, there was an error while fetching from Wikipedia.".toList) ∧
    (∀ extract, extract ≠ [] →
      w.wikipedia (WIKIPEDIA_API_URL ++ encodeURIComponent query) = .json (some extract) →
      searchWikipedia w query =
        .fetch (WIKIPEDIA_API_URL ++ encodeURIComponent query) :: say extract) := by
  refine ⟨?_, ?_, ?_, ?_⟩
  · intro h
    rw [searchWikipedia_of_response, h]
  · intro h
    rw [searchWikipedia_of_response, h]
  · intro h
    rw [searchWikipedia_of_response, h]
  · intro extract hne h
    rw [searchWikipedia_of_response, h]
    cases extract with
    | nil => exact absurd rfl hne
    | cons c rest => rfl

set_option maxRecDepth 100000 in
theorem searchWikipedia_responses_example :
    searchWikipedia (wikipediaWorld (.json (some "Alan Turing was a mathematician.".toList)))
        "alan turing".toList =
      [.fetch "https://en.wikipedia.org/api/rest_v1/page/summary/alan%20turing".toList,
       .display "Alan Turing was a mathematician.".toList,
       .speak "Alan Turing was a mathematician.".toList none] :=
  (searchWikipedia_responses
      (wikipediaWorld (.json (some "Alan Turing was a mathematician.".toList)))
      "alan turing".toList).2.2.2 "Alan Turing was a mathematician.".toList (by decide) rfl

set_option maxRecDepth 100000 in
theorem searchWikipedia_failure_message_differs :
    searchWikipedia (wikipediaWorld .failed) "alan turing".toList =
      [.fetch "https://en.wikipedia.org/api/rest_v1/page/summary/alan%20turing".toList,
       .display "Sorry, there was an error while fetching from Wikipedia.".toList,
       .speak "Sorry, there was an error while fetching from Wikipedia.".toList none] ∧
    searchWikipedia (wikipediaWorld (.json none)) "alan turing".toList =
      [.fetch "https://en.wikipedia.org/api/rest_v1/page/summary/alan%20turing".toList,
       .display "Sorry, I couldn't find an answer for that.".toList,
       .speak "Sorry, I couldn't find an answer for that.".toList none] ∧
    searchWikipedia (wikipediaWorld .failed) "alan turing".toList ≠
      searchWikipedia (wikipediaWorld (.json none)) "alan turing".toList := by
  refine ⟨by decide, by decide, by decide⟩

/-! ## The allowlist and the ladder -/

theorem includes_of_testWordFrom (word : JSString) (s : JSString) :
    ∀ prev, testWordFrom word prev s = true → includes s word = true := by
  induction s with
  | nil => intro prev h; simp [testWordFrom] at h
  | cons c s ih =>
    intro prev h
    rw [testWordFrom, Bool.or_eq_true] at h
    rw [includes, Bool.or_eq_true]
    rcases h with h | h
    · simp only [Bool.and_eq_true] at h
      exact Or.inl h.1.1
    · exact Or.inr (ih _ h)

theorem includes_of_testWord (word s : JSString) (h : testWord word s = true) :
    includes s word = true := includes_of_testWordFrom word s none h

theorem cover_or (a b : Bool) (P : Prop) (ha : a = true → P) (hb : b = true → P) :
    (a || b) = true → P := by
  intro h
  rw [Bool.or_eq_true] at h
  exact h.elim ha hb

theorem cover_and_left (a b : Bool) (P : Prop) (ha : a = true → P) : (a && b) = true → P := by
  intro h
  rw [Bool.and_eq_true] at h
  exact ha h.1

theorem firstMatch_of_some_rung (w : World) (s : State) (command : JSString)
    (rules : List Rule) (h : ∃ r ∈ rules, r.applies w command = true) :
    ∃ r ∈ rules, firstMatch w s command rules = r.handler w s command := by
  induction rules with
  | nil =>
    obtain ⟨r, hr, -⟩ := h
    cases hr
  | cons q rest ih =>
    simp only [firstMatch]
    by_cases hq : q.applies w command = true
    · exact ⟨q, List.mem_cons_self _ _, by rw [if_pos hq]⟩
    · rw [if_neg hq]
      obtain ⟨r, hr, happ⟩ := h
      rcases List.mem_cons.mp hr with hr | hr
      · rw [hr] at happ
        exact absurd happ hq
      · obtain ⟨r', hr', heq⟩ := ih ⟨r, hr, happ⟩
        exact ⟨r', List.mem_cons_of_mem _ hr', heq⟩

/-- A command that matches a rung of the ladder is on the allowlist, unless it matches through
one of four conditions that the allowlist does not repeat. -/
theorem ladder_on_allowlist (w : World) (command : JSString) :
    ∀ r ∈ ladder, r.applies w command = true →
      isBasicCommand command = true ∨
      includes command "analyze my emotions".toList = true ∨
      includes (toLowerCase w command) "easiest route from".toList = true ∨
      (includes command "wikipedia".toList && includes command "search".toList) = true ∨
      startsWith command "how".toList = true := by
  have inc : ∀ p, isBasicCommand p = true → includes command p = true →
      (isBasicCommand command = true ∨
        includes command "analyze my emotions".toList = true ∨
        includes (toLowerCase w command) "easiest route from".toList = true ∨
        (includes command "wikipedia".toList && includes command "search".toList) = true ∨
        startsWith command "how".toList = true) :=
    fun p hp h => Or.inl (isBasicCommand_of_includes command p hp h)
  have word : ∀ p, isBasicCommand p = true → testWord p command = true →
      (isBasicCommand command = true ∨
        includes command "analyze my emotions".toList = true ∨
        includes (toLowerCase w command) "easiest route from".toList = true ∨
        (includes command "wikipedia".toList && includes command "search".toList) = true ∨
        startsWith command "how".toList = true) :=
    fun p hp h => inc p hp (includes_of_testWord p command h)
  have starts : ∀ p, isBasicCommand p = true → startsWith command p = true →
      (isBasicCommand command = true ∨
        includes command "analyze my emotions".toList = true ∨
        includes (toLowerCase w command) "easiest route from".toList = true ∨
        (includes command "wikipedia".toList && includes command "search".toList) = true ∨
        startsWith command "how".toList = true) :=
    fun p hp h => inc p hp (includes_of_startsWith command p h)
  simp only [ladder, List.forall_mem_cons, List.not_mem_nil, false_implies, implies_true,
    and_true]
  exact ⟨cover_or _ _ _ (cover_or _ _ _ (inc _ (by decide)) (inc _ (by decide)))
      (inc _ (by decide)),
    inc _ (by decide),
    cover_or _ _ _ (inc _ (by decide)) (inc _ (by decide)),
    cover_or _ _ _ (inc _ (by decide)) (inc _ (by decide)),
    cover_or _ _ _ (inc _ (by decide)) (inc _ (by decide)),
    cover_or _ _ _ (cover_or _ _ _ (inc _ (by decide)) (inc _ (by decide)))
      (fun h => Or.inr (Or.inl h)),
    cover_or _ _ _ (word _ (by decide)) (word _ (by decide)),
    inc _ (by decide),
    starts _ (by decide),
    cover_or _ _ _ (cover_or _ _ _ (inc _ (by decide)) (inc _ (by decide)))
      (inc _ (by decide)),
    cover_or _ _ _ (inc _ (by decide)) (inc _ (by decide)),
    inc _ (by decide),
    cover_or _ _ _ (inc _ (by decide)) (inc _ (by decide)),
    cover_or _ _ _ (word _ (by decide)) (word _ (by decide)),
    cover_or _ _ _ (inc _ (by decide)) (inc _ (by decide)),
    cover_or _ _ _ (word _ (by decide)) (word _ (by decide)),
    cover_or _ _ _ (inc _ (by decide)) (inc _ (by decide)),
    cover_and_left _ _ _ (inc _ (by decide)),
    inc _ (by decide),
    inc _ (by decide),
    inc _ (by decide),
    inc _ (by decide),
    inc _ (by decide),
    inc _ (by decide),
    fun h => Or.inr (Or.inr (Or.inl h)),
    cover_or _ _ _ (inc _ (by decide)) (inc _ (by decide)),
    cover_or _ _ _ (inc _ (by decide)) (inc _ (by decide)),
    fun h => Or.inr (Or.inr (Or.inr (Or.inl h))),
    starts _ (by decide),
    starts _ (by decide),
    cover_or _ _ _ (starts _ (by decide)) (starts _ (by decide)),
    cover_or _ _ _ (starts _ (by decide)) (starts _ (by decide)),
    fun h => Or.inr (Or.inr (Or.inr (Or.inr h)))⟩

theorem processCommand_of_basic_match (w : World) (s : State) (command : JSString)
    (hbasic : isBasicCommand command = true)
    (hrung : ∃ r ∈ ladder, r.applies w command = true) :
    processCommand w s command = basicCommandProcessing w s command ∧
    groqRequests (processCommand w s command).2 = [] := by
  have h := processCommand_of_basic w s command hbasic
  refine ⟨h, ?_⟩
  rw [h]
  obtain ⟨r, hr, heq⟩ := firstMatch_of_some_rung w s command ladder hrung
  have hd : basicCommandProcessing w s command = firstMatch w s command ladder := rfl
  rw [hd, heq]
  exact groqRequests_ladder w s command r hr

/-- C24: the allowlist of `isBasicCommand` does not cover the ladder.  The command
`analyze my emotions` satisfies the emotion-query rung and is not on the allowlist, so with pro
mode active `processCommand` sends it to the language model where with pro mode inactive it
runs the emotion query; `how many moons does jupiter have` (the bare `how` rung) and
`search wikipedia for cats` (the rung testing `wikipedia` and `search` apart) are sent to the
language model in the same way.  Apart from these triggers and the case-insensitive test of
the route rung, every command that satisfies a rung is on the allowlist, and a command on the
allowlist that satisfies a rung is handled by the ladder with no request to the language
model. -/
theorem isBasicCommand_misses_ladder_triggers :
    (ladder.get ⟨5, by decide⟩).applies quietWorld "analyze my emotions".toList = true ∧
    isBasicCommand "analyze my emotions".toList = false ∧
    processCommand (groqWorld "I have no camera.".toList) proState
        "analyze my emotions".toList =
      (proState, [.groqRequest "analyze my emotions".toList,
        .display "I have no camera.".toList, .speak "I have no camera.".toList none]) ∧
    processCommand (groqWorld "I have no camera.".toList) initialState
        "analyze my emotions".toList =
      (initialState, say
        "Emotion detection is not active. Say 'start emotion detection' to begin analyzing your emotions.".toList) ∧
    (ladder.get ⟨32, by decide⟩).applies quietWorld
      "how many moons does jupiter have".toList = true ∧
    isBasicCommand "how many moons does jupiter have".toList = false ∧
    groqRequests (processCommand (groqWorld "Quite a few.".toList) proState
      "how many moons does jupiter have".toList).2 =
      ["how many moons does jupiter have".toList] ∧
    groqRequests (processCommand (groqWorld "Quite a few.".toList) initialState
      "how many moons does jupiter have".toList).2 = [] ∧
    (ladder.get ⟨27, by decide⟩).applies quietWorld "search wikipedia for cats".toList = true ∧
    isBasicCommand "search wikipedia for cats".toList = false ∧
    groqRequests (processCommand (groqWorld "Cats are mammals.".toList) proState
      "search wikipedia for cats".toList).2 = ["search wikipedia for cats".toList] ∧
    (∀ (w : World) (command : JSString), ∀ r ∈ ladder, r.applies w command = true →
      isBasicCommand command = true ∨
      includes command "analyze my emotions".toList = true ∨
      includes (toLowerCase w command) "easiest route from".toList = true ∨
      (includes command "wikipedia".toList && includes command "search".toList) = true ∨
      startsWith command "how".toList = true) ∧
    (∀ (w : World) (s : State) (command : JSString), isBasicCommand command = true →
      (∃ r ∈ ladder, r.applies w command = true) →
      processCommand w s command = basicCommandProcessing w s command ∧
      groqRequests (processCommand w s command).2 = []) := by
  refine ⟨by decide, by decide, by decide, by decide, by decide, by decide, by decide,
    by decide, by decide, by decide, by decide, ladder_on_allowlist,
    processCommand_of_basic_match⟩

/-! ## The location of a weather command -/

theorem includes_cons_false (c : Char) (s p : JSString) (h : includes (c :: s) p = false) :
    p.isPrefixOf (c :: s) = false ∧ includes s p = false := by
  rw [includes, Bool.or_eq_false_iff] at h
  exact h

theorem splitAux_without_separator (sep s cur : JSString)
    (h : includes s sep = false) : splitAux sep 0 cur s = [cur.reverse ++ s] := by
  induction s generalizing cur with
  | nil => simp only [splitAux, List.append_nil]
  | cons c s ih =>
    obtain ⟨h1, h2⟩ := includes_cons_false c s sep h
    rw [splitAux, if_neg (by rw [h1]; exact Bool.false_ne_true), ih _ h2]
    simp only [List.reverse_cons, List.append_assoc, List.singleton_append]

theorem split_weather_in (X : JSString) :
    split ("weather in ".toList ++ X) "in".toList =
      "weather ".toList :: split (' ' :: X) "in".toList := by
  show splitAux ['i', 'n'] 0 []
      ('w' :: 'e' :: 'a' :: 't' :: 'h' :: 'e' :: 'r' :: ' ' :: 'i' :: 'n' :: ' ' :: X) =
    ['w', 'e', 'a', 't', 'h', 'e', 'r', ' '] :: splitAux ['i', 'n'] 0 [] (' ' :: X)
  simp [splitAux, List.isPrefixOf]

theorem trim_space_cons (X : JSString) : trim (' ' :: X) = trim X := by
  unfold trim
  have h : isTrimSpace ' ' = true := by decide
  rw [List.dropWhile_cons_of_pos h]

theorem weatherLocation_of_plain_name (X : JSString) (hX : includes X "in".toList = false) :
    weatherLocation ("weather in ".toList ++ X) = trim X := by
  unfold weatherLocation
  have hin : includes ("weather in ".toList ++ X) "in".toList = true := by
    rw [includes_iff_contains]
    exact ⟨"weather ".toList, ' ' :: X, rfl⟩
  rw [if_pos hin, split_weather_in]
  have hsp : includes (' ' :: X) "in".toList = false := by
    rw [includes, hX, Bool.or_false]
    rfl
  have hsplit : split (' ' :: X) "in".toList = [' ' :: X] :=
    splitAux_without_separator _ _ [] hsp
  rw [hsplit]
  exact trim_space_cons X

/-- C25: the weather branch cuts the location at the first `in` inside it.  For
`weather in berlin` the location requested is `berl`, for `weather in china` it is `ch` and
for `weather in india` it is empty, where a name without `in` such as `paris` is requested
as it stands; in general `weather in X` requests X (trimmed) whenever `in` does not occur in
X, and a command in which `in` does not occur requests `Bangalore`. -/
theorem weatherLocation_cuts_name_at_in :
    weatherLocation "weather in berlin".toList = "berl".toList ∧
    weatherLocation "weather in china".toList = "ch".toList ∧
    weatherLocation "weather in india".toList = [] ∧
    weatherLocation "weather in paris".toList = "paris".toList ∧
    weatherLocation "weather".toList = "Bangalore".toList ∧
    fetched (processCommand quietWorld initialState "weather in berlin".toList).2 =
      ["https://wttr.in/berl?format=%C+%t+%w".toList] ∧
    fetched (processCommand quietWorld initialState "weather in paris".toList).2 =
      ["https://wttr.in/paris?format=%C+%t+%w".toList] ∧
    (∀ X, includes X "in".toList = false →
      weatherLocation ("weather in ".toList ++ X) = trim X) ∧
    (∀ command, includes command "in".toList = false →
      weatherLocation command = "Bangalore".toList) := by
  refine ⟨by decide, by decide, by decide, by decide, by decide, ?_, ?_,
    weatherLocation_of_plain_name, ?_⟩
  · decide
  · decide
  · intro command h
    unfold weatherLocation
    rw [if_neg (by rw [h]; exact Bool.false_ne_true)]

end Marvin
